import Mathlib

/-!
# VIDTrack: dense RGB-D pose refinement

A shallow embedding of `src/libdevil/src/dtrack.cpp`: the bilinear sampler
`interp`, the per-pixel reducer `PoseRefine` (`operator()`, `join`,
`_NormTukey`) and the coarse-to-fine driver `DTrack::Estimate`.

Conventions of the embedding.

* Arithmetic is exact: `float` and `double` values are rationals.  A depth
  cell is an `Option ℚ`, `none` standing for the not-a-number sentinel which
  the source detects with `depth != depth`.
* A quotient whose divisor is zero evaluates to `0` in `ℚ` and to a non-finite
  value in IEEE arithmetic; statements that depend on a quotient carry the
  hypothesis that its divisor is non-zero.
* Fixed-size Eigen vectors and matrices are functions on `Fin n`.
* Functions of the external libraries (libm, Eigen, Sophus, OpenCV, calibu)
  whose value is not rational, or whose code is not part of the repository, are
  fields of the structure `Lib`.
-/

namespace VIDTrack

open Matrix

abbrev Vec3 := Fin 3 → ℚ
abbrev Vec4 := Fin 4 → ℚ
abbrev Vec6 := Fin 6 → ℚ
abbrev Mat3 := Matrix (Fin 3) (Fin 3) ℚ
abbrev Mat4 := Matrix (Fin 4) (Fin 4) ℚ
abbrev Mat6 := Matrix (Fin 6) (Fin 6) ℚ
abbrev Mat2x3 := Matrix (Fin 2) (Fin 3) ℚ
abbrev Mat3x4 := Matrix (Fin 3) (Fin 4) ℚ

/-- A `cv::Mat` of one channel: row-major buffer `data` with stride `cols`. -/
structure Image (α : Type) where
  cols : ℕ
  rows : ℕ
  data : ℕ → α

/-- The accessor `img.at<float>(v, u)`: row `v`, column `u`. -/
def Image.atFloat {α : Type} (img : Image α) (v u : ℕ) : α :=
  img.data (v * img.cols + u)

/-- The conversion `static_cast<int>(x)`: truncation towards zero. -/
def toInt (x : ℚ) : ℤ :=
  if 0 ≤ x then ⌊x⌋ else -⌊-x⌋

/-- The clamp `std::max(std::min(x, static_cast<float>(n)-2.0f), 2.0f)` of
`interp` (lines 37-38). -/
def clampCoord (x : ℚ) (n : ℕ) : ℚ :=
  max (min x ((n : ℚ) - 2)) 2

/-- The bilinear sampler `interp` (lines 24-64).  The `LOG(ERROR)` diagnostic of
lines 32-35 has no effect on the result and is left out. -/
def interp (x y : ℚ) (image_ptr : ℕ → ℚ) (image_width image_height : ℕ) : ℚ :=
  let x := clampCoord x image_width
  let y := clampCoord y image_height
  let px : ℤ := toInt x
  let py : ℤ := toInt y
  let ax : ℚ := x - px
  let ay : ℚ := y - py
  let ax1 : ℚ := 1 - ax
  let ay1 : ℚ := 1 - ay
  let p0 : ℕ := image_width * py.toNat + px.toNat
  let p1 := image_ptr p0
  let p2 := image_ptr (p0 + 1)
  let p3 := image_ptr (p0 + image_width)
  let p4 := image_ptr (p0 + image_width + 1)
  let p1 := p1 * ay1
  let p2 := p2 * ay1
  let p3 := p3 * ay
  let p4 := p4 * ay
  let p1 := p1 + p3
  let p2 := p2 + p4
  let p1 := p1 * ax1
  let p2 := p2 * ax
  p1 + p2

/-- The robust weight `PoseRefine::_NormTukey` (lines 307-315). -/
def _NormTukey (r c : ℚ) : ℚ :=
  let absr := |r|
  let roc := r / c
  let omroc2 := 1 - roc * roc
  if absr ≤ c then omroc2 * omroc2 else 0

/-- The read-only members of `PoseRefine` (lines 336-349). -/
structure PoseRefine where
  live_grey_ : Image ℚ
  ref_grey_ : Image ℚ
  ref_depth_ : Image (Option ℚ)
  Klg_ : Mat3
  Krg_ : Mat3
  Krd_ : Mat3
  Tgd_ : Mat4
  Tlr_ : Mat4
  KlgTlr_ : Mat3x4
  norm_param_ : ℚ
  discard_saturated_ : Bool
  min_depth_ : ℚ
  max_depth_ : ℚ

/-- The public accumulator members of `PoseRefine` (lines 330-334).  The count
`num_obs` is an `unsigned int`; one reduction adds at most one per cell of a
`cv::Mat`, whose cell count is an `int`, so it does not wrap. -/
@[ext]
structure Accum where
  LHS : Mat6
  RHS : Vec6
  hessian : Mat6
  error : ℚ
  num_obs : ℕ

/-- The accumulators as both constructors leave them (lines 87-88, 103-105 and
113-114, 129-131): everything zero. -/
def Accum.zero : Accum :=
  { LHS := 0, RHS := 0, hessian := 0, error := 0, num_obs := 0 }

/-- The method `PoseRefine::join` (lines 296-303). -/
def Accum.join (a other : Accum) : Accum :=
  { LHS := a.LHS + other.LHS
    RHS := a.RHS + other.RHS
    hessian := a.hessian + other.hessian
    error := a.error + other.error
    num_obs := a.num_obs + other.num_obs }

/-- The test of lines 175-176 and 189-190 on a projected point: true when the
pixel is skipped. -/
def outOfBounds (x y : ℚ) (img : Image ℚ) : Bool :=
  decide (x < 2) || decide (x ≥ ((img.cols : ℤ) - 3 : ℤ)) || decide (y < 2)
    || decide (y ≥ ((img.rows : ℤ) - 3 : ℤ))

/-- The central differences of lines 217-235 and 240-258 for one image:
`((I(x+1,y) - I(x-1,y))/2, (I(x,y+1) - I(x,y-1))/2)`. -/
def imageDerivative (x y : ℚ) (img : Image ℚ) : Fin 2 → ℚ :=
  let I_xr := interp (x + 1) y img.data img.cols img.rows
  let I_xl := interp (x - 1) y img.data img.cols img.rows
  let I_yu := interp x (y - 1) img.data img.cols img.rows
  let I_yd := interp x (y + 1) img.data img.cols img.rows
  ![(I_xr - I_xl) / 2, (I_yd - I_yu) / 2]

/-- The body of the loop of `PoseRefine::operator()` for the index `ii`, up to
the Jacobian (lines 139-278): `none` when the pixel is skipped by one of the
`continue` statements, otherwise the Jacobian `J` and the residual `y`. -/
def PoseRefine.pixel (p : PoseRefine) (ii : ℕ) : Option (Vec6 × ℚ) :=
  let u : ℕ := ii % p.ref_depth_.cols
  let v : ℕ := ii / p.ref_depth_.cols
  match p.ref_depth_.atFloat v u with
  | none => none
  | some depth =>
    if depth ≤ p.min_depth_ ∨ depth ≥ p.max_depth_ then none else
    let hPr_d : Vec4 :=
      ![depth * ((u : ℚ) - p.Krd_ 0 2) / p.Krd_ 0 0,
        depth * ((v : ℚ) - p.Krd_ 1 2) / p.Krd_ 1 1, depth, 1]
    let hPr_g : Vec4 := p.Tgd_.mulVec hPr_d
    let pr_g0 : ℚ := hPr_g 0 * p.Krg_ 0 0 / hPr_g 2 + p.Krg_ 0 2
    let pr_g1 : ℚ := hPr_g 1 * p.Krg_ 1 1 / hPr_g 2 + p.Krg_ 1 2
    if outOfBounds pr_g0 pr_g1 p.ref_grey_ then none else
    let hPl_g : Vec4 := p.Tlr_.mulVec hPr_g
    let pl_g0 : ℚ := hPl_g 0 * p.Klg_ 0 0 / hPl_g 2 + p.Klg_ 0 2
    let pl_g1 : ℚ := hPl_g 1 * p.Klg_ 1 1 / hPl_g 2 + p.Klg_ 1 2
    if outOfBounds pl_g0 pl_g1 p.live_grey_ then none else
    let Il := interp pl_g0 pl_g1 p.live_grey_.data p.live_grey_.cols p.live_grey_.rows
    let Ir := interp pr_g0 pr_g1 p.ref_grey_.data p.ref_grey_.cols p.ref_grey_.rows
    if p.discard_saturated_ && (decide (Il = 0) || decide (Il = 1) || decide (Ir = 0)
        || decide (Ir = 1)) then none else
    let y : ℚ := Il - Ir
    let dIl := imageDerivative pl_g0 pl_g1 p.live_grey_
    let dIr := imageDerivative pr_g0 pr_g1 p.ref_grey_
    let KlPl : Vec3 := p.Klg_.mulVec ![hPl_g 0, hPl_g 1, hPl_g 2]
    let dPl : Mat2x3 :=
      !![1 / KlPl 2, 0, -KlPl 0 / (KlPl 2 * KlPl 2);
         0, 1 / KlPl 2, -KlPl 1 / (KlPl 2 * KlPl 2)]
    let dIesm : Fin 2 → ℚ := fun i => (dIl i + dIr i) / 2
    let a : Vec4 := Matrix.vecMul (Matrix.vecMul dIesm dPl) p.KlgTlr_
    let J : Vec6 :=
      ![a 0, a 1, a 2,
        -a 1 * hPr_g 2 + a 2 * hPr_g 1,
        a 0 * hPr_g 2 - a 2 * hPr_g 0,
        -a 0 * hPr_g 1 + a 1 * hPr_g 0]
    some (J, y)

/-- One pass of the loop of `PoseRefine::operator()` (lines 138-292): a skipped
pixel leaves the accumulators alone, a contributing one runs lines 284-291. -/
def PoseRefine.step (p : PoseRefine) (acc : Accum) (ii : ℕ) : Accum :=
  match p.pixel ii with
  | none => acc
  | some (J, y) =>
    let w := _NormTukey y p.norm_param_
    { LHS := acc.LHS + Matrix.of fun i j => J i * J j * w
      RHS := acc.RHS + fun i => J i * y * w
      hessian := acc.hessian + Matrix.of fun i j => J i * J j
      error := acc.error + y * y
      num_obs := acc.num_obs + 1 }

/-- The call `PoseRefine::operator()(r)` on the range `[r_begin, r_end)`, from
the accumulators `acc` the object holds when it is called. -/
def PoseRefine.run (p : PoseRefine) (acc : Accum) (r_begin r_end : ℕ) : Accum :=
  (List.range' r_begin (r_end - r_begin)).foldl p.step acc

/-- The contiguous chunks `[s, s+l₀), [s+l₀, s+l₀+l₁), ...` of the given
lengths, from the index `s` on: a partition of a `tbb::blocked_range`. -/
def chunksFrom : ℕ → List ℕ → List (ℕ × ℕ)
  | _, [] => []
  | s, l :: ls => (s, s + l) :: chunksFrom (s + l) ls

/-- A way to combine chunk results: a leaf is a body made by the split
constructor (accumulators at zero) that ran `operator()` on `[r_begin, r_end)`,
a node is `left.join(right)`. -/
inductive JoinTree where
  | leaf (r_begin r_end : ℕ) : JoinTree
  | node (left right : JoinTree) : JoinTree

/-- The chunks at the leaves of a tree, from left to right. -/
def JoinTree.leaves : JoinTree → List (ℕ × ℕ)
  | .leaf b e => [(b, e)]
  | .node l r => l.leaves ++ r.leaves

/-- The accumulators a tree of joins ends with. -/
def JoinTree.eval (p : PoseRefine) : JoinTree → Accum
  | .leaf b e => p.run Accum.zero b e
  | .node l r => (l.eval p).join (r.eval p)

/-- The call `tbb::parallel_reduce(tbb::blocked_range<size_t>(0, n, 10000), pose_ref)`
(lines 478-479).  TBB cuts `[0, n)` into chunks, runs `operator()` on each with
bodies made by the split constructor and merges them with `join`; in exact
arithmetic the result is that of one run over the whole range, whatever the
chunks, and that run is what this definition evaluates. -/
def parallel_reduce (n : ℕ) (pose_ref : PoseRefine) : Accum :=
  pose_ref.run Accum.zero 0 n

/-- A `Sophus::SE3d`, as its rotation matrix and translation vector. -/
structure SE3 where
  R : Mat3
  t : Vec3

/-- The identity transform, `Sophus::SE3d()`. -/
def SE3.identity : SE3 := { R := 1, t := 0 }

/-- The product `a*b` of two transforms. -/
def SE3.mul (a b : SE3) : SE3 :=
  { R := a.R * b.R, t := a.R.mulVec b.t + a.t }

/-- The method `inverse()`: `(R, t)` goes to `(Rᵀ, -Rᵀ t)`. -/
def SE3.inverse (a : SE3) : SE3 :=
  { R := a.Rᵀ, t := -(a.Rᵀ.mulVec a.t) }

/-- The method `matrix3x4()`: the rows `[R | t]`. -/
def SE3.matrix3x4 (a : SE3) : Mat3x4 :=
  Matrix.of fun i j => if h : j.val < 3 then a.R i ⟨j.val, h⟩ else a.t i

/-- The method `matrix()`: `[R | t]` over the row `(0, 0, 0, 1)`. -/
def SE3.matrix (a : SE3) : Mat4 :=
  Matrix.of fun i j =>
    if h : i.val < 3 then a.matrix3x4 ⟨i.val, h⟩ j else (if j.val = 3 then 1 else 0)

/-- The functions of external libraries that `DTrack` calls and that are
either not rational-valued or not part of the repository: `sqrt` (libm, also
inside Eigen's `norm()`), `Sophus::SE3Group<double>::exp`, the solve of
`Eigen::FullPivLU` for 6x6 and 3x3 systems, Eigen's `inverse()`,
`cv::buildPyramid` for grey and for depth images (as a map from the level to
the image of that level) and calibu's `Scaled`, a camera model being
represented by its matrix `K()`. -/
structure Lib where
  sqrt : ℚ → ℚ
  exp : Vec6 → SE3
  solve6 : Mat6 → Vec6 → Vec6
  solve3 : Mat3 → Vec3 → Vec3
  inverse6 : Mat6 → Mat6
  buildPyramid : Image ℚ → ℕ → ℕ → Image ℚ
  buildDepthPyramid : Image (Option ℚ) → ℕ → ℕ → Image (Option ℚ)
  Scaled : Mat3 → ℚ → Mat3

/-- The members of `DTrack` that the tracker reads and writes.  A pyramid is
the map from a level to its image (`cv::buildPyramid` fills the levels
`0..maxlevel`). -/
structure DTrack where
  kPyramidLevels : ℕ
  live_grey_cam_model_ : List Mat3
  ref_grey_cam_model_ : List Mat3
  ref_depth_cam_model_ : List Mat3
  Tgd_ : SE3
  live_grey_pyramid_ : ℕ → Image ℚ
  ref_grey_pyramid_ : ℕ → Image ℚ
  ref_depth_pyramid_ : ℕ → Image (Option ℚ)

/-- An image with no cell, as a `cv::Mat` is before it is assigned. -/
def Image.empty {α : Type} (a : α) : Image α :=
  { cols := 0, rows := 0, data := fun _ => a }

/-- The constructor `DTrack::DTrack(pyramid_levels)` (lines 354-359): the
level count is stored, the vectors are empty, `Tgd_` is the identity. -/
def DTrack.init (pyramid_levels : ℕ) : DTrack :=
  { kPyramidLevels := pyramid_levels
    live_grey_cam_model_ := []
    ref_grey_cam_model_ := []
    ref_depth_cam_model_ := []
    Tgd_ := SE3.identity
    live_grey_pyramid_ := fun _ => Image.empty 0
    ref_grey_pyramid_ := fun _ => Image.empty 0
    ref_depth_pyramid_ := fun _ => Image.empty none }

/-- The method `DTrack::_ScaleCM` (lines 562-570): `scale = 1.0f/(1 << level)`. -/
def DTrack._ScaleCM (lib : Lib) (cam_model : Mat3) (level : ℕ) : Mat3 :=
  let scale : ℚ := 1 / ((2 : ℚ) ^ level)
  lib.Scaled cam_model scale

/-- The loop of `DTrack::SetParams` (lines 376-380), from `ii` on for `n` more
levels: three `push_back` per level. -/
def DTrack.pushScaled (lib : Lib) (live_grey_cmod ref_grey_cmod ref_depth_cmod : Mat3) :
    ℕ → ℕ → DTrack → DTrack
  | 0, _, d => d
  | n + 1, ii, d =>
    DTrack.pushScaled lib live_grey_cmod ref_grey_cmod ref_depth_cmod n (ii + 1)
      { d with
        live_grey_cam_model_ := d.live_grey_cam_model_ ++ [DTrack._ScaleCM lib live_grey_cmod ii]
        ref_grey_cam_model_ := d.ref_grey_cam_model_ ++ [DTrack._ScaleCM lib ref_grey_cmod ii]
        ref_depth_cam_model_ :=
          d.ref_depth_cam_model_ ++ [DTrack._ScaleCM lib ref_depth_cmod ii] }

/-- The method `DTrack::SetParams` (lines 368-385). -/
def DTrack.SetParams (lib : Lib) (d : DTrack)
    (live_grey_cmod ref_grey_cmod ref_depth_cmod : Mat3) (Tgd : SE3) : DTrack :=
  let d := DTrack.pushScaled lib live_grey_cmod ref_grey_cmod ref_depth_cmod
    d.kPyramidLevels 0 d
  { d with Tgd_ := Tgd }

/-- The method `DTrack::SetKeyframe` (lines 388-396). -/
def DTrack.SetKeyframe (lib : Lib) (d : DTrack) (ref_grey : Image ℚ)
    (ref_depth : Image (Option ℚ)) : DTrack :=
  { d with
    ref_grey_pyramid_ := lib.buildPyramid ref_grey d.kPyramidLevels
    ref_depth_pyramid_ := lib.buildDepthPyramid ref_depth d.kPyramidLevels }

/-- The constant `FLT_MAX` of `<cfloat>`: `(2 - 2^(-23)) * 2^127`. -/
def FLT_MAX : ℚ := (2 ^ 24 - 1) * 2 ^ 104

/-- The option `norm_c` of `Estimate` (line 408). -/
def norm_c : ℚ := 4 / 100

/-- The option `discard_saturated` of `Estimate` (line 409). -/
def discard_saturated : Bool := true

/-- The option `min_depth` of `Estimate` (line 410). -/
def min_depth : ℚ := 1 / 100

/-- The option `max_depth` of `Estimate` (line 411). -/
def max_depth : ℚ := 100

/-- The mask `vec_full_estimate` of `Estimate` (line 414). -/
def vec_full_estimate : List Bool := [true, true, true, false]

/-- The schedule `vec_max_iterations` of `Estimate` (lines 415-419). -/
def vec_max_iterations (use_pyramid : Bool) : List ℕ :=
  if use_pyramid = false then [3, 0, 0, 0] else [1, 2, 3, 4]

/-- The value `sqrt(squared_error/number_observations)` of line 523.  With no
observation the quotient is `0/0` (or `x/0`), not a finite number: `none`, which
no comparison `new_error < last_error` accepts. -/
def rmse (lib : Lib) (squared_error : ℚ) (number_observations : ℕ) : Option ℚ :=
  if number_observations = 0 then none
  else some (lib.sqrt (squared_error / (number_observations : ℚ)))

/-- The value `X.norm()` of line 542: the square root of the sum of squares. -/
def norm (lib : Lib) (X : Vec6) : ℚ :=
  lib.sqrt (X ⬝ᵥ X)

/-- What one pass of the inner loop of `Estimate` computes before the test of
line 525: the reducer after `parallel_reduce`, the update `X`, the RMS. -/
structure IterOut where
  pose_ref : Accum
  X : Vec6
  new_error : Option ℚ

/-- The reducer object `pose_ref` that `Estimate` builds at lines 474-476, for
the level `pyramid_lvl` (images of lines 437-439, `norm_c_pyr` of line 452),
the camera models bound at lines 441-446 and the current `Trl` (lines
465-471). -/
def DTrack.poseRefine (d : DTrack) (pyramid_lvl : ℕ)
    (live_grey_cmod ref_grey_cmod ref_depth_cmod : Mat3) (Trl : SE3) : PoseRefine :=
  let live_grey_img := d.live_grey_pyramid_ pyramid_lvl
  let ref_grey_img := d.ref_grey_pyramid_ pyramid_lvl
  let ref_depth_img := d.ref_depth_pyramid_ pyramid_lvl
  let norm_c_pyr : ℚ := norm_c * ((pyramid_lvl : ℚ) + 1)
  let Tlr := Trl.inverse
  let Klg := live_grey_cmod
  let Krg := ref_grey_cmod
  let Krd := ref_depth_cmod
  let KlgTlr : Mat3x4 := Klg * Tlr.matrix3x4
  { live_grey_ := live_grey_img, ref_grey_ := ref_grey_img, ref_depth_ := ref_depth_img,
    Klg_ := Klg, Krg_ := Krg, Krd_ := Krd, Tgd_ := d.Tgd_.matrix, Tlr_ := Tlr.matrix,
    KlgTlr_ := KlgTlr, norm_param_ := norm_c_pyr, discard_saturated_ := discard_saturated,
    min_depth_ := min_depth, max_depth_ := max_depth }

/-- The solution `X` of lines 487-520: the full 6x6 system, or the rotation
block `LHS.block<3,3>(3,3)`, `RHS.tail(3)` padded with zeros. -/
def solveX (lib : Lib) (full_estimate : Bool) (LHS : Mat6) (RHS : Vec6) : Vec6 :=
  if full_estimate then
    -(lib.solve6 LHS RHS)
  else
    let rLHS : Mat3 := Matrix.of fun i j => LHS (Fin.natAdd 3 i) (Fin.natAdd 3 j)
    let rRHS : Vec3 := fun i => RHS (Fin.natAdd 3 i)
    let rX : Vec3 := -(lib.solve3 rLHS rRHS)
    ![0, 0, 0, rX 0, rX 1, rX 2]

/-- Lines 464-523 of `Estimate`: the reduction, the solution and the RMS. -/
def DTrack.solveStep (lib : Lib) (d : DTrack) (pyramid_lvl : ℕ)
    (live_grey_cmod ref_grey_cmod ref_depth_cmod : Mat3) (full_estimate : Bool)
    (Trl : SE3) : IterOut :=
  let ref_depth_img := d.ref_depth_pyramid_ pyramid_lvl
  let pose_ref := parallel_reduce (ref_depth_img.cols * ref_depth_img.rows)
    (d.poseRefine pyramid_lvl live_grey_cmod ref_grey_cmod ref_depth_cmod Trl)
  let LHS := pose_ref.LHS
  let RHS := pose_ref.RHS
  let squared_error := pose_ref.error
  let number_observations := pose_ref.num_obs
  { pose_ref := pose_ref, X := solveX lib full_estimate LHS RHS,
    new_error := rmse lib squared_error number_observations }

/-- The test `new_error < last_error` of line 525. -/
def accepts (new_error : Option ℚ) (last_error : ℚ) : Bool :=
  match new_error with
  | some e => decide (e < last_error)
  | none => false

/-- A record of one pass of the inner loop, kept to state properties of a run:
the level and the counter `num_iters`, `Trl` and `last_error` on entry, what the
pass computed, and whether line 525 accepted it. -/
structure IterRecord where
  pyramid_lvl : ℕ
  num_iters : ℕ
  Trl_in : SE3
  last_error_in : ℚ
  out : IterOut
  accepted : Bool

/-- The variables of `Estimate` that live across iterations: the in/out
argument `Trl`, the locals `hessian` and `last_error`, and the record of the
passes made so far. -/
structure EstState where
  Trl : SE3
  hessian : Mat6
  last_error : ℚ
  log : List IterRecord

/-- The pass of the inner loop that starts in the state `s`, up to the test of
line 525. -/
def DTrack.pass (lib : Lib) (d : DTrack) (pyramid_lvl : ℕ)
    (live_grey_cmod ref_grey_cmod ref_depth_cmod : Mat3) (full_estimate : Bool)
    (num_iters : ℕ) (s : EstState) : IterRecord :=
  let o := d.solveStep lib pyramid_lvl live_grey_cmod ref_grey_cmod ref_depth_cmod
    full_estimate s.Trl
  { pyramid_lvl := pyramid_lvl, num_iters := num_iters, Trl_in := s.Trl,
    last_error_in := s.last_error, out := o, accepted := accepts o.new_error s.last_error }

/-- The state after an accepted pass (lines 526-540): `last_error` and `Trl`
are updated, and `hessian`, reset at line 456, takes the reducer's at level 0. -/
def afterAccept (lib : Lib) (s : EstState) (r : IterRecord) : EstState :=
  { Trl := ((s.Trl.inverse).mul (lib.exp r.out.X)).inverse
    hessian := if r.pyramid_lvl = 0 then r.out.pose_ref.hessian else 0
    last_error := r.out.new_error.getD s.last_error
    log := s.log ++ [r] }

/-- The state after a rejected pass (lines 547-551): only the reset of line
456 has touched the variables. -/
def afterReject (s : EstState) (r : IterRecord) : EstState :=
  { s with hessian := 0, log := s.log ++ [r] }

/-- The inner loop of `Estimate` (lines 454-552) with `remaining` passes left
of the level's budget and the counter at `num_iters`. -/
def DTrack.iterate (lib : Lib) (d : DTrack) (pyramid_lvl : ℕ)
    (live_grey_cmod ref_grey_cmod ref_depth_cmod : Mat3) (full_estimate : Bool) :
    ℕ → ℕ → EstState → EstState
  | 0, _, s => s
  | remaining + 1, num_iters, s =>
    let r := d.pass lib pyramid_lvl live_grey_cmod ref_grey_cmod ref_depth_cmod full_estimate
      num_iters s
    if r.accepted then
      let s1 := afterAccept lib s r
      if norm lib r.out.X < 1 / 100000 then s1
      else DTrack.iterate lib d pyramid_lvl live_grey_cmod ref_grey_cmod ref_depth_cmod
        full_estimate remaining (num_iters + 1) s1
    else afterReject s r

/-- One pass of the outer loop of `Estimate` (lines 437-552) for the level
`pyramid_lvl`.  Reading a `std::vector` past its end is undefined: `none`. -/
def DTrack.level (lib : Lib) (d : DTrack) (use_pyramid : Bool) (pyramid_lvl : ℕ)
    (s : EstState) : Option EstState :=
  match d.ref_grey_cam_model_[pyramid_lvl]?, d.ref_grey_cam_model_[pyramid_lvl]?,
      d.ref_depth_cam_model_[pyramid_lvl]?, (vec_max_iterations use_pyramid)[pyramid_lvl]?,
      vec_full_estimate[pyramid_lvl]? with
  | some live_grey_cmod, some ref_grey_cmod, some ref_depth_cmod, some max_iterations,
      some full_estimate =>
    some (d.iterate lib pyramid_lvl live_grey_cmod ref_grey_cmod ref_depth_cmod full_estimate
      max_iterations 0 { s with last_error := FLT_MAX })
  | _, _, _, _, _ => none

/-- The outer loop of `Estimate` over the levels `lvls`, in that order. -/
def DTrack.levels (lib : Lib) (d : DTrack) (use_pyramid : Bool) :
    List ℕ → EstState → Option EstState
  | [], s => some s
  | pyramid_lvl :: rest, s =>
    match d.level lib use_pyramid pyramid_lvl s with
    | none => none
    | some s1 => DTrack.levels lib d use_pyramid rest s1

/-- The levels in the order of the loop of line 436:
`kPyramidLevels-1, ..., 1, 0`. -/
def levelsDown (kPyramidLevels : ℕ) : List ℕ :=
  (List.range kPyramidLevels).reverse

/-- What `Estimate` leaves behind: the in/out argument `Trl`, the output
`covariance`, the returned value, the tracker with its live pyramid, and the
record of the passes of the run. -/
structure EstimateResult where
  Trl : SE3
  covariance : Mat6
  returned : ℚ
  tracker : DTrack
  log : List IterRecord

/-- The state in which `Estimate` enters its outer loop (lines 428-433).  The
local `hessian` is not initialised in the source: `hessian_init` is whatever
it holds. -/
def initState (Trl : SE3) (hessian_init : Mat6) : EstState :=
  { Trl := Trl, hessian := hessian_init, last_error := FLT_MAX, log := [] }

/-- What `Estimate` hands back from the state its loops end in (lines
555-558): `covariance = hessian.inverse()` and `return last_error`. -/
def finish (lib : Lib) (tracker : DTrack) (s : EstState) : EstimateResult :=
  { Trl := s.Trl, covariance := lib.inverse6 s.hessian, returned := s.last_error,
    tracker := tracker, log := s.log }

/-- The tracker once line 425 has rebuilt the live pyramid. -/
def DTrack.withLive (lib : Lib) (d : DTrack) (live_grey : Image ℚ) : DTrack :=
  { d with live_grey_pyramid_ := lib.buildPyramid live_grey d.kPyramidLevels }

/-- The method `DTrack::Estimate` (lines 399-559).  A failed `CHECK_EQ` (lines
421-422) aborts the program: `none`. -/
def DTrack.Estimate (lib : Lib) (d : DTrack) (live_grey : Image ℚ) (Trl : SE3)
    (use_pyramid : Bool) (hessian_init : Mat6) : Option EstimateResult :=
  if vec_full_estimate.length ≠ d.kPyramidLevels then none
  else if (vec_max_iterations use_pyramid).length ≠ d.kPyramidLevels then none
  else
    let d1 : DTrack := d.withLive lib live_grey
    match d1.levels lib use_pyramid (levelsDown d1.kPyramidLevels)
        (initState Trl hessian_init) with
    | none => none
    | some s => some (finish lib d1 s)

/-- What lines 287-291 of `operator()` add to the accumulators for a
contributing pixel of Jacobian `J` and residual `y` (the pair `Jy`), at the
Tukey scale `norm_param`. -/
def Accum.observe (norm_param : ℚ) (acc : Accum) (Jy : Vec6 × ℚ) : Accum :=
  { LHS := acc.LHS + Matrix.of fun i j => Jy.1 i * Jy.1 j * _NormTukey Jy.2 norm_param
    RHS := acc.RHS + fun i => Jy.1 i * Jy.2 * _NormTukey Jy.2 norm_param
    hessian := acc.hessian + Matrix.of fun i j => Jy.1 i * Jy.1 j
    error := acc.error + Jy.2 * Jy.2
    num_obs := acc.num_obs + 1 }

/-- The join of the results of a list of chunks, each reduced from zero. -/
def joinAll (p : PoseRefine) (l : List (ℕ × ℕ)) : Accum :=
  l.foldr (fun c acc => (p.run Accum.zero c.1 c.2).join acc) Accum.zero

/-- The property of `LHS` that every pass of the loop of `operator()` keeps:
symmetric, with a non-negative quadratic form. -/
def SymPsd (M : Mat6) : Prop :=
  M.IsSymm ∧ ∀ x : Vec6, 0 ≤ x ⬝ᵥ M.mulVec x

/-- A depth cell that line 150 (not a number) or line 154 (out of the range
`(lo, hi)`) rejects. -/
def invalidDepth (cell : Option ℚ) (lo hi : ℚ) : Prop :=
  cell = none ∨ ∃ x, cell = some x ∧ (x ≤ lo ∨ hi ≤ x)

/-- What `Estimate` needs of the tracker to reach its `return`: four levels
(the `CHECK_EQ` of lines 421-422) and camera models stored for each of them. -/
def DTrack.Ready (d : DTrack) : Prop :=
  d.kPyramidLevels = 4 ∧ 4 ≤ d.ref_grey_cam_model_.length
    ∧ 4 ≤ d.ref_depth_cam_model_.length

/-- The invariant of the loops of `Estimate` on an identity round trip: `Trl`
is the identity, every reducer run so far had zero error and zero `RHS`, and
every accepted pass had RMS zero and a zero update. -/
def IdentityRun (s : EstState) : Prop :=
  s.Trl = SE3.identity ∧ ∀ it ∈ s.log, it.out.pose_ref.error = 0 ∧ it.out.pose_ref.RHS = 0
    ∧ (it.accepted = true → it.out.new_error = some 0 ∧ it.out.X = 0)

/-- The invariant of the loops of `Estimate` when no depth cell is valid:
`Trl` is the hint, and every reducer run so far came back with its
accumulators at zero and was rejected. -/
def EmptyRun (Trl : SE3) (s : EstState) : Prop :=
  s.Trl = Trl ∧ ∀ it ∈ s.log, it.out.pose_ref = Accum.zero ∧ it.out.new_error = none
    ∧ it.accepted = false

/-! ## Worked examples -/

/-- Plain subsampling by `2^lvl` in both directions: the level `lvl` of the
pyramids of `exactLib`.  Level 0 is the image itself. -/
def subsample {α : Type} (img : Image α) (lvl : ℕ) : Image α :=
  { cols := img.cols / 2 ^ lvl
    rows := img.rows / 2 ^ lvl
    data := fun i =>
      img.data ((i / (img.cols / 2 ^ lvl)) * 2 ^ lvl * img.cols
        + (i % (img.cols / 2 ^ lvl)) * 2 ^ lvl) }

/-- A concrete library for the worked examples, exact where they use it:
`sqrt` on the square of a rational, `exp` on a pure translation, the solve and
the inverse of a non-singular system (by the rule of Cramer), `Scaled` as a scaling
of the first two rows of `K` (focal lengths and principal point); its pyramids
subsample. -/
def exactLib : Lib :=
  { sqrt := Rat.sqrt
    exp := fun X => { R := 1, t := ![X 0, X 1, X 2] }
    solve6 := fun A b => (A.det)⁻¹ • A.adjugate.mulVec b
    solve3 := fun A b => (A.det)⁻¹ • A.adjugate.mulVec b
    inverse6 := fun A => (A.det)⁻¹ • A.adjugate
    buildPyramid := fun img _ lvl => subsample img lvl
    buildDepthPyramid := fun img _ lvl => subsample img lvl
    Scaled := fun K scale => Matrix.of fun i j => if i.val < 2 then K i j * scale else K i j }

/-- Intrinsics of the worked examples: focal lengths 1, principal point (3, 3). -/
def demoK : Mat3 := !![1, 0, 3; 0, 1, 3; 0, 0, 1]

/-- Reference image of the worked examples, 8 x 8:
`I(u, v) = 3/10 + u^2 (v + 1) / 6000`. -/
def demoRef : Image ℚ :=
  { cols := 8, rows := 8
    data := fun i => 3 / 10 + ((i % 8 : ℕ) : ℚ) ^ 2 * (((i / 8 : ℕ) : ℚ) + 1) / 6000 }

/-- Live image of the worked examples: the reference image plus `1/50`. -/
def demoLive : Image ℚ :=
  { cols := 8, rows := 8, data := fun i => demoRef.data i + 1 / 50 }

/-- Depth map of the worked examples, 8 x 8: no depth in the columns
`u < 3`, depth `u (v + 1) / 20` elsewhere. -/
def demoDepth : Image (Option ℚ) :=
  { cols := 8, rows := 8
    data := fun i =>
      if i % 8 < 3 then none else some (((i % 8 : ℕ) : ℚ) * (((i / 8 : ℕ) : ℚ) + 1) / 20) }

/-- A depth map without a valid cell, 8 x 8: no depth on even indices, depth
`1000` (beyond `max_depth`) on odd ones. -/
def demoNoDepth : Image (Option ℚ) :=
  { cols := 8, rows := 8, data := fun i => if i % 2 = 0 then none else some 1000 }

/-- An image of one intensity, 8 x 8. -/
def constImage (c : ℚ) : Image ℚ :=
  { cols := 8, rows := 8, data := fun _ => c }

/-- The tracker of the worked examples with its pyramids written out: four
levels, intrinsics `demoK`, aligned depth camera, and at every level the
images `demoLive`, `demoRef`, `demoDepth`. -/
def demoTracker : DTrack :=
  { kPyramidLevels := 4
    live_grey_cam_model_ := [demoK, demoK, demoK, demoK]
    ref_grey_cam_model_ := [demoK, demoK, demoK, demoK]
    ref_depth_cam_model_ := [demoK, demoK, demoK, demoK]
    Tgd_ := SE3.identity
    live_grey_pyramid_ := fun _ => demoLive
    ref_grey_pyramid_ := fun _ => demoRef
    ref_depth_pyramid_ := fun _ => demoDepth }

/-- The reducer of the worked examples at level 0 for the transform `Trl`. -/
def demoPose (Trl : SE3) : PoseRefine :=
  demoTracker.poseRefine 0 demoK demoK demoK Trl

/-- The Jacobians and residuals of the six pixels (19, 20, 27, 28, 35, 36) that
contribute in the worked example at the identity transform. -/
def demoObs : List (Vec6 × ℚ) :=
  [(![1 / 150, 1 / 600, 1 / 600, -3 / 2000, 3 / 1000, 3 / 1000], 1 / 50),
   (![1 / 150, 1 / 450, -1 / 225, 1 / 750, 1 / 150, 2 / 375], 1 / 50),
   (![1 / 150, 1 / 400, 0, -3 / 2000, 1 / 250, 0], 1 / 50),
   (![1 / 150, 1 / 300, -1 / 150, -1 / 375, 4 / 375, 1 / 375], 1 / 50),
   (![1 / 150, 1 / 500, -1 / 500, -3 / 1000, 1 / 200, -1 / 200], 1 / 50),
   (![1 / 150, 1 / 375, -7 / 750, -3 / 250, 2 / 125, -1 / 250], 1 / 50)]

/-- The transform `Trl` of the worked example after its first pass: the
update is the translation `(-3, 0, 0)`. -/
def demoTrl1 : SE3 :=
  ((SE3.identity.inverse).mul { R := 1, t := ![-3, 0, 0] }).inverse

/-- A reducer on constant images: live intensity `1/2`, reference intensity
`1/4`, depth 1 at the cell `(3, 3)` only, identity transforms. -/
def constPose : PoseRefine :=
  { live_grey_ := constImage (1 / 2), ref_grey_ := constImage (1 / 4)
    ref_depth_ := { cols := 8, rows := 8, data := fun i => if i = 27 then some 1 else none }
    Klg_ := demoK, Krg_ := demoK, Krd_ := demoK, Tgd_ := 1, Tlr_ := 1
    KlgTlr_ := demoK * SE3.identity.matrix3x4
    norm_param_ := norm_c, discard_saturated_ := discard_saturated
    min_depth_ := min_depth, max_depth_ := max_depth }

/-- The unweighted Hessian that the reducer accumulates on the worked example at
the identity transform. -/
def demoH : Mat6 :=
  !![1 / 3750, 259 / 2700000, (-187 / 1350000), (-29 / 225000), 17 / 56250, 1 / 75000;
     259 / 2700000, 469 / 12960000, (-943 / 16200000), (-5419 / 108000000), 3187 / 27000000, 137 / 27000000;
     (-187 / 1350000), (-943 / 16200000), 2561 / 16200000, 6877 / 54000000, (-6887 / 27000000), 293 / 27000000;
     (-29 / 225000), (-5419 / 108000000), 6877 / 54000000, 599 / 3600000, (-4267 / 18000000), 117 / 2000000;
     17 / 56250, 3187 / 27000000, (-6887 / 27000000), (-4267 / 18000000), 2089 / 4500000, (-1 / 62500);
     1 / 75000, 137 / 27000000, 293 / 27000000, 117 / 2000000, (-1 / 62500), 77 / 900000]

/-- The inverse of `demoH`. -/
def demoHInv : Mat6 :=
  !![12885402500 / 729, 85013030000 / 2187, (-107877320000 / 2187), (-9175150000 / 243), (-49045712500 / 729), 10521087500 / 729;
     85013030000 / 2187, 584763260000 / 6561, (-722642240000 / 6561), (-61656100000 / 729), (-329283475000 / 2187), 70639025000 / 2187;
     (-107877320000 / 2187), (-722642240000 / 6561), 908528885000 / 6561, 77338900000 / 729, 413304962500 / 2187, (-88666287500 / 2187);
     (-9175150000 / 243), (-61656100000 / 729), 77338900000 / 729, 6591500000 / 81, 35201375000 / 243, (-7559125000 / 243);
     (-49045712500 / 729), (-329283475000 / 2187), 413304962500 / 2187, 35201375000 / 243, 188075375000 / 729, (-40357375000 / 729);
     10521087500 / 729, 70639025000 / 2187, (-88666287500 / 2187), (-7559125000 / 243), (-40357375000 / 729), 8679875000 / 729]

/-- The weighted matrix `LHS` of the worked example at the identity transform:
every weight is `9/16`. -/
def demoLHS : Mat6 :=
  !![3 / 20000, 259 / 4800000, (-187 / 2400000), (-29 / 400000), 17 / 100000, 3 / 400000;
     259 / 4800000, 469 / 23040000, (-943 / 28800000), (-5419 / 192000000), 3187 / 48000000, 137 / 48000000;
     (-187 / 2400000), (-943 / 28800000), 2561 / 28800000, 6877 / 96000000, (-6887 / 48000000), 293 / 48000000;
     (-29 / 400000), (-5419 / 192000000), 6877 / 96000000, 599 / 6400000, (-4267 / 32000000), 1053 / 32000000;
     17 / 100000, 3187 / 48000000, (-6887 / 48000000), (-4267 / 32000000), 2089 / 8000000, (-9 / 1000000);
     3 / 400000, 137 / 48000000, 293 / 48000000, 1053 / 32000000, (-9 / 1000000), 77 / 1600000]

/-- The inverse of `demoLHS`. -/
def demoLHSInv : Mat6 :=
  !![206166440000 / 6561, 1360208480000 / 19683, (-1726037120000 / 19683), (-146802400000 / 2187), (-784731400000 / 6561), 168337400000 / 6561;
     1360208480000 / 19683, 9356212160000 / 59049, (-11562275840000 / 59049), (-986497600000 / 6561), (-5268535600000 / 19683), 1130224400000 / 19683;
     (-1726037120000 / 19683), (-11562275840000 / 59049), 14536462160000 / 59049, 1237422400000 / 6561, 6612879400000 / 19683, (-1418660600000 / 19683);
     (-146802400000 / 2187), (-986497600000 / 6561), 1237422400000 / 6561, 105464000000 / 729, 563222000000 / 2187, (-120946000000 / 2187);
     (-784731400000 / 6561), (-5268535600000 / 19683), 6612879400000 / 19683, 563222000000 / 2187, 3009206000000 / 6561, (-645718000000 / 6561);
     168337400000 / 6561, 1130224400000 / 19683, (-1418660600000 / 19683), (-120946000000 / 2187), (-645718000000 / 6561), 138878000000 / 6561]

/-- The tracker of the worked example as the API builds it: `DTrack(4)`,
`SetParams(demoK, demoK, demoK, identity)`, `SetKeyframe(demoRef, demoDepth)`. -/
def demoApiTracker (lib : Lib) : DTrack :=
  ((DTrack.init 4).SetParams lib demoK demoK demoK SE3.identity).SetKeyframe lib demoRef
    demoDepth

/-- The tracker of the worked example inside `Estimate(demoLive, ...)`. -/
def demoLiveTracker (lib : Lib) : DTrack :=
  (demoApiTracker lib).withLive lib demoLive

/-- The first pass of level 0 of the worked example, from the identity hint. -/
def demoPass0 (lib : Lib) (hessian_init : Mat6) : IterRecord :=
  (demoLiveTracker lib).pass lib 0 demoK demoK demoK true 0
    (initState SE3.identity hessian_init)

/-- The state of the worked example after its first pass is accepted. -/
def demoState1 (lib : Lib) (hessian_init : Mat6) : EstState :=
  afterAccept lib (initState SE3.identity hessian_init) (demoPass0 lib hessian_init)

/-- The second pass of level 0 of the worked example. -/
def demoPass1 (lib : Lib) (hessian_init : Mat6) : IterRecord :=
  (demoLiveTracker lib).pass lib 0 demoK demoK demoK true 1 (demoState1 lib hessian_init)

/-- The reducer of the worked example at the identity transform, with the live
image brightened to the reference image plus `1/10`: every residual is `1/10`,
beyond the Tukey scale `1/25`. -/
def farPose : PoseRefine :=
  { demoPose SE3.identity with
    live_grey_ := { cols := 8, rows := 8, data := fun i => demoRef.data i + 1 / 10 } }

/-- The tracker of the worked example with a keyframe whose depth map
`demoNoDepth` has no valid cell. -/
def noDepthTracker : DTrack :=
  ((DTrack.init 4).SetParams exactLib demoK demoK demoK SE3.identity).SetKeyframe exactLib
    demoRef demoNoDepth

/-- A tracker constructed with one pyramid level, then configured and given the
keyframe of the worked example. -/
def oneLevelTracker : DTrack :=
  ((DTrack.init 1).SetParams exactLib demoK demoK demoK SE3.identity).SetKeyframe exactLib
    demoRef demoDepth

/-- A way to reduce `[0, 64)` in three chunks, joined out of order:
`([40, 64) + ([0, 10) + [10, 40)))`. -/
def demoTree : JoinTree :=
  .node (.leaf 40 64) (.node (.leaf 0 10) (.leaf 10 40))

/-- The column `px` (or the row `py`) of the top-left cell that `interp` reads
for the coordinate `x` on an axis of `n` cells (lines 37-41): the clamped
coordinate, truncated. -/
def interpCorner (x : ℚ) (n : ℕ) : ℤ :=
  toInt (clampCoord x n)

/-- Following the spec (section 4.1): the bilinear interpolation of the image
`I` (indexed by row, then column) at `(x, y)`, over the four-pixel neighbourhood
whose top-left corner is `(⌊x⌋, ⌊y⌋)`. -/
def bilinear (x y : ℚ) (I : ℕ → ℕ → ℚ) : ℚ :=
  let px : ℕ := ⌊x⌋.toNat
  let py : ℕ := ⌊y⌋.toNat
  let ax : ℚ := x - ⌊x⌋
  let ay : ℚ := y - ⌊y⌋
  (1 - ax) * (1 - ay) * I py px + ax * (1 - ay) * I py (px + 1)
    + (1 - ax) * ay * I (py + 1) px + ax * ay * I (py + 1) (px + 1)

/-- The point `hPr_g` of lines 157-166: the cell `ii` of the depth map, of depth
`depth`, as a homogeneous point in the frame of the reference grey camera. -/
def PoseRefine.hPr_g (p : PoseRefine) (ii : ℕ) (depth : ℚ) : Vec4 :=
  let u : ℕ := ii % p.ref_depth_.cols
  let v : ℕ := ii / p.ref_depth_.cols
  let hPr_d : Vec4 :=
    ![depth * ((u : ℚ) - p.Krd_ 0 2) / p.Krd_ 0 0,
      depth * ((v : ℚ) - p.Krd_ 1 2) / p.Krd_ 1 1, depth, 1]
  p.Tgd_.mulVec hPr_d

/-- The pixel `pr_g` of lines 169-171: the projection of `hPr_g` into the
reference grey image. -/
def PoseRefine.pr_g (p : PoseRefine) (ii : ℕ) (depth : ℚ) : ℚ × ℚ :=
  let hPr_g := p.hPr_g ii depth
  (hPr_g 0 * p.Krg_ 0 0 / hPr_g 2 + p.Krg_ 0 2, hPr_g 1 * p.Krg_ 1 1 / hPr_g 2 + p.Krg_ 1 2)

/-- The point `hPl_g` of line 180: `hPr_g` in the frame of the live grey
camera. -/
def PoseRefine.hPl_g (p : PoseRefine) (ii : ℕ) (depth : ℚ) : Vec4 :=
  p.Tlr_.mulVec (p.hPr_g ii depth)

/-- The pixel `pl_g` of lines 183-185: the projection of `hPl_g` into the live
grey image. -/
def PoseRefine.pl_g (p : PoseRefine) (ii : ℕ) (depth : ℚ) : ℚ × ℚ :=
  let hPl_g := p.hPl_g ii depth
  (hPl_g 0 * p.Klg_ 0 0 / hPl_g 2 + p.Klg_ 0 2, hPl_g 1 * p.Klg_ 1 1 / hPl_g 2 + p.Klg_ 1 2)

/-- The averaged image gradient `(dIl+dIr)/2.0` of line 267, from the central
differences of lines 215-258. -/
def PoseRefine.dIesm (p : PoseRefine) (ii : ℕ) (depth : ℚ) : Fin 2 → ℚ :=
  let dIl := imageDerivative (p.pl_g ii depth).1 (p.pl_g ii depth).2 p.live_grey_
  let dIr := imageDerivative (p.pr_g ii depth).1 (p.pr_g ii depth).2 p.ref_grey_
  fun i => (dIl i + dIr i) / 2

/-- The row `dIesm_dPl_KlgTlr` of lines 261-267. -/
def PoseRefine.dIesm_dPl_KlgTlr (p : PoseRefine) (ii : ℕ) (depth : ℚ) : Vec4 :=
  let hPl_g := p.hPl_g ii depth
  let KlPl : Vec3 := p.Klg_.mulVec ![hPl_g 0, hPl_g 1, hPl_g 2]
  let dPl : Mat2x3 :=
    !![1 / KlPl 2, 0, -KlPl 0 / (KlPl 2 * KlPl 2);
       0, 1 / KlPl 2, -KlPl 1 / (KlPl 2 * KlPl 2)]
  Matrix.vecMul (Matrix.vecMul (p.dIesm ii depth) dPl) p.KlgTlr_

/-- The Jacobian `J` of lines 269-276, from the row `a = dIesm_dPl_KlgTlr` and the
point `P = hPr_g`. -/
def jacobian (a P : Vec4) : Vec6 :=
  ![a 0, a 1, a 2,
    -a 1 * P 2 + a 2 * P 1,
    a 0 * P 2 - a 2 * P 0,
    -a 0 * P 1 + a 1 * P 0]

/-- The test of lines 205-209: true when the pixel is skipped as saturated. -/
def PoseRefine.saturated (p : PoseRefine) (ii : ℕ) (depth : ℚ) : Bool :=
  let Il := interp (p.pl_g ii depth).1 (p.pl_g ii depth).2 p.live_grey_.data p.live_grey_.cols
    p.live_grey_.rows
  let Ir := interp (p.pr_g ii depth).1 (p.pr_g ii depth).2 p.ref_grey_.data p.ref_grey_.cols
    p.ref_grey_.rows
  p.discard_saturated_ && (decide (Il = 0) || decide (Il = 1) || decide (Ir = 0)
    || decide (Ir = 1))

/-- The residual `y = Il - Ir` of line 212. -/
def PoseRefine.residual (p : PoseRefine) (ii : ℕ) (depth : ℚ) : ℚ :=
  interp (p.pl_g ii depth).1 (p.pl_g ii depth).2 p.live_grey_.data p.live_grey_.cols
      p.live_grey_.rows
    - interp (p.pr_g ii depth).1 (p.pr_g ii depth).2 p.ref_grey_.data p.ref_grey_.cols
      p.ref_grey_.rows

/-- The reducer of the worked example at the identity transform, with a depth
map whose only valid cell is `(2, 3)`, of depth 1: the cell projects to the
pixel `(2, 3)` of both images. -/
def edgePose : PoseRefine :=
  { demoPose SE3.identity with
    ref_depth_ := { cols := 8, rows := 8, data := fun i => if i = 26 then some 1 else none } }

/-- The tracker on which `Estimate(live_grey, ...)` runs its loops after the calls
`DTrack(4)`, `SetParams(live_grey_cmod, ref_grey_cmod, ref_depth_cmod, Tgd)` and
`SetKeyframe(ref_grey, ref_depth)`. -/
def configured (lib : Lib) (live_grey_cmod ref_grey_cmod ref_depth_cmod : Mat3) (Tgd : SE3)
    (ref_grey : Image ℚ) (ref_depth : Image (Option ℚ)) (live_grey : Image ℚ) : DTrack :=
  (((DTrack.init 4).SetParams lib live_grey_cmod ref_grey_cmod ref_depth_cmod Tgd).SetKeyframe
    lib ref_grey ref_depth).withLive lib live_grey

/-- Intrinsics of a second camera: focal lengths 2, principal point (3, 3). -/
def demoK2 : Mat3 := !![2, 0, 3; 0, 2, 3; 0, 0, 1]

/-- The RMS values of the accepted passes of a record of passes, in order. -/
def acceptedRms (l : List IterRecord) : List ℚ :=
  l.filterMap fun r => if r.accepted then r.out.new_error else none

/-- Following the spec (section 4.2, step 10; the comment of line 269 names them
`gen_i`): the six standard generators of SE(3) as 4 x 4 matrices, the three
translations first, then the rotations about the x, y and z axes. -/
def generator (i : Fin 6) : Mat4 :=
  ![!![0, 0, 0, 1; 0, 0, 0, 0; 0, 0, 0, 0; 0, 0, 0, 0],
    !![0, 0, 0, 0; 0, 0, 0, 1; 0, 0, 0, 0; 0, 0, 0, 0],
    !![0, 0, 0, 0; 0, 0, 0, 0; 0, 0, 0, 1; 0, 0, 0, 0],
    !![0, 0, 0, 0; 0, 0, -1, 0; 0, 1, 0, 0; 0, 0, 0, 0],
    !![0, 0, 1, 0; 0, 0, 0, 0; -1, 0, 0, 0; 0, 0, 0, 0],
    !![0, -1, 0, 0; 1, 0, 0, 0; 0, 0, 0, 0; 0, 0, 0, 0]] i

/-- The last accepted pass of a record of passes, if there is one. -/
def lastAccepted (l : List IterRecord) : Option IterRecord :=
  (l.filter fun it => it.accepted).getLast?

/-- The last accepted pass at the pyramid level `lvl` in the record of a run. -/
def lastAcceptedAt (lvl : ℕ) (log : List IterRecord) : Option IterRecord :=
  lastAccepted (log.filter fun it => decide (it.pyramid_lvl = lvl))

/-- The tracker after `DTrack(L)` and two calls of `SetParams`, first with the
camera models `A1, A2, A3` and the transform `TA`, then with `B1, B2, B3` and
`TB`. -/
def configuredTwice (lib : Lib) (L : ℕ) (A1 A2 A3 : Mat3) (TA : SE3) (B1 B2 B3 : Mat3)
    (TB : SE3) : DTrack :=
  ((DTrack.init L).SetParams lib A1 A2 A3 TA).SetParams lib B1 B2 B3 TB

/-- What a call of `Estimate` hands to its caller: the in/out argument `Trl`, the
output `covariance` and the returned value, with the record of its passes. -/
def EstimateResult.outputs (r : EstimateResult) : SE3 × Mat6 × ℚ × List IterRecord :=
  (r.Trl, r.covariance, r.returned, r.log)

/-- Reference image of the second worked example, 8 x 8, linear along each row:
`I(u, v) = 3/10 + (v + 2) u / 200`. -/
def rampRef : Image ℚ :=
  { cols := 8, rows := 8
    data := fun i => 3 / 10 + (((i / 8 : ℕ) : ℚ) + 2) * ((i % 8 : ℕ) : ℚ) / 200 }

/-- Live image of the second worked example: the reference image plus
`1/1000`. -/
def rampLive : Image ℚ :=
  { cols := 8, rows := 8, data := fun i => rampRef.data i + 1 / 1000 }

/-- Depth map of the second worked example, 8 x 8: no depth in the columns
`u < 3`, depth `3 (v + 2) / 4` elsewhere. -/
def rampDepth : Image (Option ℚ) :=
  { cols := 8, rows := 8
    data := fun i => if i % 8 < 3 then none else some (3 * (((i / 8 : ℕ) : ℚ) + 2) / 4) }

/-- The tracker of the second worked example inside `Estimate(rampLive, ...)`:
`DTrack(4)`, `SetParams(demoK, demoK, demoK, identity)`,
`SetKeyframe(rampRef, rampDepth)`, with the library `exactLib`. -/
def rampTracker : DTrack :=
  (((DTrack.init 4).SetParams exactLib demoK demoK demoK SE3.identity).SetKeyframe exactLib
    rampRef rampDepth).withLive exactLib rampLive

/-- The reducer of the second worked example at level 0 for the transform
`Trl`. -/
def rampPose (Trl : SE3) : PoseRefine :=
  rampTracker.poseRefine 0 demoK demoK demoK Trl

/-- The Jacobians and residuals of the six pixels (19, 20, 27, 28, 35, 36) that
contribute in the second worked example at the identity transform. -/
def rampObs : List (Vec6 × ℚ) :=
  [(![1 / 150, 1 / 400, 1 / 400, -3 / 200, 1 / 50, 1 / 50], 1 / 1000),
   (![1 / 150, 1 / 300, -1 / 300, 0, 3 / 100, 3 / 100], 1 / 1000),
   (![1 / 150, 1 / 250, 0, -3 / 200, 1 / 40, 0], 1 / 1000),
   (![1 / 150, 2 / 375, -1 / 150, -1 / 50, 1 / 20, 1 / 50], 1 / 1000),
   (![1 / 150, 1 / 300, -1 / 300, -3 / 100, 3 / 100, -3 / 100], 1 / 1000),
   (![1 / 150, 1 / 225, -1 / 90, -7 / 100, 2 / 25, -1 / 100], 1 / 1000)]

/-- The inverse of the matrix `LHS` of the second worked example at the identity
transform. -/
def rampLHSInv : Mat6 :=
  !![543520000000 / 1070797, 29938400000000 / 41761083, (-41010400000000 / 41761083), (-29553280000000 / 125283249), (-5741440000000 / 13920361), 4718720000000 / 41761083;
     29938400000000 / 41761083, 375380000000000 / 125283249, (-293716000000000 / 125283249), (-242281600000000 / 375849747), (-135747200000000 / 125283249), 12617600000000 / 41761083;
     (-41010400000000 / 41761083), (-293716000000000 / 125283249), 300269600000000 / 125283249, 229404800000000 / 375849747, 131113600000000 / 125283249, (-12131200000000 / 41761083);
     (-29553280000000 / 125283249), (-242281600000000 / 375849747), 229404800000000 / 375849747, 182958080000000 / 1127549241, 102784000000000 / 375849747, (-1070080000000 / 13920361);
     (-5741440000000 / 13920361), (-135747200000000 / 125283249), 131113600000000 / 125283249, 102784000000000 / 375849747, 58234880000000 / 125283249, (-1249280000000 / 9637173);
     4718720000000 / 41761083, 12617600000000 / 41761083, (-12131200000000 / 41761083), (-1070080000000 / 13920361), (-1249280000000 / 9637173), 112640000000 / 3055689]

/-- The transform `Trl` of the second worked example after its first pass: the
update is the translation `(-3/20, 0, 0)`. -/
def rampTrl1 : SE3 :=
  ((SE3.identity.inverse).mul { R := 1, t := ![-3 / 20, 0, 0] }).inverse

/-- The first pass of level 0 of the second worked example, from the identity
hint. -/
def rampPass0 : IterRecord :=
  rampTracker.pass exactLib 0 demoK demoK demoK true 0
    { initState SE3.identity 0 with last_error := FLT_MAX }

/-- The state of the second worked example after its first pass is accepted. -/
def rampState1 : EstState :=
  afterAccept exactLib { initState SE3.identity 0 with last_error := FLT_MAX } rampPass0

/-- The second pass of level 0 of the second worked example. -/
def rampPass1 : IterRecord :=
  rampTracker.pass exactLib 0 demoK demoK demoK true 1 rampState1

/-- The Cayley transform of `ω`: with `k = ω/2`, the orthogonal matrix
`((1 - k.k) I + 2 k kᵀ + 2 [k]ₓ) / (1 + k.k)`, the rotation about the axis `ω` by
the angle `2 atan(|ω|/2)`.  It has rational entries for rational `ω` and agrees
with the exponential of `[ω]ₓ` to second order in `ω`. -/
def cayley (ω : Vec3) : Mat3 :=
  let k : Vec3 := fun i => ω i / 2
  let n : ℚ := k 0 * k 0 + k 1 * k 1 + k 2 * k 2
  let K : Mat3 := !![0, -k 2, k 1; k 2, 0, -k 0; -k 1, k 0, 0]
  Matrix.of fun i j => ((1 - n) * (if i = j then 1 else 0) + 2 * k i * k j + 2 * K i j) / (1 + n)

/-- A second concrete library, for worked examples with a rotation.  The
exponential of a rotation is not rational, so `exp` stands in for it with the
Cayley transform of the rotational part `X[3..5]`, next to the translational
part `X[0..2]`; like `Sophus::SE3Group::exp` it gives no translation to an
increment without translational part.  The other functions are those of
`exactLib`. -/
def rotLib : Lib :=
  { exactLib with exp := fun X => { R := cayley ![X 3, X 4, X 5], t := ![X 0, X 1, X 2] } }

/-- The image `img` with every cell blown up to a block of 8 x 8 cells: level 3
of its subsampled pyramid is `img`. -/
def blowUp {α : Type} (img : Image α) : Image α :=
  { cols := 8 * img.cols, rows := 8 * img.rows
    data := fun i => img.data (i / (8 * img.cols) / 8 * img.cols + i % (8 * img.cols) / 8) }

/-- A live image for the third worked example: the reference image `demoRef`
plus `1/5000`. -/
def faintLive : Image ℚ :=
  { cols := 8, rows := 8, data := fun i => demoRef.data i + 1 / 5000 }

/-- Intrinsics of the third worked example: focal lengths 8, principal point
(24, 24); at pyramid level 3 they scale to `demoK`. -/
def bigK : Mat3 := !![8, 0, 24; 0, 8, 24; 0, 0, 1]

/-- The tracker of the third worked example inside `Estimate`: `DTrack(4)`,
`SetParams(bigK, bigK, bigK, identity)`, a keyframe and a live image of 64 x 64
cells whose level 3 is `demoRef`, `demoDepth` and `faintLive`, with the library
`rotLib`. -/
def bigTracker : DTrack :=
  (((DTrack.init 4).SetParams rotLib bigK bigK bigK SE3.identity).SetKeyframe rotLib
    (blowUp demoRef) (blowUp demoDepth)).withLive rotLib (blowUp faintLive)

/-- The reducer of the third worked example at level 3 for the transform
`Trl`. -/
def bigPose (Trl : SE3) : PoseRefine :=
  bigTracker.poseRefine 3 demoK demoK demoK Trl

/-- The first pass of level 3 of the third worked example, from the identity
hint. -/
def bigPass0 : IterRecord :=
  bigTracker.pass rotLib 3 demoK demoK demoK false 0
    { initState SE3.identity 0 with last_error := FLT_MAX }

/-- The rotational part of the update of the first pass of the third worked
example. -/
def bigOmega : Vec3 := ![-5455798 / 248304405, -370537 / 12112410, 766023 / 165536270]

/-! ## Theorems -/

theorem Accum.join_assoc (a b c : Accum) : (a.join b).join c = a.join (b.join c) := by
  ext <;> simp [Accum.join, add_assoc]

theorem Accum.join_comm (a b : Accum) : a.join b = b.join a := by
  ext <;> simp [Accum.join, add_comm]

theorem Accum.join_zero (a : Accum) : a.join Accum.zero = a := by
  ext <;> simp [Accum.join, Accum.zero]

theorem Accum.zero_join (a : Accum) : Accum.zero.join a = a := by
  ext <;> simp [Accum.join, Accum.zero]

theorem PoseRefine.step_eq_join (p : PoseRefine) (acc : Accum) (ii : ℕ) :
    p.step acc ii = acc.join (p.step Accum.zero ii) := by
  unfold PoseRefine.step
  cases h : p.pixel ii with
  | none => simp [Accum.join_zero]
  | some q =>
    obtain ⟨J, y⟩ := q
    ext <;> simp [Accum.join, Accum.zero]

theorem PoseRefine.foldl_step_eq_join (p : PoseRefine) (l : List ℕ) (acc : Accum) :
    l.foldl p.step acc = acc.join (l.foldl p.step Accum.zero) := by
  induction l using List.reverseRecOn with
  | nil => simp [Accum.join_zero]
  | append_singleton l ii ih =>
    rw [List.foldl_append, List.foldl_append]
    simp only [List.foldl_cons, List.foldl_nil]
    rw [p.step_eq_join (List.foldl p.step acc l), ih,
      p.step_eq_join (List.foldl p.step Accum.zero l), Accum.join_assoc]

theorem PoseRefine.run_eq_join (p : PoseRefine) (acc : Accum) (b e : ℕ) :
    p.run acc b e = acc.join (p.run Accum.zero b e) :=
  p.foldl_step_eq_join _ acc

theorem PoseRefine.run_split (p : PoseRefine) (b l m : ℕ) :
    (p.run Accum.zero b (b + l)).join (p.run Accum.zero (b + l) (b + l + m))
      = p.run Accum.zero b (b + (l + m)) := by
  unfold PoseRefine.run
  have h1 : b + l - b = l := by omega
  have h2 : b + l + m - (b + l) = m := by omega
  have h3 : b + (l + m) - b = l + m := by omega
  have h4 : List.range' b (l + m) = List.range' b l ++ List.range' (b + l) m := by
    rw [List.range'_append_1, Nat.add_comm]
  rw [h1, h2, h3, h4, List.foldl_append]
  exact (p.foldl_step_eq_join _ _).symm

theorem joinAll_append (p : PoseRefine) (l₁ l₂ : List (ℕ × ℕ)) :
    joinAll p (l₁ ++ l₂) = (joinAll p l₁).join (joinAll p l₂) := by
  induction l₁ with
  | nil => simp [joinAll, Accum.zero_join]
  | cons c l ih =>
    have : joinAll p (c :: l ++ l₂) = (p.run Accum.zero c.1 c.2).join (joinAll p (l ++ l₂)) := rfl
    rw [this, ih, ← Accum.join_assoc]
    rfl

theorem joinAll_perm (p : PoseRefine) {l₁ l₂ : List (ℕ × ℕ)} (h : l₁.Perm l₂) :
    joinAll p l₁ = joinAll p l₂ := by
  induction h with
  | nil => rfl
  | cons c _ ih =>
    exact congrArg (fun acc => (p.run Accum.zero c.1 c.2).join acc) ih
  | swap c₁ c₂ l =>
    show (p.run Accum.zero c₂.1 c₂.2).join ((p.run Accum.zero c₁.1 c₁.2).join _)
      = (p.run Accum.zero c₁.1 c₁.2).join ((p.run Accum.zero c₂.1 c₂.2).join _)
    rw [← Accum.join_assoc, ← Accum.join_assoc,
      Accum.join_comm (p.run Accum.zero c₂.1 c₂.2)]
  | trans _ _ ih₁ ih₂ => rw [ih₁, ih₂]

theorem JoinTree.eval_eq_joinAll (p : PoseRefine) (t : JoinTree) :
    t.eval p = joinAll p t.leaves := by
  induction t with
  | leaf b e => simp [JoinTree.eval, JoinTree.leaves, joinAll, Accum.join_zero]
  | node l r ihl ihr => simp [JoinTree.eval, JoinTree.leaves, joinAll_append, ihl, ihr]

theorem joinAll_chunksFrom (p : PoseRefine) (lens : List ℕ) (s : ℕ) :
    joinAll p (chunksFrom s lens) = p.run Accum.zero s (s + lens.sum) := by
  induction lens generalizing s with
  | nil => simp [chunksFrom, joinAll, PoseRefine.run]
  | cons l ls ih =>
    have : joinAll p (chunksFrom s (l :: ls))
        = (p.run Accum.zero s (s + l)).join (joinAll p (chunksFrom (s + l) ls)) := rfl
    rw [this, ih, List.sum_cons, p.run_split]

/-- C7 (chunk independence of the reducer): for every partition of `[0, n)`
into contiguous chunks (`chunksFrom 0 lens`, with `n = lens.sum`) and every
tree of `join`s whose leaves are those chunks in any order, each leaf reduced
by `operator()` from accumulators at zero, the tree ends with the accumulators
`(LHS, RHS, hessian, error, num_obs)` of one run of `operator()` over the whole
range; `join` is associative and commutative, and the zero accumulators are its
identity. -/
theorem C7_chunk_independence (p : PoseRefine) :
    (∀ (lens : List ℕ) (t : JoinTree), t.leaves.Perm (chunksFrom 0 lens) →
        t.eval p = p.run Accum.zero 0 lens.sum)
    ∧ (∀ a b c : Accum, (a.join b).join c = a.join (b.join c))
    ∧ (∀ a b : Accum, a.join b = b.join a)
    ∧ (∀ a : Accum, a.join Accum.zero = a ∧ Accum.zero.join a = a) := by
  refine ⟨?_, Accum.join_assoc, Accum.join_comm, fun a => ⟨a.join_zero, a.zero_join⟩⟩
  intro lens t ht
  rw [t.eval_eq_joinAll, joinAll_perm p ht, joinAll_chunksFrom, Nat.zero_add]


theorem _NormTukey_nonneg (r c : ℚ) : 0 ≤ _NormTukey r c := by
  unfold _NormTukey
  simp only
  split
  · exact mul_self_nonneg _
  · exact le_refl 0

theorem _NormTukey_eq_zero (r c : ℚ) (h : c < |r|) : _NormTukey r c = 0 := by
  unfold _NormTukey
  simp only
  rw [if_neg (not_le.mpr h)]

/-- The quadratic form of a weighted outer product. -/
theorem outer_quadratic (J x : Vec6) (w : ℚ) :
    x ⬝ᵥ (Matrix.of fun i j => J i * J j * w).mulVec x = w * (x ⬝ᵥ J) ^ 2 := by
  simp only [Matrix.dotProduct, Matrix.mulVec, Matrix.of_apply, Finset.mul_sum, Finset.sum_mul,
    pow_two]
  rw [Finset.sum_comm]
  refine Finset.sum_congr rfl fun i _ => Finset.sum_congr rfl fun j _ => ?_
  ring

theorem SymPsd_step (p : PoseRefine) (acc : Accum) (ii : ℕ) (h : SymPsd acc.LHS) :
    SymPsd (p.step acc ii).LHS := by
  unfold PoseRefine.step
  cases hp : p.pixel ii with
  | none => exact h
  | some q =>
    obtain ⟨J, y⟩ := q
    refine ⟨?_, fun x => ?_⟩
    · apply Matrix.IsSymm.ext
      intro i j
      have := h.1.apply i j
      simp only [Matrix.add_apply, Matrix.of_apply, this]
      ring
    · simp only [Matrix.add_mulVec, Matrix.dotProduct_add]
      rw [outer_quadratic]
      exact add_nonneg (h.2 x) (mul_nonneg (_NormTukey_nonneg _ _) (sq_nonneg _))

theorem SymPsd_foldl (p : PoseRefine) (l : List ℕ) (acc : Accum) (h : SymPsd acc.LHS) :
    SymPsd (l.foldl p.step acc).LHS := by
  induction l generalizing acc with
  | nil => exact h
  | cons ii l ih => exact ih _ (SymPsd_step p acc ii h)

theorem SymPsd_zero : SymPsd Accum.zero.LHS := by
  refine ⟨?_, fun x => ?_⟩
  · exact Matrix.isSymm_zero
  · simp [Accum.zero]

/-- C8: with a Tukey scale `c > 0`, the matrix `LHS` that the reducer
accumulates from zero over any index range equals its transpose and has a
non-negative quadratic form `xᵀ LHS x`; the weight `_NormTukey y c` is
non-negative for every residual `y`. -/
theorem C8_LHS_symmetric_psd (p : PoseRefine) (r_begin r_end : ℕ) (_hc : 0 < p.norm_param_) :
    (p.run Accum.zero r_begin r_end).LHS = (p.run Accum.zero r_begin r_end).LHSᵀ
    ∧ (∀ x : Vec6, 0 ≤ x ⬝ᵥ (p.run Accum.zero r_begin r_end).LHS.mulVec x)
    ∧ (∀ y : ℚ, 0 ≤ _NormTukey y p.norm_param_) := by
  have h := SymPsd_foldl p (List.range' r_begin (r_end - r_begin)) Accum.zero SymPsd_zero
  exact ⟨h.1.eq.symm, h.2, fun y => _NormTukey_nonneg y _⟩

/-- C9: a contributing pixel (one that `operator()` does not skip, with
Jacobian `J` and residual `y`) whose residual has `|y| > c`, for `c > 0` the
Tukey scale, has the weight `_NormTukey y c = 0`; the matrix `J Jᵀ w` it adds to
`LHS` and the vector `J y w` it adds to `RHS` are zero, so the pass leaves `LHS`
and `RHS` as they were. -/
theorem C9_zero_weight_contribution (p : PoseRefine) (acc : Accum) (ii : ℕ) (J : Vec6) (y : ℚ)
    (hpix : p.pixel ii = some (J, y)) (_hc : 0 < p.norm_param_) (hy : p.norm_param_ < |y|) :
    _NormTukey y p.norm_param_ = 0
    ∧ (Matrix.of fun i j => J i * J j * _NormTukey y p.norm_param_) = (0 : Mat6)
    ∧ (fun i => J i * y * _NormTukey y p.norm_param_) = (0 : Vec6)
    ∧ (p.step acc ii).LHS = acc.LHS
    ∧ (p.step acc ii).RHS = acc.RHS := by
  have hw := _NormTukey_eq_zero y p.norm_param_ hy
  have hM : (Matrix.of fun i j => J i * J j * _NormTukey y p.norm_param_) = (0 : Mat6) := by
    ext i j; simp [hw]
  have hV : (fun i => J i * y * _NormTukey y p.norm_param_) = (0 : Vec6) := by
    ext i; simp [hw]
  refine ⟨hw, hM, hV, ?_, ?_⟩
  · simp only [PoseRefine.step, hpix, hM, add_zero]
  · simp only [PoseRefine.step, hpix, hV, add_zero]

/-- C10, as amended: a contributing pixel with `|y| > c > 0` adds `J Jᵀ` to
`hessian` - a matrix that is non-zero exactly when `J` is non-zero -, adds
`y * y > 0` to `error` and 1 to `num_obs`. -/
theorem C10_zero_weight_hessian_error (p : PoseRefine) (acc : Accum) (ii : ℕ) (J : Vec6) (y : ℚ)
    (hpix : p.pixel ii = some (J, y)) (hc : 0 < p.norm_param_) (hy : p.norm_param_ < |y|) :
    (p.step acc ii).hessian = acc.hessian + Matrix.of (fun i j => J i * J j)
    ∧ ((Matrix.of fun i j => J i * J j) ≠ (0 : Mat6) ↔ J ≠ 0)
    ∧ (p.step acc ii).error = acc.error + y * y ∧ 0 < y * y
    ∧ (p.step acc ii).num_obs = acc.num_obs + 1 := by
  refine ⟨by simp only [PoseRefine.step, hpix], ?_, by simp only [PoseRefine.step, hpix], ?_,
    by simp only [PoseRefine.step, hpix]⟩
  · constructor
    · intro h hJ
      apply h
      ext i j
      simp [hJ]
    · intro h hM
      apply h
      ext i
      have := congrFun (congrFun hM i) i
      simpa using this
  · have : y ≠ 0 := by
      intro h0
      rw [h0, abs_zero] at hy
      exact absurd hc (not_lt.mpr hy.le)
    exact mul_self_pos.mpr this


theorem PoseRefine.pixel_residual_zero (p : PoseRefine) (ii : ℕ) (J : Vec6) (y : ℚ)
    (himg : p.live_grey_ = p.ref_grey_) (hK : p.Klg_ = p.Krg_) (hT : p.Tlr_ = 1)
    (h : p.pixel ii = some (J, y)) : y = 0 := by
  unfold PoseRefine.pixel at h
  simp only [himg, hK, hT, Matrix.one_mulVec] at h
  split at h
  · cases h
  · split_ifs at h
    simp only [Option.some.injEq, Prod.mk.injEq] at h
    rw [← h.2]
    exact sub_self _


theorem Image.atFloat_div_mod {α : Type} (img : Image α) (ii : ℕ) :
    img.atFloat (ii / img.cols) (ii % img.cols) = img.data ii := by
  unfold Image.atFloat
  rw [Nat.div_add_mod']

theorem PoseRefine.pixel_invalid_depth (p : PoseRefine) (ii : ℕ)
    (h : invalidDepth (p.ref_depth_.data ii) p.min_depth_ p.max_depth_) :
    p.pixel ii = none := by
  unfold PoseRefine.pixel
  simp only [Image.atFloat_div_mod]
  rcases h with h | ⟨x, hx, hr⟩
  · rw [h]
  · rw [hx]
    simp only [ge_iff_le]
    rw [if_pos hr]

theorem PoseRefine.foldl_skip (p : PoseRefine) (l : List ℕ) (acc : Accum)
    (h : ∀ ii ∈ l, p.pixel ii = none) : l.foldl p.step acc = acc := by
  induction l generalizing acc with
  | nil => rfl
  | cons ii l ih =>
    have h1 : p.step acc ii = acc := by
      unfold PoseRefine.step
      rw [h ii (List.mem_cons_self _ _)]
    rw [List.foldl_cons, h1]
    exact ih acc (fun j hj => h j (List.mem_cons_of_mem _ hj))

theorem parallel_reduce_invalid_depth (n : ℕ) (p : PoseRefine)
    (h : ∀ ii < n, invalidDepth (p.ref_depth_.data ii) p.min_depth_ p.max_depth_) :
    parallel_reduce n p = Accum.zero := by
  unfold parallel_reduce PoseRefine.run
  apply p.foldl_skip
  intro ii hii
  rw [List.mem_range'_1] at hii
  exact p.pixel_invalid_depth ii (h ii (by omega))

theorem PoseRefine.foldl_residual_zero (p : PoseRefine) (l : List ℕ) (acc : Accum)
    (himg : p.live_grey_ = p.ref_grey_) (hK : p.Klg_ = p.Krg_) (hT : p.Tlr_ = 1)
    (h : acc.error = 0 ∧ acc.RHS = 0) :
    (l.foldl p.step acc).error = 0 ∧ (l.foldl p.step acc).RHS = 0 := by
  induction l generalizing acc with
  | nil => exact h
  | cons ii l ih =>
    rw [List.foldl_cons]
    apply ih
    unfold PoseRefine.step
    cases hp : p.pixel ii with
    | none => exact h
    | some q =>
      obtain ⟨J, y⟩ := q
      have hy : y = 0 := p.pixel_residual_zero ii J y himg hK hT hp
      subst hy
      refine ⟨by simp [h.1], ?_⟩
      ext i
      simp [h.2]

theorem parallel_reduce_residual_zero (n : ℕ) (p : PoseRefine)
    (himg : p.live_grey_ = p.ref_grey_) (hK : p.Klg_ = p.Krg_) (hT : p.Tlr_ = 1) :
    (parallel_reduce n p).error = 0 ∧ (parallel_reduce n p).RHS = 0 :=
  p.foldl_residual_zero _ _ himg hK hT ⟨rfl, rfl⟩

theorem SE3.identity_inverse : SE3.identity.inverse = SE3.identity := by
  simp [SE3.inverse, SE3.identity]

theorem SE3.identity_mul_identity : SE3.identity.mul SE3.identity = SE3.identity := by
  simp [SE3.mul, SE3.identity]

theorem SE3.identity_matrix : SE3.identity.matrix = 1 := by
  decide!


theorem DTrack.iterate_reject (lib : Lib) (d : DTrack) (lvl : ℕ) (Kl Kg Kd : Mat3) (full : Bool)
    (n k : ℕ) (s : EstState) (h : (d.pass lib lvl Kl Kg Kd full k s).accepted = false) :
    d.iterate lib lvl Kl Kg Kd full (n + 1) k s = afterReject s (d.pass lib lvl Kl Kg Kd full k s) := by
  simp [DTrack.iterate, h]

theorem DTrack.iterate_accept_small (lib : Lib) (d : DTrack) (lvl : ℕ) (Kl Kg Kd : Mat3)
    (full : Bool) (n k : ℕ) (s : EstState)
    (h : (d.pass lib lvl Kl Kg Kd full k s).accepted = true)
    (hs : norm lib (d.pass lib lvl Kl Kg Kd full k s).out.X < 1 / 100000) :
    d.iterate lib lvl Kl Kg Kd full (n + 1) k s
      = afterAccept lib s (d.pass lib lvl Kl Kg Kd full k s) := by
  simp only [DTrack.iterate, h, hs, if_true]

theorem DTrack.iterate_accept_continue (lib : Lib) (d : DTrack) (lvl : ℕ) (Kl Kg Kd : Mat3)
    (full : Bool) (n k : ℕ) (s : EstState)
    (h : (d.pass lib lvl Kl Kg Kd full k s).accepted = true)
    (hs : ¬ norm lib (d.pass lib lvl Kl Kg Kd full k s).out.X < 1 / 100000) :
    d.iterate lib lvl Kl Kg Kd full (n + 1) k s
      = d.iterate lib lvl Kl Kg Kd full n (k + 1)
          (afterAccept lib s (d.pass lib lvl Kl Kg Kd full k s)) := by
  simp only [DTrack.iterate, h, hs, if_true, if_false]

theorem DTrack.iterate_induction (lib : Lib) (d : DTrack) (lvl : ℕ) (Kl Kg Kd : Mat3)
    (full : Bool) (P : EstState → Prop)
    (hacc : ∀ s k, P s → (d.pass lib lvl Kl Kg Kd full k s).accepted = true →
      P (afterAccept lib s (d.pass lib lvl Kl Kg Kd full k s)))
    (hrej : ∀ s k, P s → (d.pass lib lvl Kl Kg Kd full k s).accepted = false →
      P (afterReject s (d.pass lib lvl Kl Kg Kd full k s))) :
    ∀ n k s, P s → P (d.iterate lib lvl Kl Kg Kd full n k s) := by
  intro n
  induction n with
  | zero => intro k s hs; exact hs
  | succ n ih =>
    intro k s hs
    cases h : (d.pass lib lvl Kl Kg Kd full k s).accepted with
    | false => rw [d.iterate_reject lib lvl Kl Kg Kd full n k s h]; exact hrej s k hs h
    | true =>
      by_cases hsm : norm lib (d.pass lib lvl Kl Kg Kd full k s).out.X < 1 / 100000
      · rw [d.iterate_accept_small lib lvl Kl Kg Kd full n k s h hsm]; exact hacc s k hs h
      · rw [d.iterate_accept_continue lib lvl Kl Kg Kd full n k s h hsm]
        exact ih _ _ (hacc s k hs h)

theorem vec_full_estimate_get (lvl : ℕ) (h : lvl < 4) :
    vec_full_estimate[lvl]? = some (decide (lvl ≠ 3)) := by
  interval_cases lvl <;> rfl

theorem vec_max_iterations_get (use_pyramid : Bool) (lvl : ℕ) (h : lvl < 4) :
    (vec_max_iterations use_pyramid)[lvl]?
      = some (if use_pyramid = false then (if lvl = 0 then 3 else 0) else lvl + 1) := by
  cases use_pyramid <;> interval_cases lvl <;> rfl

/-- The level loop body under `Ready`. -/
theorem DTrack.level_eq (lib : Lib) (d : DTrack) (use_pyramid : Bool) (lvl : ℕ) (s : EstState)
    (hl : lvl < 4) (hg : 4 ≤ d.ref_grey_cam_model_.length)
    (hd : 4 ≤ d.ref_depth_cam_model_.length) :
    ∃ Kg Kd, d.ref_grey_cam_model_[lvl]? = some Kg ∧ d.ref_depth_cam_model_[lvl]? = some Kd
      ∧ d.level lib use_pyramid lvl s
        = some (d.iterate lib lvl Kg Kg Kd (decide (lvl ≠ 3))
            (if use_pyramid = false then (if lvl = 0 then 3 else 0) else lvl + 1) 0
            { s with last_error := FLT_MAX }) := by
  have h1 : lvl < d.ref_grey_cam_model_.length := by omega
  have h2 : lvl < d.ref_depth_cam_model_.length := by omega
  refine ⟨d.ref_grey_cam_model_[lvl], d.ref_depth_cam_model_[lvl],
    List.getElem?_eq_getElem h1, List.getElem?_eq_getElem h2, ?_⟩
  unfold DTrack.level
  rw [List.getElem?_eq_getElem h1, List.getElem?_eq_getElem h2, vec_full_estimate_get lvl hl,
    vec_max_iterations_get use_pyramid lvl hl]

theorem DTrack.levels_induction (lib : Lib) (d : DTrack) (use_pyramid : Bool)
    (P : EstState → Prop)
    (hg : 4 ≤ d.ref_grey_cam_model_.length) (hd : 4 ≤ d.ref_depth_cam_model_.length)
    (hreset : ∀ s, P s → P { s with last_error := FLT_MAX })
    (hacc : ∀ lvl Kg Kd, lvl < 4 → d.ref_grey_cam_model_[lvl]? = some Kg →
      d.ref_depth_cam_model_[lvl]? = some Kd → ∀ s k, P s →
      (d.pass lib lvl Kg Kg Kd (decide (lvl ≠ 3)) k s).accepted = true →
      P (afterAccept lib s (d.pass lib lvl Kg Kg Kd (decide (lvl ≠ 3)) k s)))
    (hrej : ∀ lvl Kg Kd, lvl < 4 → d.ref_grey_cam_model_[lvl]? = some Kg →
      d.ref_depth_cam_model_[lvl]? = some Kd → ∀ s k, P s →
      (d.pass lib lvl Kg Kg Kd (decide (lvl ≠ 3)) k s).accepted = false →
      P (afterReject s (d.pass lib lvl Kg Kg Kd (decide (lvl ≠ 3)) k s))) :
    ∀ (lvls : List ℕ) (s : EstState), (∀ lvl ∈ lvls, lvl < 4) → P s →
      ∃ s1, d.levels lib use_pyramid lvls s = some s1 ∧ P s1 := by
  intro lvls
  induction lvls with
  | nil => intro s _ hs; exact ⟨s, rfl, hs⟩
  | cons lvl rest ih =>
    intro s hl hs
    have hlvl : lvl < 4 := hl lvl (List.mem_cons_self _ _)
    obtain ⟨Kg, Kd, hKg, hKd, heq⟩ := d.level_eq lib use_pyramid lvl s hlvl hg hd
    have hP := d.iterate_induction lib lvl Kg Kg Kd (decide (lvl ≠ 3)) P
      (hacc lvl Kg Kd hlvl hKg hKd) (hrej lvl Kg Kd hlvl hKg hKd)
      (if use_pyramid = false then (if lvl = 0 then 3 else 0) else lvl + 1) 0 _ (hreset s hs)
    obtain ⟨s1, hs1, hP1⟩ := ih _ (fun l hl1 => hl l (List.mem_cons_of_mem _ hl1)) hP
    refine ⟨s1, ?_, hP1⟩
    simp only [DTrack.levels, heq]
    exact hs1

theorem levelsDown_four : levelsDown 4 = [3, 2, 1, 0] := by decide

/-- `Estimate` under `Ready`, with an invariant of the loops. -/
theorem DTrack.Estimate_induction (lib : Lib) (d : DTrack) (live_grey : Image ℚ) (Trl : SE3)
    (use_pyramid : Bool) (hessian_init : Mat6) (hready : d.Ready) (P : EstState → Prop)
    (hinit : P (initState Trl hessian_init))
    (hreset : ∀ s, P s → P { s with last_error := FLT_MAX })
    (hacc : ∀ lvl Kg Kd, lvl < 4 → d.ref_grey_cam_model_[lvl]? = some Kg →
      d.ref_depth_cam_model_[lvl]? = some Kd → ∀ s k, P s →
      ((d.withLive lib live_grey).pass lib lvl Kg Kg Kd (decide (lvl ≠ 3)) k s).accepted = true →
      P (afterAccept lib s
        ((d.withLive lib live_grey).pass lib lvl Kg Kg Kd (decide (lvl ≠ 3)) k s)))
    (hrej : ∀ lvl Kg Kd, lvl < 4 → d.ref_grey_cam_model_[lvl]? = some Kg →
      d.ref_depth_cam_model_[lvl]? = some Kd → ∀ s k, P s →
      ((d.withLive lib live_grey).pass lib lvl Kg Kg Kd (decide (lvl ≠ 3)) k s).accepted = false →
      P (afterReject s
        ((d.withLive lib live_grey).pass lib lvl Kg Kg Kd (decide (lvl ≠ 3)) k s))) :
    ∃ s, P s ∧ d.Estimate lib live_grey Trl use_pyramid hessian_init
      = some (finish lib (d.withLive lib live_grey) s) := by
  obtain ⟨hL, hg, hd⟩ := hready
  obtain ⟨s1, hs1, hP1⟩ := DTrack.levels_induction lib (d.withLive lib live_grey) use_pyramid P
    hg hd hreset hacc hrej [3, 2, 1, 0] (initState Trl hessian_init) (by decide) hinit
  refine ⟨s1, hP1, ?_⟩
  unfold DTrack.Estimate
  have h1 : ¬ vec_full_estimate.length ≠ d.kPyramidLevels := by rw [hL]; decide
  have h2 : ¬ (vec_max_iterations use_pyramid).length ≠ d.kPyramidLevels := by
    rw [hL]; cases use_pyramid <;> decide
  have h3 : levelsDown (d.withLive lib live_grey).kPyramidLevels = [3, 2, 1, 0] := by
    show levelsDown d.kPyramidLevels = _
    rw [hL]; exact levelsDown_four
  rw [if_neg h1, if_neg h2]
  simp only [h3, hs1]

theorem solveX_zero (lib : Lib) (full : Bool) (LHS : Mat6)
    (hs6 : ∀ A, lib.solve6 A 0 = 0) (hs3 : ∀ A, lib.solve3 A 0 = 0) :
    solveX lib full LHS 0 = 0 := by
  cases full
  · have h3 : lib.solve3 (Matrix.of fun i j => LHS (Fin.natAdd 3 i) (Fin.natAdd 3 j))
        (fun i => (0 : Vec6) (Fin.natAdd 3 i)) = 0 := hs3 _
    unfold solveX
    simp only [h3]
    ext i
    fin_cases i <;> rfl
  · simp only [solveX, hs6, neg_zero, if_true]

theorem rmse_zero (lib : Lib) (n : ℕ) (e : ℚ) (hsqrt : lib.sqrt 0 = 0)
    (h : rmse lib 0 n = some e) : e = 0 := by
  unfold rmse at h
  split_ifs at h
  simp only [zero_div, hsqrt, Option.some.injEq] at h
  exact h.symm

theorem accepts_some {new_error : Option ℚ} {last_error : ℚ}
    (h : accepts new_error last_error = true) :
    ∃ e, new_error = some e ∧ e < last_error := by
  unfold accepts at h
  cases new_error with
  | none => cases h
  | some e => exact ⟨e, rfl, of_decide_eq_true h⟩

theorem identity_pass (lib : Lib) (d : DTrack) (lvl : ℕ) (Kg Kd : Mat3) (full : Bool)
    (k : ℕ) (s : EstState)
    (hsqrt : lib.sqrt 0 = 0) (hs6 : ∀ A, lib.solve6 A 0 = 0) (hs3 : ∀ A, lib.solve3 A 0 = 0)
    (himg : d.live_grey_pyramid_ lvl = d.ref_grey_pyramid_ lvl) (hT : s.Trl = SE3.identity) :
    (d.pass lib lvl Kg Kg Kd full k s).out.pose_ref.error = 0
    ∧ (d.pass lib lvl Kg Kg Kd full k s).out.pose_ref.RHS = 0
    ∧ (d.pass lib lvl Kg Kg Kd full k s).out.X = 0
    ∧ ((d.pass lib lvl Kg Kg Kd full k s).accepted = true →
        (d.pass lib lvl Kg Kg Kd full k s).out.new_error = some 0) := by
  have hred := parallel_reduce_residual_zero
    ((d.ref_depth_pyramid_ lvl).cols * (d.ref_depth_pyramid_ lvl).rows)
    (d.poseRefine lvl Kg Kg Kd s.Trl) himg rfl
    (by
      show s.Trl.inverse.matrix = 1
      rw [hT, SE3.identity_inverse, SE3.identity_matrix])
  refine ⟨hred.1, hred.2, ?_, ?_⟩
  · show solveX lib full _ (parallel_reduce _ _).RHS = 0
    rw [hred.2]
    exact solveX_zero lib full _ hs6 hs3
  · intro hacc
    obtain ⟨e, he, _⟩ := accepts_some hacc
    have he2 : rmse lib (parallel_reduce _ (d.poseRefine lvl Kg Kg Kd s.Trl)).error
        (parallel_reduce _ (d.poseRefine lvl Kg Kg Kd s.Trl)).num_obs = some e := he
    rw [hred.1] at he2
    have := rmse_zero lib _ e hsqrt he2
    show (d.solveStep lib lvl Kg Kg Kd full s.Trl).new_error = some 0
    rw [← this]
    exact he

theorem DTrack.levels_append (lib : Lib) (d : DTrack) (use_pyramid : Bool) (l₁ l₂ : List ℕ)
    (s s1 : EstState) (h : d.levels lib use_pyramid l₁ s = some s1) :
    d.levels lib use_pyramid (l₁ ++ l₂) s = d.levels lib use_pyramid l₂ s1 := by
  induction l₁ generalizing s with
  | nil =>
    simp only [DTrack.levels, Option.some.injEq] at h
    rw [h]; rfl
  | cons lvl rest ih =>
    simp only [DTrack.levels, List.cons_append] at h ⊢
    cases hl : d.level lib use_pyramid lvl s with
    | none => rw [hl] at h; cases h
    | some s2 =>
      rw [hl] at h
      simp only [hl]
      exact ih s2 h

/-- `Estimate` under `Ready`: the coarse levels 3, 2, 1 keep an invariant of
the loops, and the result is read off the inner loop of level 0. -/
theorem DTrack.Estimate_level0 (lib : Lib) (d : DTrack) (live_grey : Image ℚ) (Trl : SE3)
    (use_pyramid : Bool) (hessian_init : Mat6) (hready : d.Ready) (P : EstState → Prop)
    (hinit : P (initState Trl hessian_init))
    (hreset : ∀ s, P s → P { s with last_error := FLT_MAX })
    (hacc : ∀ lvl Kg Kd, lvl < 4 → d.ref_grey_cam_model_[lvl]? = some Kg →
      d.ref_depth_cam_model_[lvl]? = some Kd → ∀ s k, P s →
      ((d.withLive lib live_grey).pass lib lvl Kg Kg Kd (decide (lvl ≠ 3)) k s).accepted = true →
      P (afterAccept lib s
        ((d.withLive lib live_grey).pass lib lvl Kg Kg Kd (decide (lvl ≠ 3)) k s)))
    (hrej : ∀ lvl Kg Kd, lvl < 4 → d.ref_grey_cam_model_[lvl]? = some Kg →
      d.ref_depth_cam_model_[lvl]? = some Kd → ∀ s k, P s →
      ((d.withLive lib live_grey).pass lib lvl Kg Kg Kd (decide (lvl ≠ 3)) k s).accepted = false →
      P (afterReject s
        ((d.withLive lib live_grey).pass lib lvl Kg Kg Kd (decide (lvl ≠ 3)) k s))) :
    ∃ s3 Kg Kd, P s3
      ∧ (d.withLive lib live_grey).levels lib use_pyramid [3, 2, 1]
          (initState Trl hessian_init) = some s3
      ∧ d.ref_grey_cam_model_[0]? = some Kg ∧ d.ref_depth_cam_model_[0]? = some Kd
      ∧ d.Estimate lib live_grey Trl use_pyramid hessian_init
        = some (finish lib (d.withLive lib live_grey)
            ((d.withLive lib live_grey).iterate lib 0 Kg Kg Kd true
              (if use_pyramid = false then 3 else 1) 0 { s3 with last_error := FLT_MAX })) := by
  obtain ⟨hL, hg, hd⟩ := hready
  obtain ⟨s3, hs3, hP3⟩ := DTrack.levels_induction lib (d.withLive lib live_grey) use_pyramid P
    hg hd hreset hacc hrej [3, 2, 1] (initState Trl hessian_init) (by decide) hinit
  obtain ⟨Kg, Kd, hKg, hKd, heq⟩ :=
    (d.withLive lib live_grey).level_eq lib use_pyramid 0 s3 (by decide) hg hd
  refine ⟨s3, Kg, Kd, hP3, hs3, hKg, hKd, ?_⟩
  unfold DTrack.Estimate
  have h1 : ¬ vec_full_estimate.length ≠ d.kPyramidLevels := by rw [hL]; decide
  have h2 : ¬ (vec_max_iterations use_pyramid).length ≠ d.kPyramidLevels := by
    rw [hL]; cases use_pyramid <;> decide
  have h3 : levelsDown (d.withLive lib live_grey).kPyramidLevels = [3, 2, 1] ++ [0] := by
    show levelsDown d.kPyramidLevels = _
    rw [hL]; exact levelsDown_four
  have h4 : (d.withLive lib live_grey).levels lib use_pyramid [0] s3
      = some ((d.withLive lib live_grey).iterate lib 0 Kg Kg Kd true
          (if use_pyramid = false then 3 else 1) 0 { s3 with last_error := FLT_MAX }) := by
    simp only [DTrack.levels, heq]
    rfl
  rw [if_neg h1, if_neg h2]
  simp only [h3, DTrack.levels_append lib _ use_pyramid [3, 2, 1] [0] _ s3 hs3, h4]

theorem DTrack.iterate_log (lib : Lib) (d : DTrack) (lvl : ℕ) (Kl Kg Kd : Mat3) (full : Bool) :
    ∀ n k s, ∃ l : List IterRecord,
      (d.iterate lib lvl Kl Kg Kd full n k s).log = s.log ++ l ∧ l.length ≤ n
        ∧ ∀ it ∈ l, it.pyramid_lvl = lvl := by
  intro n
  induction n with
  | zero => intro k s; exact ⟨[], by simp [DTrack.iterate], le_refl _, by simp⟩
  | succ n ih =>
    intro k s
    have hone : ∀ it ∈ [d.pass lib lvl Kl Kg Kd full k s], it.pyramid_lvl = lvl := by
      intro it hit
      rw [List.mem_singleton] at hit
      rw [hit]; rfl
    cases h : (d.pass lib lvl Kl Kg Kd full k s).accepted with
    | false =>
      rw [d.iterate_reject lib lvl Kl Kg Kd full n k s h]
      exact ⟨[_], rfl, by simp, hone⟩
    | true =>
      by_cases hsm : norm lib (d.pass lib lvl Kl Kg Kd full k s).out.X < 1 / 100000
      · rw [d.iterate_accept_small lib lvl Kl Kg Kd full n k s h hsm]
        exact ⟨[_], rfl, by simp, hone⟩
      · rw [d.iterate_accept_continue lib lvl Kl Kg Kd full n k s h hsm]
        obtain ⟨l, hl, hlen, hlvl⟩ := ih (k + 1) (afterAccept lib s (d.pass lib lvl Kl Kg Kd full k s))
        refine ⟨d.pass lib lvl Kl Kg Kd full k s :: l, ?_, by simp; omega, ?_⟩
        · rw [hl]
          show (s.log ++ [_]) ++ l = _
          simp
        · intro it hit
          rcases List.mem_cons.mp hit with h1 | h1
          · rw [h1]; rfl
          · exact hlvl it h1

/-- With `use_pyramid = false` a level above 0 has a budget of zero. -/
theorem DTrack.level_no_pyramid (lib : Lib) (d : DTrack) (lvl : ℕ) (s : EstState)
    (hl : lvl < 4) (h0 : lvl ≠ 0)
    (hg : 4 ≤ d.ref_grey_cam_model_.length) (hd : 4 ≤ d.ref_depth_cam_model_.length) :
    d.level lib false lvl s = some { s with last_error := FLT_MAX } := by
  obtain ⟨_, _, _, _, h⟩ := d.level_eq lib false lvl s hl hg hd
  rw [h, if_pos rfl, if_neg h0]
  rfl

theorem DTrack.levels_no_pyramid (lib : Lib) (d : DTrack) (s : EstState)
    (hg : 4 ≤ d.ref_grey_cam_model_.length) (hd : 4 ≤ d.ref_depth_cam_model_.length) :
    d.levels lib false [3, 2, 1] s = some { s with last_error := FLT_MAX } := by
  simp only [DTrack.levels, d.level_no_pyramid lib 3 _ (by decide) (by decide) hg hd,
    d.level_no_pyramid lib 2 _ (by decide) (by decide) hg hd,
    d.level_no_pyramid lib 1 _ (by decide) (by decide) hg hd]

/-- C6: with `use_pyramid = false`, on a tracker with four levels and camera
models stored for each (`Ready`), `Estimate` returns; every pass of its inner
loop is at pyramid level 0 and there are at most 3 of them; the levels 3, 2, 1 leave the state as it
entered (`Trl` the hint, no pass), and the returned `Trl` is the one the inner
loop of level 0 ends with, started from the hint. -/
theorem C6_no_pyramid_level0_only (lib : Lib) (d : DTrack) (live_grey : Image ℚ) (Trl : SE3)
    (hessian_init : Mat6) (hready : d.Ready) :
    ∃ r, d.Estimate lib live_grey Trl false hessian_init = some r
      ∧ (∀ it ∈ r.log, it.pyramid_lvl = 0)
      ∧ r.log.length ≤ 3
      ∧ (d.withLive lib live_grey).levels lib false [3, 2, 1] (initState Trl hessian_init)
          = some (initState Trl hessian_init)
      ∧ ∃ Kg Kd, d.ref_grey_cam_model_[0]? = some Kg ∧ d.ref_depth_cam_model_[0]? = some Kd
        ∧ r.Trl = ((d.withLive lib live_grey).iterate lib 0 Kg Kg Kd true 3 0
            (initState Trl hessian_init)).Trl := by
  obtain ⟨s3, Kg, Kd, _, hs3, hKg, hKd, hE⟩ := d.Estimate_level0 lib live_grey Trl false
    hessian_init hready (fun _ => True) trivial (fun _ _ => trivial)
    (fun _ _ _ _ _ _ _ _ _ _ => trivial) (fun _ _ _ _ _ _ _ _ _ _ => trivial)
  have hno := (d.withLive lib live_grey).levels_no_pyramid lib (initState Trl hessian_init)
    hready.2.1 hready.2.2
  have hs3eq : s3 = initState Trl hessian_init := by
    rw [hno] at hs3
    exact (Option.some.inj hs3).symm
  subst hs3eq
  obtain ⟨l, hl, hlen, hlvl⟩ := (d.withLive lib live_grey).iterate_log lib 0 Kg Kg Kd true 3 0
    (initState Trl hessian_init)
  have hE1 : d.Estimate lib live_grey Trl false hessian_init
      = some (finish lib (d.withLive lib live_grey)
          ((d.withLive lib live_grey).iterate lib 0 Kg Kg Kd true 3 0
            (initState Trl hessian_init))) := hE
  have hlog : (finish lib (d.withLive lib live_grey)
      ((d.withLive lib live_grey).iterate lib 0 Kg Kg Kd true 3 0
        (initState Trl hessian_init))).log = l := by
    show (DTrack.iterate lib (d.withLive lib live_grey) 0 Kg Kg Kd true 3 0
      (initState Trl hessian_init)).log = l
    rw [hl]
    rfl
  refine ⟨_, hE1, ?_, ?_, hno, Kg, Kd, hKg, hKd, rfl⟩
  · intro it hit
    rw [hlog] at hit
    exact hlvl it hit
  · rw [hlog]
    exact hlen

/-- C3 (divergence safeguard): in the inner loop of `Estimate`, at any level
and from any state, a pass whose RMS is not smaller than `last_error` (the test
of line 525 fails) leaves `Trl` as it was and is the last pass of the level
whatever budget remains; hence when a pass is accepted without converging and
the next pass is rejected, the level ends after these two passes with the
`Trl` that the first pass produced. -/
theorem C3_divergence_safeguard (lib : Lib) (d : DTrack) (pyramid_lvl : ℕ)
    (live_grey_cmod ref_grey_cmod ref_depth_cmod : Mat3) (full_estimate : Bool)
    (remaining num_iters : ℕ) (s : EstState) :
    ((d.pass lib pyramid_lvl live_grey_cmod ref_grey_cmod ref_depth_cmod full_estimate
        num_iters s).accepted = false →
      (d.iterate lib pyramid_lvl live_grey_cmod ref_grey_cmod ref_depth_cmod full_estimate
        (remaining + 1) num_iters s).Trl = s.Trl
      ∧ (d.iterate lib pyramid_lvl live_grey_cmod ref_grey_cmod ref_depth_cmod full_estimate
        (remaining + 1) num_iters s).log = s.log ++ [d.pass lib pyramid_lvl live_grey_cmod
          ref_grey_cmod ref_depth_cmod full_estimate num_iters s])
    ∧ ((d.pass lib pyramid_lvl live_grey_cmod ref_grey_cmod ref_depth_cmod full_estimate
        num_iters s).accepted = true →
      ¬ norm lib (d.pass lib pyramid_lvl live_grey_cmod ref_grey_cmod ref_depth_cmod
        full_estimate num_iters s).out.X < 1 / 100000 →
      (d.pass lib pyramid_lvl live_grey_cmod ref_grey_cmod ref_depth_cmod full_estimate
        (num_iters + 1) (afterAccept lib s (d.pass lib pyramid_lvl live_grey_cmod ref_grey_cmod
          ref_depth_cmod full_estimate num_iters s))).accepted = false →
      (d.iterate lib pyramid_lvl live_grey_cmod ref_grey_cmod ref_depth_cmod full_estimate
        (remaining + 2) num_iters s).Trl
        = (afterAccept lib s (d.pass lib pyramid_lvl live_grey_cmod ref_grey_cmod
            ref_depth_cmod full_estimate num_iters s)).Trl
      ∧ (d.iterate lib pyramid_lvl live_grey_cmod ref_grey_cmod ref_depth_cmod full_estimate
        (remaining + 2) num_iters s).log.length = s.log.length + 2) := by
  constructor
  · intro h
    rw [d.iterate_reject lib _ _ _ _ _ remaining num_iters s h]
    exact ⟨rfl, rfl⟩
  · intro h1 h2 h3
    rw [d.iterate_accept_continue lib _ _ _ _ _ (remaining + 1) num_iters s h1 h2,
      d.iterate_reject lib _ _ _ _ _ remaining (num_iters + 1) _ h3]
    exact ⟨rfl, by simp [afterReject, afterAccept]⟩

/-- C1 (identity keyframe round trip): after `SetKeyframe(I, D)` on a tracker
with four levels (`Ready`), with `T_gd` the identity and the three cameras
sharing at each level intrinsics of non-zero focal lengths,
`Estimate(I, identity)` returns; every pixel that the
reducer does not skip has the residual `y = 0`; every reducer run has `error = 0`
and `RHS = 0`; every accepted pass has RMS 0 and the update `X = 0`; and the
returned `Trl` is the identity.  The library is assumed to give `sqrt 0 = 0`,
`exp 0 = identity` and the solution 0 for a zero right-hand side. -/
theorem C1_identity_keyframe (lib : Lib) (d : DTrack) (I : Image ℚ) (D : Image (Option ℚ))
    (use_pyramid : Bool) (hessian_init : Mat6)
    (hsqrt : lib.sqrt 0 = 0) (hexp : lib.exp 0 = SE3.identity)
    (hs6 : ∀ A, lib.solve6 A 0 = 0) (hs3 : ∀ A, lib.solve3 A 0 = 0)
    (hready : d.Ready) (_hsize : D.cols = I.cols ∧ D.rows = I.rows)
    (_hTgd : d.Tgd_ = SE3.identity)
    (_hK : ∀ lvl < 4, ∃ K : Mat3, d.live_grey_cam_model_[lvl]? = some K
      ∧ d.ref_grey_cam_model_[lvl]? = some K ∧ d.ref_depth_cam_model_[lvl]? = some K
      ∧ K 0 0 ≠ 0 ∧ K 1 1 ≠ 0) :
    (∀ (lvl : ℕ) (Kg Kd : Mat3) (ii : ℕ) (J : Vec6) (y : ℚ),
        (((d.SetKeyframe lib I D).withLive lib I).poseRefine lvl Kg Kg Kd SE3.identity).pixel ii
          = some (J, y) → y = 0)
    ∧ ∃ r, (d.SetKeyframe lib I D).Estimate lib I SE3.identity use_pyramid hessian_init = some r
      ∧ r.Trl = SE3.identity
      ∧ ∀ it ∈ r.log, it.out.pose_ref.error = 0 ∧ it.out.pose_ref.RHS = 0
          ∧ (it.accepted = true → it.out.new_error = some 0 ∧ it.out.X = 0) := by
  refine ⟨fun lvl Kg Kd ii J y h =>
    PoseRefine.pixel_residual_zero _ ii J y rfl rfl
      (by
        show SE3.identity.inverse.matrix = 1
        rw [SE3.identity_inverse, SE3.identity_matrix]) h, ?_⟩
  have hready1 : (d.SetKeyframe lib I D).Ready := hready
  obtain ⟨s, hs, hE⟩ := (d.SetKeyframe lib I D).Estimate_induction lib I SE3.identity use_pyramid
    hessian_init hready1 IdentityRun
    ⟨rfl, fun it hit => absurd hit (List.not_mem_nil it)⟩
    (fun s hs => hs)
    (by
      intro lvl Kg Kd _ _ _ s k hs hacc
      have hp := identity_pass lib ((d.SetKeyframe lib I D).withLive lib I) lvl Kg Kd
        (decide (lvl ≠ 3)) k s hsqrt hs6 hs3 rfl hs.1
      refine ⟨?_, ?_⟩
      · show ((s.Trl.inverse).mul (lib.exp _)).inverse = SE3.identity
        rw [hp.2.2.1, hexp, hs.1, SE3.identity_inverse, SE3.identity_mul_identity,
          SE3.identity_inverse]
      · intro it hit
        rcases List.mem_append.mp hit with h | h
        · exact hs.2 it h
        · rw [List.mem_singleton] at h
          subst h
          exact ⟨hp.1, hp.2.1, fun ha => ⟨hp.2.2.2 ha, hp.2.2.1⟩⟩)
    (by
      intro lvl Kg Kd _ _ _ s k hs hrej
      have hp := identity_pass lib ((d.SetKeyframe lib I D).withLive lib I) lvl Kg Kd
        (decide (lvl ≠ 3)) k s hsqrt hs6 hs3 rfl hs.1
      refine ⟨hs.1, ?_⟩
      intro it hit
      rcases List.mem_append.mp hit with h | h
      · exact hs.2 it h
      · rw [List.mem_singleton] at h
        subst h
        exact ⟨hp.1, hp.2.1, fun ha => ⟨hp.2.2.2 ha, hp.2.2.1⟩⟩)
  exact ⟨_, hE, hs.1, hs.2⟩


theorem empty_pass (lib : Lib) (d : DTrack) (lvl : ℕ) (Kl Kg Kd : Mat3) (full : Bool)
    (k : ℕ) (s : EstState)
    (h : ∀ ii < (d.ref_depth_pyramid_ lvl).cols * (d.ref_depth_pyramid_ lvl).rows,
      invalidDepth ((d.ref_depth_pyramid_ lvl).data ii) min_depth max_depth) :
    (d.pass lib lvl Kl Kg Kd full k s).out.pose_ref = Accum.zero
    ∧ (d.pass lib lvl Kl Kg Kd full k s).out.new_error = none
    ∧ (d.pass lib lvl Kl Kg Kd full k s).accepted = false := by
  have hred := parallel_reduce_invalid_depth
    ((d.ref_depth_pyramid_ lvl).cols * (d.ref_depth_pyramid_ lvl).rows)
    (d.poseRefine lvl Kl Kg Kd s.Trl) h
  have hne : (d.pass lib lvl Kl Kg Kd full k s).out.new_error = none := by
    show rmse lib (parallel_reduce _ _).error (parallel_reduce _ _).num_obs = none
    rw [hred]
    rfl
  refine ⟨hred, hne, ?_⟩
  show accepts (d.pass lib lvl Kl Kg Kd full k s).out.new_error _ = false
  rw [hne]
  rfl

theorem EmptyRun_afterReject (Trl : SE3) (s : EstState) (r : IterRecord) (hs : EmptyRun Trl s)
    (hr : r.out.pose_ref = Accum.zero ∧ r.out.new_error = none ∧ r.accepted = false) :
    EmptyRun Trl (afterReject s r) := by
  refine ⟨hs.1, ?_⟩
  intro it hit
  rcases List.mem_append.mp hit with h | h
  · exact hs.2 it h
  · rw [List.mem_singleton] at h
    rw [h]
    exact hr

/-- C4 (empty observation): when every cell of every level of the reference
depth pyramid is not a number, or `≤ min_depth`, or `≥ max_depth`, `Estimate`
on a tracker with four levels and camera models stored for each (`Ready`)
returns with `Trl` equal to the hint; it runs the reducer at least once, and every run comes back with
`num_obs = 0` and `LHS`, `RHS`, `hessian`, `error` all zero, so that the RMS is
not a number and the pass is rejected. -/
theorem C4_empty_observation (lib : Lib) (d : DTrack) (live_grey : Image ℚ) (Trl : SE3)
    (use_pyramid : Bool) (hessian_init : Mat6) (hready : d.Ready)
    (hdepth : ∀ lvl, ∀ ii < (d.ref_depth_pyramid_ lvl).cols * (d.ref_depth_pyramid_ lvl).rows,
      invalidDepth ((d.ref_depth_pyramid_ lvl).data ii) min_depth max_depth) :
    ∃ r, d.Estimate lib live_grey Trl use_pyramid hessian_init = some r
      ∧ r.Trl = Trl
      ∧ r.log ≠ []
      ∧ ∀ it ∈ r.log, it.out.pose_ref = Accum.zero ∧ it.out.new_error = none
          ∧ it.accepted = false := by
  have hpass : ∀ lvl Kg Kd full k s,
      ((d.withLive lib live_grey).pass lib lvl Kg Kg Kd full k s).out.pose_ref = Accum.zero
      ∧ ((d.withLive lib live_grey).pass lib lvl Kg Kg Kd full k s).out.new_error = none
      ∧ ((d.withLive lib live_grey).pass lib lvl Kg Kg Kd full k s).accepted = false :=
    fun lvl Kg Kd full k s =>
      empty_pass lib (d.withLive lib live_grey) lvl Kg Kg Kd full k s (hdepth lvl)
  obtain ⟨s3, Kg, Kd, hP3, _, _, _, hE⟩ := d.Estimate_level0 lib live_grey Trl use_pyramid
    hessian_init hready (EmptyRun Trl)
    ⟨rfl, fun it hit => absurd hit (List.not_mem_nil it)⟩
    (fun s hs => hs)
    (by
      intro lvl Kg Kd _ _ _ s k _ hacc
      rw [(hpass lvl Kg Kd _ k s).2.2] at hacc
      cases hacc)
    (by
      intro lvl Kg Kd _ _ _ s k hs _
      exact EmptyRun_afterReject Trl s _ hs (hpass lvl Kg Kd _ k s))
  obtain ⟨n, hn⟩ : ∃ n, (if use_pyramid = false then 3 else 1) = n + 1 := by
    cases use_pyramid
    · exact ⟨2, rfl⟩
    · exact ⟨0, rfl⟩
  rw [hn, (d.withLive lib live_grey).iterate_reject lib 0 Kg Kg Kd true n 0 _
    (hpass 0 Kg Kd true 0 _).2.2] at hE
  have hfin := EmptyRun_afterReject Trl { s3 with last_error := FLT_MAX }
    ((d.withLive lib live_grey).pass lib 0 Kg Kg Kd true 0 { s3 with last_error := FLT_MAX })
    hP3 (hpass 0 Kg Kd true 0 _)
  refine ⟨_, hE, hfin.1, ?_, hfin.2⟩
  show s3.log ++ [_] ≠ []
  simp

/-- C5, as amended: for a tracker constructed with one pyramid level,
`Estimate` fails the `CHECK_EQ` of line 421 (the schedule vectors have four
entries) with `use_pyramid = true` and with `use_pyramid = false` alike: neither
call returns a transform, a covariance or an RMS. -/
theorem C5_one_level_aborts (lib : Lib) (d : DTrack) (live_grey : Image ℚ) (Trl : SE3)
    (hessian_init : Mat6) (h1 : d.kPyramidLevels = 1) :
    d.Estimate lib live_grey Trl true hessian_init = none
    ∧ d.Estimate lib live_grey Trl false hessian_init = none := by
  constructor <;> simp [DTrack.Estimate, h1, vec_full_estimate]

theorem DTrack.Estimate_isSome_iff (lib : Lib) (d : DTrack) (live_grey : Image ℚ) (Trl : SE3)
    (use_pyramid : Bool) (hessian_init : Mat6)
    (hg : 4 ≤ d.ref_grey_cam_model_.length) (hd : 4 ≤ d.ref_depth_cam_model_.length) :
    (d.Estimate lib live_grey Trl use_pyramid hessian_init).isSome = true
      ↔ d.kPyramidLevels = 4 := by
  constructor
  · intro h
    by_contra hne
    have : d.Estimate lib live_grey Trl use_pyramid hessian_init = none := by
      unfold DTrack.Estimate
      rw [if_pos]
      intro h4
      exact hne (by rw [← h4]; rfl)
    rw [this] at h
    cases h
  · intro h
    obtain ⟨s, _, hs⟩ := d.Estimate_induction lib live_grey Trl use_pyramid hessian_init
      ⟨h, hg, hd⟩ (fun _ => True) trivial (fun _ _ => trivial)
      (fun _ _ _ _ _ _ _ _ _ _ => trivial) (fun _ _ _ _ _ _ _ _ _ _ => trivial)
    rw [hs]
    rfl

set_option maxRecDepth 1000000

theorem PoseRefine.step_of_pixel (p : PoseRefine) (acc : Accum) (ii : ℕ) (Jy : Vec6 × ℚ)
    (h : p.pixel ii = some Jy) : p.step acc ii = Accum.observe p.norm_param_ acc Jy := by
  simp only [PoseRefine.step, h]
  rfl

theorem PoseRefine.foldl_step_eq_observe (p : PoseRefine) (l : List ℕ) (acc : Accum) :
    l.foldl p.step acc = (l.filterMap p.pixel).foldl (Accum.observe p.norm_param_) acc := by
  induction l generalizing acc with
  | nil => rfl
  | cons ii l ih =>
    rw [List.foldl_cons, ih]
    cases h : p.pixel ii with
    | none =>
      rw [List.filterMap_cons_none h]
      simp only [PoseRefine.step, h]
    | some Jy =>
      rw [List.filterMap_cons_some h, List.foldl_cons, p.step_of_pixel acc ii Jy h]

theorem parallel_reduce_eq_observe (n : ℕ) (p : PoseRefine) :
    parallel_reduce n p
      = ((List.range' 0 n).filterMap p.pixel).foldl (Accum.observe p.norm_param_) Accum.zero :=
  p.foldl_step_eq_observe _ _

theorem demo_obs0 : (List.range' 0 64).filterMap (demoPose SE3.identity).pixel = demoObs := by
  decide!

theorem demo_obs1 : (List.range' 0 64).filterMap (demoPose demoTrl1).pixel = [] := by
  decide!

theorem demo_scale (Trl : SE3) : (demoPose Trl).norm_param_ = 1 / 25 := by
  show norm_c * (((0 : ℕ) : ℚ) + 1) = 1 / 25
  norm_num [norm_c]

theorem demo_reduce0 :
    parallel_reduce 64 (demoPose SE3.identity)
      = demoObs.foldl (Accum.observe (1 / 25)) Accum.zero := by
  rw [parallel_reduce_eq_observe, demo_obs0, demo_scale]

theorem demo_reduce1 : parallel_reduce 64 (demoPose demoTrl1) = Accum.zero := by
  rw [parallel_reduce_eq_observe, demo_obs1]
  rfl

theorem demo_reduce0_num_obs : (parallel_reduce 64 (demoPose SE3.identity)).num_obs = 6 := by
  rw [demo_reduce0]
  decide!

theorem demo_reduce0_error : (parallel_reduce 64 (demoPose SE3.identity)).error = 3 / 1250 := by
  rw [demo_reduce0]
  decide!

theorem demo_reduce0_hessian : (parallel_reduce 64 (demoPose SE3.identity)).hessian = demoH := by
  rw [demo_reduce0]
  decide!

theorem demo_reduce0_LHS : (parallel_reduce 64 (demoPose SE3.identity)).LHS = demoLHS := by
  rw [demo_reduce0]
  decide!

theorem demo_reduce0_RHS :
    (parallel_reduce 64 (demoPose SE3.identity)).RHS = demoLHS.mulVec ![3, 0, 0, 0, 0, 0] := by
  rw [demo_reduce0]
  decide!

theorem demo_reduce1_num_obs : (parallel_reduce 64 (demoPose demoTrl1)).num_obs = 0 := by
  rw [demo_reduce1]
  rfl

theorem demoH_mul_inv : demoH * demoHInv = 1 := by decide!

theorem demoLHS_mul_inv : demoLHS * demoLHSInv = 1 := by decide!

theorem demoLHS_det_ne_zero : demoLHS.det ≠ 0 :=
  Matrix.det_ne_zero_of_right_inverse demoLHS_mul_inv

theorem demo_update : -(![3, 0, 0, 0, 0, 0] : Vec6) = ![-3, 0, 0, 0, 0, 0] := by decide!

theorem demo_update_dot : (![-3, 0, 0, 0, 0, 0] : Vec6) ⬝ᵥ ![-3, 0, 0, 0, 0, 0] = 3 * 3 := by
  decide!

theorem demoApiTracker_ready (lib : Lib) : (demoApiTracker lib).Ready :=
  ⟨rfl, Nat.le_refl 4, Nat.le_refl 4⟩

theorem demoLiveTracker_poseRefine (lib : Lib) (Trl : SE3)
    (hpyr : ∀ img n, lib.buildPyramid img n 0 = img)
    (hdpyr : ∀ img n, lib.buildDepthPyramid img n 0 = img) :
    (demoLiveTracker lib).poseRefine 0 demoK demoK demoK Trl = demoPose Trl := by
  show ({ live_grey_ := lib.buildPyramid demoLive 4 0, ref_grey_ := lib.buildPyramid demoRef 4 0,
          ref_depth_ := lib.buildDepthPyramid demoDepth 4 0, Klg_ := demoK, Krg_ := demoK,
          Krd_ := demoK, Tgd_ := SE3.identity.matrix, Tlr_ := Trl.inverse.matrix,
          KlgTlr_ := demoK * Trl.inverse.matrix3x4, norm_param_ := norm_c * (((0 : ℕ) : ℚ) + 1),
          discard_saturated_ := discard_saturated, min_depth_ := min_depth,
          max_depth_ := max_depth } : PoseRefine) = _
  rw [hpyr, hpyr, hdpyr]
  rfl

theorem demoLiveTracker_solveStep (lib : Lib) (Trl : SE3)
    (hpyr : ∀ img n, lib.buildPyramid img n 0 = img)
    (hdpyr : ∀ img n, lib.buildDepthPyramid img n 0 = img) :
    (demoLiveTracker lib).solveStep lib 0 demoK demoK demoK true Trl
      = { pose_ref := parallel_reduce 64 (demoPose Trl)
          X := -(lib.solve6 (parallel_reduce 64 (demoPose Trl)).LHS
            (parallel_reduce 64 (demoPose Trl)).RHS)
          new_error := rmse lib (parallel_reduce 64 (demoPose Trl)).error
            (parallel_reduce 64 (demoPose Trl)).num_obs } := by
  have hcells : ((demoLiveTracker lib).ref_depth_pyramid_ 0).cols
      * ((demoLiveTracker lib).ref_depth_pyramid_ 0).rows = 64 := by
    show (lib.buildDepthPyramid demoDepth 4 0).cols * (lib.buildDepthPyramid demoDepth 4 0).rows
      = 64
    rw [hdpyr]
    rfl
  unfold DTrack.solveStep
  simp only [hcells, demoLiveTracker_poseRefine lib Trl hpyr hdpyr]
  rfl

theorem demoApiTracker_cam0 (lib : Lib) (hscale : ∀ K : Mat3, lib.Scaled K 1 = K) :
    (demoApiTracker lib).ref_grey_cam_model_[0]? = some demoK
    ∧ (demoApiTracker lib).ref_depth_cam_model_[0]? = some demoK := by
  have h1 : (1 : ℚ) / 2 ^ 0 = 1 := by norm_num
  have h2 : DTrack._ScaleCM lib demoK 0 = demoK := by
    unfold DTrack._ScaleCM
    simp only [h1, hscale]
  constructor
  · show some (DTrack._ScaleCM lib demoK 0) = some demoK
    rw [h2]
  · show some (DTrack._ScaleCM lib demoK 0) = some demoK
    rw [h2]

/-- The first pass of the worked example: six observations, RMS `1/50`, the
update `(-3, 0, 0, 0, 0, 0)`. -/
theorem demoPass0_out (lib : Lib) (hessian_init : Mat6)
    (hsqrt : ∀ q : ℚ, 0 ≤ q → lib.sqrt (q * q) = q)
    (hsolve : ∀ (A : Mat6) (x : Vec6), A.det ≠ 0 → lib.solve6 A (A.mulVec x) = x)
    (hpyr : ∀ img n, lib.buildPyramid img n 0 = img)
    (hdpyr : ∀ img n, lib.buildDepthPyramid img n 0 = img) :
    (demoPass0 lib hessian_init).out
      = { pose_ref := parallel_reduce 64 (demoPose SE3.identity), X := ![-3, 0, 0, 0, 0, 0],
          new_error := some (1 / 50) } := by
  have hout0 := demoLiveTracker_solveStep lib SE3.identity hpyr hdpyr
  have hX0 : -(lib.solve6 (parallel_reduce 64 (demoPose SE3.identity)).LHS
      (parallel_reduce 64 (demoPose SE3.identity)).RHS) = ![-3, 0, 0, 0, 0, 0] := by
    rw [demo_reduce0_LHS, demo_reduce0_RHS, hsolve _ _ demoLHS_det_ne_zero, demo_update]
  have hne0 : rmse lib (parallel_reduce 64 (demoPose SE3.identity)).error
      (parallel_reduce 64 (demoPose SE3.identity)).num_obs = some (1 / 50) := by
    rw [demo_reduce0_error, demo_reduce0_num_obs]
    unfold rmse
    rw [if_neg (by decide)]
    have : (3 : ℚ) / 1250 / ((6 : ℕ) : ℚ) = 1 / 50 * (1 / 50) := by norm_num
    rw [this, hsqrt _ (by norm_num)]
  rw [hX0, hne0] at hout0
  exact hout0

theorem demoPass0_accepted (lib : Lib) (hessian_init : Mat6)
    (hsqrt : ∀ q : ℚ, 0 ≤ q → lib.sqrt (q * q) = q)
    (hsolve : ∀ (A : Mat6) (x : Vec6), A.det ≠ 0 → lib.solve6 A (A.mulVec x) = x)
    (hpyr : ∀ img n, lib.buildPyramid img n 0 = img)
    (hdpyr : ∀ img n, lib.buildDepthPyramid img n 0 = img) :
    (demoPass0 lib hessian_init).accepted = true := by
  show accepts (demoPass0 lib hessian_init).out.new_error FLT_MAX = true
  rw [demoPass0_out lib hessian_init hsqrt hsolve hpyr hdpyr]
  show decide ((1 : ℚ) / 50 < FLT_MAX) = true
  decide!

theorem demoPass0_not_converged (lib : Lib) (hessian_init : Mat6)
    (hsqrt : ∀ q : ℚ, 0 ≤ q → lib.sqrt (q * q) = q)
    (hsolve : ∀ (A : Mat6) (x : Vec6), A.det ≠ 0 → lib.solve6 A (A.mulVec x) = x)
    (hpyr : ∀ img n, lib.buildPyramid img n 0 = img)
    (hdpyr : ∀ img n, lib.buildDepthPyramid img n 0 = img) :
    ¬ norm lib (demoPass0 lib hessian_init).out.X < 1 / 100000 := by
  rw [demoPass0_out lib hessian_init hsqrt hsolve hpyr hdpyr]
  unfold norm
  rw [demo_update_dot, hsqrt _ (by norm_num)]
  norm_num

theorem demoState1_Trl (lib : Lib) (hessian_init : Mat6)
    (hsqrt : ∀ q : ℚ, 0 ≤ q → lib.sqrt (q * q) = q)
    (hexp : ∀ t0 t1 t2 : ℚ, lib.exp ![t0, t1, t2, 0, 0, 0] = { R := 1, t := ![t0, t1, t2] })
    (hsolve : ∀ (A : Mat6) (x : Vec6), A.det ≠ 0 → lib.solve6 A (A.mulVec x) = x)
    (hpyr : ∀ img n, lib.buildPyramid img n 0 = img)
    (hdpyr : ∀ img n, lib.buildDepthPyramid img n 0 = img) :
    (demoState1 lib hessian_init).Trl = demoTrl1 := by
  show ((SE3.identity.inverse).mul (lib.exp (demoPass0 lib hessian_init).out.X)).inverse
    = demoTrl1
  rw [demoPass0_out lib hessian_init hsqrt hsolve hpyr hdpyr, hexp]
  rfl

theorem demoPass1_rejected (lib : Lib) (hessian_init : Mat6)
    (hsqrt : ∀ q : ℚ, 0 ≤ q → lib.sqrt (q * q) = q)
    (hexp : ∀ t0 t1 t2 : ℚ, lib.exp ![t0, t1, t2, 0, 0, 0] = { R := 1, t := ![t0, t1, t2] })
    (hsolve : ∀ (A : Mat6) (x : Vec6), A.det ≠ 0 → lib.solve6 A (A.mulVec x) = x)
    (hpyr : ∀ img n, lib.buildPyramid img n 0 = img)
    (hdpyr : ∀ img n, lib.buildDepthPyramid img n 0 = img) :
    (demoPass1 lib hessian_init).accepted = false := by
  have hout1 := demoLiveTracker_solveStep lib demoTrl1 hpyr hdpyr
  have hne1 : rmse lib (parallel_reduce 64 (demoPose demoTrl1)).error
      (parallel_reduce 64 (demoPose demoTrl1)).num_obs = none := by
    rw [demo_reduce1_num_obs]
    rfl
  rw [hne1] at hout1
  show accepts ((demoLiveTracker lib).solveStep lib 0 demoK demoK demoK true
    (demoState1 lib hessian_init).Trl).new_error _ = false
  rw [demoState1_Trl lib hessian_init hsqrt hexp hsolve hpyr hdpyr, hout1]
  rfl

/-- The worked example run by `Estimate` without pyramid: the loop of level 0
makes two passes, the first accepted and the second rejected. -/
theorem demo_Estimate (lib : Lib) (hessian_init : Mat6)
    (hsqrt : ∀ q : ℚ, 0 ≤ q → lib.sqrt (q * q) = q)
    (hexp : ∀ t0 t1 t2 : ℚ, lib.exp ![t0, t1, t2, 0, 0, 0] = { R := 1, t := ![t0, t1, t2] })
    (hsolve : ∀ (A : Mat6) (x : Vec6), A.det ≠ 0 → lib.solve6 A (A.mulVec x) = x)
    (hscale : ∀ K : Mat3, lib.Scaled K 1 = K)
    (hpyr : ∀ img n, lib.buildPyramid img n 0 = img)
    (hdpyr : ∀ img n, lib.buildDepthPyramid img n 0 = img) :
    (demoApiTracker lib).Estimate lib demoLive SE3.identity false hessian_init
      = some (finish lib (demoLiveTracker lib)
          (afterReject (demoState1 lib hessian_init) (demoPass1 lib hessian_init))) := by
  obtain ⟨s3, Kg, Kd, _, hs3, hKg, hKd, hE⟩ := (demoApiTracker lib).Estimate_level0 lib demoLive
    SE3.identity false hessian_init (demoApiTracker_ready lib) (fun _ => True) trivial
    (fun _ _ => trivial) (fun _ _ _ _ _ _ _ _ _ _ => trivial)
    (fun _ _ _ _ _ _ _ _ _ _ => trivial)
  have hno := (demoLiveTracker lib).levels_no_pyramid lib
    (initState SE3.identity hessian_init) (demoApiTracker_ready lib).2.1
    (demoApiTracker_ready lib).2.2
  have hs3eq : s3 = initState SE3.identity hessian_init := by
    have hs3' : (demoLiveTracker lib).levels lib false [3, 2, 1]
      (initState SE3.identity hessian_init) = some s3 := hs3
    rw [hno] at hs3'
    exact (Option.some.inj hs3').symm
  have hKg1 : Kg = demoK := by
    rw [(demoApiTracker_cam0 lib hscale).1] at hKg
    exact (Option.some.inj hKg).symm
  have hKd1 : Kd = demoK := by
    rw [(demoApiTracker_cam0 lib hscale).2] at hKd
    exact (Option.some.inj hKd).symm
  subst hs3eq hKg1 hKd1
  have hiter : (demoLiveTracker lib).iterate lib 0 demoK demoK demoK true
      3 0 (initState SE3.identity hessian_init)
      = afterReject (demoState1 lib hessian_init) (demoPass1 lib hessian_init) := by
    rw [DTrack.iterate_accept_continue lib _ 0 demoK demoK demoK true 2 0 _
        (demoPass0_accepted lib hessian_init hsqrt hsolve hpyr hdpyr)
        (demoPass0_not_converged lib hessian_init hsqrt hsolve hpyr hdpyr)]
    exact DTrack.iterate_reject lib _ 0 demoK demoK demoK true 1 1 _
      (demoPass1_rejected lib hessian_init hsqrt hexp hsolve hpyr hdpyr)
  have hE1 : (demoApiTracker lib).Estimate lib demoLive SE3.identity false hessian_init
      = some (finish lib (demoLiveTracker lib)
          ((demoLiveTracker lib).iterate lib 0 demoK demoK demoK true
            3 0 (initState SE3.identity hessian_init))) := hE
  rw [hiter] at hE1
  exact hE1

/-- C2, the code at a failing input: `DTrack(4)`, `SetParams(demoK, demoK,
demoK, identity)`, `SetKeyframe(demoRef, demoDepth)`, then
`Estimate(demoLive, identity, use_pyramid = false)`, with a library that is
exact (`sqrt` on squares, `exp` on translations, the solve on non-singular
systems, `Scaled` at scale 1, level 0 of a pyramid).  Level 0 makes two passes:
the first is accepted and accumulates the invertible Hessian `demoH`, the second
is rejected; the covariance written on return is `inverse()` of the zero
matrix, to which line 456 reset `hessian`, not of `demoH`. -/
theorem C2_covariance_after_rejected_pass (lib : Lib) (hessian_init : Mat6)
    (hsqrt : ∀ q : ℚ, 0 ≤ q → lib.sqrt (q * q) = q)
    (hexp : ∀ t0 t1 t2 : ℚ, lib.exp ![t0, t1, t2, 0, 0, 0] = { R := 1, t := ![t0, t1, t2] })
    (hsolve : ∀ (A : Mat6) (x : Vec6), A.det ≠ 0 → lib.solve6 A (A.mulVec x) = x)
    (hscale : ∀ K : Mat3, lib.Scaled K 1 = K)
    (hpyr : ∀ img n, lib.buildPyramid img n 0 = img)
    (hdpyr : ∀ img n, lib.buildDepthPyramid img n 0 = img) :
    ∃ r, (demoApiTracker lib).Estimate lib demoLive SE3.identity false hessian_init = some r
      ∧ r.log = [demoPass0 lib hessian_init, demoPass1 lib hessian_init]
      ∧ (demoPass0 lib hessian_init).pyramid_lvl = 0
      ∧ (demoPass0 lib hessian_init).accepted = true
      ∧ (demoPass0 lib hessian_init).out.pose_ref.hessian = demoH
      ∧ demoH * demoHInv = 1
      ∧ (demoPass1 lib hessian_init).pyramid_lvl = 0
      ∧ (demoPass1 lib hessian_init).accepted = false
      ∧ r.covariance = lib.inverse6 0 := by
  refine ⟨_, demo_Estimate lib hessian_init hsqrt hexp hsolve hscale hpyr hdpyr, rfl, rfl,
    demoPass0_accepted lib hessian_init hsqrt hsolve hpyr hdpyr, ?_, demoH_mul_inv, rfl,
    demoPass1_rejected lib hessian_init hsqrt hexp hsolve hpyr hdpyr, rfl⟩
  rw [demoPass0_out lib hessian_init hsqrt hsolve hpyr hdpyr]
  exact demo_reduce0_hessian

theorem exactLib_sqrt (q : ℚ) (hq : 0 ≤ q) : exactLib.sqrt (q * q) = q := by
  show Rat.sqrt (q * q) = q
  rw [Rat.sqrt_eq, abs_of_nonneg hq]

theorem exactLib_exp (t0 t1 t2 : ℚ) :
    exactLib.exp ![t0, t1, t2, 0, 0, 0] = { R := 1, t := ![t0, t1, t2] } := rfl

theorem exactLib_solve6 (A : Mat6) (x : Vec6) (h : A.det ≠ 0) :
    exactLib.solve6 A (A.mulVec x) = x := by
  show (A.det)⁻¹ • A.adjugate.mulVec (A.mulVec x) = x
  rw [Matrix.mulVec_mulVec, Matrix.adjugate_mul, Matrix.smul_mulVec_assoc, Matrix.one_mulVec,
    smul_smul, inv_mul_cancel₀ h, one_smul]

theorem exactLib_solve6_zero (A : Mat6) : exactLib.solve6 A 0 = 0 := by
  show (A.det)⁻¹ • A.adjugate.mulVec 0 = 0
  rw [Matrix.mulVec_zero, smul_zero]

theorem exactLib_solve3_zero (A : Mat3) : exactLib.solve3 A 0 = 0 := by
  show (A.det)⁻¹ • A.adjugate.mulVec 0 = 0
  rw [Matrix.mulVec_zero, smul_zero]

theorem exactLib_scaled_one (K : Mat3) : exactLib.Scaled K 1 = K := by
  ext i j
  show (if i.val < 2 then K i j * 1 else K i j) = K i j
  split <;> simp

theorem subsample_zero {α : Type} (img : Image α) : subsample img 0 = img := by
  unfold subsample
  simp only [pow_zero, Nat.div_one, Nat.mul_one, Nat.div_add_mod']

/-- C2, witness: the failing run with the library `exactLib`. -/
theorem C2_covariance_after_rejected_pass_witness :
    ∃ r, (demoApiTracker exactLib).Estimate exactLib demoLive SE3.identity false 0 = some r
      ∧ r.log = [demoPass0 exactLib 0, demoPass1 exactLib 0]
      ∧ (demoPass0 exactLib 0).pyramid_lvl = 0
      ∧ (demoPass0 exactLib 0).accepted = true
      ∧ (demoPass0 exactLib 0).out.pose_ref.hessian = demoH
      ∧ demoH * demoHInv = 1
      ∧ (demoPass1 exactLib 0).pyramid_lvl = 0
      ∧ (demoPass1 exactLib 0).accepted = false
      ∧ r.covariance = exactLib.inverse6 0 :=
  C2_covariance_after_rejected_pass exactLib 0 exactLib_sqrt exactLib_exp exactLib_solve6
    exactLib_scaled_one (fun img _ => subsample_zero img) (fun img _ => subsample_zero img)

theorem exactLib_sqrt_zero : exactLib.sqrt 0 = 0 := by
  have h := exactLib_sqrt 0 (le_refl 0)
  rwa [mul_zero] at h

theorem exactLib_exp_zero : exactLib.exp 0 = SE3.identity := by
  show ({ R := 1, t := ![(0 : Vec6) 0, (0 : Vec6) 1, (0 : Vec6) 2] } : SE3) = { R := 1, t := 0 }
  congr 1
  ext i
  fin_cases i <;> rfl

theorem demoNoDepth_invalid (j : ℕ) : invalidDepth (demoNoDepth.data j) min_depth max_depth := by
  show invalidDepth (if j % 2 = 0 then none else some 1000) min_depth max_depth
  split
  · exact Or.inl rfl
  · exact Or.inr ⟨1000, rfl, Or.inr (by norm_num [max_depth])⟩

theorem noDepthTracker_ready : noDepthTracker.Ready :=
  ⟨rfl, Nat.le_refl 4, Nat.le_refl 4⟩

theorem noDepthTracker_invalid (lvl ii : ℕ) :
    invalidDepth ((noDepthTracker.ref_depth_pyramid_ lvl).data ii) min_depth max_depth :=
  demoNoDepth_invalid _

theorem farPose_pixel : farPose.pixel 19
    = some (![1 / 150, 1 / 600, 1 / 600, -3 / 2000, 3 / 1000, 3 / 1000], 1 / 10) := by
  decide!

theorem farPose_scale : 0 < farPose.norm_param_ ∧ farPose.norm_param_ < |(1 / 10 : ℚ)| := by
  decide!

theorem constPose_pixel : constPose.pixel 27 = some (![0, 0, 0, 0, 0, 0], 1 / 4) := by
  decide!

theorem demoTree_leaves : demoTree.leaves.Perm (chunksFrom 0 [10, 30, 24]) := by
  decide

/-- C1, witness: the tracker of the worked example, its reference image as
keyframe and as live image, the library `exactLib`. -/
theorem C1_identity_keyframe_witness :
    ∃ r, (((DTrack.init 4).SetParams exactLib demoK demoK demoK SE3.identity).SetKeyframe
        exactLib demoRef demoDepth).Estimate exactLib demoRef SE3.identity true 0 = some r
      ∧ r.Trl = SE3.identity
      ∧ ∀ it ∈ r.log, it.out.pose_ref.error = 0 ∧ it.out.pose_ref.RHS = 0
          ∧ (it.accepted = true → it.out.new_error = some 0 ∧ it.out.X = 0) :=
  (C1_identity_keyframe exactLib
    ((DTrack.init 4).SetParams exactLib demoK demoK demoK SE3.identity) demoRef demoDepth true 0
    exactLib_sqrt_zero exactLib_exp_zero exactLib_solve6_zero exactLib_solve3_zero
    ⟨rfl, Nat.le_refl 4, Nat.le_refl 4⟩ ⟨rfl, rfl⟩ rfl
    (by
      intro lvl hlvl
      interval_cases lvl
      · exact ⟨_, rfl, rfl, rfl, by decide!, by decide!⟩
      · exact ⟨_, rfl, rfl, rfl, by decide!, by decide!⟩
      · exact ⟨_, rfl, rfl, rfl, by decide!, by decide!⟩
      · exact ⟨_, rfl, rfl, rfl, by decide!, by decide!⟩)).2

/-- C3, witness: in the worked example with the library `exactLib` the first
pass of level 0 is accepted, the second is rejected, and the loop of level 0
ends with the `Trl` of the first pass. -/
theorem C3_divergence_safeguard_witness :
    (demoPass0 exactLib 0).accepted = true
    ∧ (demoPass1 exactLib 0).accepted = false
    ∧ ((demoLiveTracker exactLib).iterate exactLib 0 demoK demoK demoK true 3 0
        (initState SE3.identity 0)).Trl = (demoState1 exactLib 0).Trl :=
  ⟨demoPass0_accepted exactLib 0 exactLib_sqrt exactLib_solve6 (fun img _ => subsample_zero img)
      (fun img _ => subsample_zero img),
    demoPass1_rejected exactLib 0 exactLib_sqrt exactLib_exp exactLib_solve6
      (fun img _ => subsample_zero img) (fun img _ => subsample_zero img),
    ((C3_divergence_safeguard exactLib (demoLiveTracker exactLib) 0 demoK demoK demoK true 1 0
      (initState SE3.identity 0)).2
      (demoPass0_accepted exactLib 0 exactLib_sqrt exactLib_solve6
        (fun img _ => subsample_zero img) (fun img _ => subsample_zero img))
      (demoPass0_not_converged exactLib 0 exactLib_sqrt exactLib_solve6
        (fun img _ => subsample_zero img) (fun img _ => subsample_zero img))
      (demoPass1_rejected exactLib 0 exactLib_sqrt exactLib_exp exactLib_solve6
        (fun img _ => subsample_zero img) (fun img _ => subsample_zero img))).1⟩

/-- C4, witness: the keyframe depth map `demoNoDepth` has no valid cell, and
`Estimate` returns the hint `demoTrl1` it was given. -/
theorem C4_empty_observation_witness :
    ∃ r, noDepthTracker.Estimate exactLib demoLive demoTrl1 true 0 = some r
      ∧ r.Trl = demoTrl1
      ∧ r.log ≠ []
      ∧ ∀ it ∈ r.log, it.out.pose_ref = Accum.zero ∧ it.out.new_error = none
          ∧ it.accepted = false :=
  C4_empty_observation exactLib noDepthTracker demoLive demoTrl1 true 0 noDepthTracker_ready
    (fun lvl ii _ => noDepthTracker_invalid lvl ii)

/-- C5, counterexample: a tracker constructed with one pyramid level, then
configured and given a keyframe; `Estimate` returns nothing, with
`use_pyramid = true` and with `use_pyramid = false`. -/
theorem C5_counterexample :
    (oneLevelTracker.Estimate exactLib demoLive SE3.identity true 0).isSome = false
    ∧ (oneLevelTracker.Estimate exactLib demoLive SE3.identity false 0).isSome = false :=
  ⟨rfl, rfl⟩

/-- C5, witness of the amended claim: the tracker `oneLevelTracker`. -/
theorem C5_one_level_aborts_witness :
    oneLevelTracker.kPyramidLevels = 1
    ∧ oneLevelTracker.Estimate exactLib demoLive SE3.identity true 0 = none
    ∧ oneLevelTracker.Estimate exactLib demoLive SE3.identity false 0 = none :=
  ⟨rfl, C5_one_level_aborts exactLib oneLevelTracker demoLive SE3.identity 0 rfl⟩

/-- C6, witness: the worked example without pyramid. -/
theorem C6_no_pyramid_level0_only_witness :
    (demoApiTracker exactLib).Ready
    ∧ ∃ r, (demoApiTracker exactLib).Estimate exactLib demoLive SE3.identity false 0 = some r
      ∧ (∀ it ∈ r.log, it.pyramid_lvl = 0) ∧ r.log.length ≤ 3 :=
  ⟨demoApiTracker_ready exactLib,
    (C6_no_pyramid_level0_only exactLib (demoApiTracker exactLib) demoLive SE3.identity 0
      (demoApiTracker_ready exactLib)).imp fun _ h => ⟨h.1, h.2.1, h.2.2.1⟩⟩

/-- C7, witness: the 64 cells of the worked example reduced in the chunks
`[0, 10)`, `[10, 40)`, `[40, 64)` and joined out of order. -/
theorem C7_chunk_independence_witness :
    demoTree.eval (demoPose SE3.identity) = (demoPose SE3.identity).run Accum.zero 0 64 :=
  (C7_chunk_independence (demoPose SE3.identity)).1 [10, 30, 24] demoTree demoTree_leaves

/-- C8, witness: the reducer of the worked example at the identity, whose
`LHS` is the non-zero matrix `demoLHS`. -/
theorem C8_LHS_symmetric_psd_witness :
    0 < (demoPose SE3.identity).norm_param_
    ∧ ((demoPose SE3.identity).run Accum.zero 0 64).LHS = demoLHS
    ∧ ((demoPose SE3.identity).run Accum.zero 0 64).LHS
        = ((demoPose SE3.identity).run Accum.zero 0 64).LHSᵀ
    ∧ (∀ x : Vec6, 0 ≤ x ⬝ᵥ ((demoPose SE3.identity).run Accum.zero 0 64).LHS.mulVec x) :=
  ⟨by decide!, demo_reduce0_LHS,
    (C8_LHS_symmetric_psd (demoPose SE3.identity) 0 64 (by decide!)).1,
    (C8_LHS_symmetric_psd (demoPose SE3.identity) 0 64 (by decide!)).2.1⟩

/-- C9, witness: the pixel 19 of `farPose` contributes with a non-zero
Jacobian and the residual `1/10`, beyond the Tukey scale `1/25`. -/
theorem C9_zero_weight_contribution_witness :
    farPose.pixel 19
      = some (![1 / 150, 1 / 600, 1 / 600, -3 / 2000, 3 / 1000, 3 / 1000], 1 / 10)
    ∧ _NormTukey (1 / 10) farPose.norm_param_ = 0
    ∧ (farPose.step Accum.zero 19).LHS = Accum.zero.LHS
    ∧ (farPose.step Accum.zero 19).RHS = Accum.zero.RHS :=
  ⟨farPose_pixel,
    (C9_zero_weight_contribution farPose Accum.zero 19 _ _ farPose_pixel farPose_scale.1
      farPose_scale.2).1,
    (C9_zero_weight_contribution farPose Accum.zero 19 _ _ farPose_pixel farPose_scale.1
      farPose_scale.2).2.2.2.1,
    (C9_zero_weight_contribution farPose Accum.zero 19 _ _ farPose_pixel farPose_scale.1
      farPose_scale.2).2.2.2.2⟩

/-- C10, counterexample: on constant images (live `1/2`, reference `1/4`) the
pixel 27 contributes with the residual `1/4`, beyond the Tukey scale `1/25`, and
with a zero Jacobian: the matrix `J Jᵀ` it adds to `hessian` is the zero
matrix, and `hessian` stays at zero while `num_obs` and `error` grow. -/
theorem C10_counterexample :
    constPose.pixel 27 = some (![0, 0, 0, 0, 0, 0], 1 / 4)
    ∧ 0 < constPose.norm_param_ ∧ constPose.norm_param_ < |(1 / 4 : ℚ)|
    ∧ (Matrix.of fun i j => (![0, 0, 0, 0, 0, 0] : Vec6) i * (![0, 0, 0, 0, 0, 0] : Vec6) j)
        = (0 : Mat6)
    ∧ (constPose.step Accum.zero 27).hessian = 0
    ∧ (constPose.step Accum.zero 27).num_obs = 1
    ∧ (constPose.step Accum.zero 27).error = 1 / 16 := by
  rw [constPose.step_of_pixel Accum.zero 27 _ constPose_pixel]
  refine ⟨constPose_pixel, ?_, ?_, ?_, ?_, ?_, ?_⟩ <;> decide!

/-- C10, witness of the amended claim: the pixel 19 of `farPose`, whose
Jacobian is not zero. -/
theorem C10_zero_weight_hessian_error_witness :
    farPose.pixel 19
      = some (![1 / 150, 1 / 600, 1 / 600, -3 / 2000, 3 / 1000, 3 / 1000], 1 / 10)
    ∧ (farPose.step Accum.zero 19).hessian
        = Accum.zero.hessian + Matrix.of (fun i j =>
            (![1 / 150, 1 / 600, 1 / 600, -3 / 2000, 3 / 1000, 3 / 1000] : Vec6) i
              * (![1 / 150, 1 / 600, 1 / 600, -3 / 2000, 3 / 1000, 3 / 1000] : Vec6) j)
    ∧ (farPose.step Accum.zero 19).error = Accum.zero.error + 1 / 10 * (1 / 10)
    ∧ (farPose.step Accum.zero 19).num_obs = Accum.zero.num_obs + 1 :=
  ⟨farPose_pixel,
    (C10_zero_weight_hessian_error farPose Accum.zero 19 _ _ farPose_pixel farPose_scale.1
      farPose_scale.2).1,
    (C10_zero_weight_hessian_error farPose Accum.zero 19 _ _ farPose_pixel farPose_scale.1
      farPose_scale.2).2.2.1,
    (C10_zero_weight_hessian_error farPose Accum.zero 19 _ _ farPose_pixel farPose_scale.1
      farPose_scale.2).2.2.2.2⟩

theorem clampCoord_bounds (x : ℚ) (n : ℕ) (hn : 4 ≤ n) :
    2 ≤ clampCoord x n ∧ clampCoord x n ≤ (n : ℚ) - 2 := by
  have h4 : (4 : ℚ) ≤ n := by exact_mod_cast hn
  unfold clampCoord
  exact ⟨le_max_right _ _, max_le (min_le_right _ _) (by linarith)⟩

theorem clampCoord_of_mem (x : ℚ) (n : ℕ) (h2 : 2 ≤ x) (hn : x ≤ (n : ℚ) - 2) :
    clampCoord x n = x := by
  unfold clampCoord
  rw [min_eq_left hn, max_eq_left h2]

theorem toInt_of_nonneg (x : ℚ) (h : 0 ≤ x) : toInt x = ⌊x⌋ := by
  unfold toInt
  rw [if_pos h]

theorem interpCorner_bounds (x : ℚ) (n : ℕ) (hn : 4 ≤ n) :
    2 ≤ interpCorner x n ∧ interpCorner x n ≤ (n : ℤ) - 2 := by
  obtain ⟨h2, hle⟩ := clampCoord_bounds x n hn
  unfold interpCorner
  rw [toInt_of_nonneg _ (by linarith)]
  constructor
  · exact Int.le_floor.mpr (by exact_mod_cast h2)
  · have h := Int.floor_le (clampCoord x n)
    have h3 : ((⌊clampCoord x n⌋ : ℤ) : ℚ) ≤ (((n : ℤ) - 2 : ℤ) : ℚ) := by
      push_cast
      linarith
    exact_mod_cast h3

/-- The four cells that `interp` reads are inside the buffer of `W * H` cells. -/
theorem interp_indices_lt (px py W H : ℕ) (hpx : px + 2 ≤ W) (hpy : py + 2 ≤ H) :
    W * py + px < W * H ∧ W * py + px + 1 < W * H ∧ W * py + px + W < W * H
      ∧ W * py + px + W + 1 < W * H := by
  have h1 : W * (py + 2) ≤ W * H := Nat.mul_le_mul_left W hpy
  have h2 : W * (py + 2) = W * py + W + W := by ring
  omega

theorem interp_unfold (x y : ℚ) (img : ℕ → ℚ) (W H : ℕ) :
    interp x y img W H
      = (img (W * (interpCorner y H).toNat + (interpCorner x W).toNat)
            * (1 - (clampCoord y H - interpCorner y H))
          + img (W * (interpCorner y H).toNat + (interpCorner x W).toNat + W)
            * (clampCoord y H - interpCorner y H))
          * (1 - (clampCoord x W - interpCorner x W))
        + (img (W * (interpCorner y H).toNat + (interpCorner x W).toNat + 1)
            * (1 - (clampCoord y H - interpCorner y H))
          + img (W * (interpCorner y H).toNat + (interpCorner x W).toNat + W + 1)
            * (clampCoord y H - interpCorner y H))
          * (clampCoord x W - interpCorner x W) := rfl

/-- C11 (sampler bounds safety): for every width `W ≥ 4`, height `H ≥ 4` and pair
of coordinates `(x, y)`, `interp` clamps the coordinates into `[2, W-2]` and
`[2, H-2]`; the corner `(px, py)` it truncates them to has `px + 1 ≤ W - 1` and
`py + 1 ≤ H - 1`; the four indices `W*py+px`, `W*py+px+1`, `W*(py+1)+px`,
`W*(py+1)+px+1` are below `W * H`; and the value `interp` returns is computed
from the cells at these four indices alone. -/
theorem C11_sampler_bounds (x y : ℚ) (W H : ℕ) (hW : 4 ≤ W) (hH : 4 ≤ H) :
    (2 ≤ clampCoord x W ∧ clampCoord x W ≤ (W : ℚ) - 2)
    ∧ (2 ≤ clampCoord y H ∧ clampCoord y H ≤ (H : ℚ) - 2)
    ∧ (∃ px py : ℕ, interpCorner x W = px ∧ interpCorner y H = py
        ∧ px + 1 ≤ W - 1 ∧ py + 1 ≤ H - 1
        ∧ W * py + px < W * H ∧ W * py + px + 1 < W * H
        ∧ W * (py + 1) + px < W * H ∧ W * (py + 1) + px + 1 < W * H
        ∧ ∀ img : ℕ → ℚ, interp x y img W H
            = (img (W * py + px) * (1 - (clampCoord y H - py))
                + img (W * (py + 1) + px) * (clampCoord y H - py))
                * (1 - (clampCoord x W - px))
              + (img (W * py + px + 1) * (1 - (clampCoord y H - py))
                + img (W * (py + 1) + px + 1) * (clampCoord y H - py))
                * (clampCoord x W - px)) := by
  obtain ⟨hx2, hxn⟩ := interpCorner_bounds x W hW
  obtain ⟨hy2, hyn⟩ := interpCorner_bounds y H hH
  refine ⟨clampCoord_bounds x W hW, clampCoord_bounds y H hH,
    (interpCorner x W).toNat, (interpCorner y H).toNat, ?_, ?_, ?_⟩
  · exact (Int.toNat_of_nonneg (by omega)).symm
  · exact (Int.toNat_of_nonneg (by omega)).symm
  · have hpx : (interpCorner x W).toNat + 2 ≤ W := by omega
    have hpy : (interpCorner y H).toNat + 2 ≤ H := by omega
    obtain ⟨h1, h2, h3, h4⟩ := interp_indices_lt _ _ W H hpx hpy
    have hmul : W * ((interpCorner y H).toNat + 1) = W * (interpCorner y H).toNat + W := by ring
    have hcx : (((interpCorner x W).toNat : ℤ) : ℚ) = ((interpCorner x W : ℤ) : ℚ) := by
      rw [Int.toNat_of_nonneg (by omega)]
    have hcy : (((interpCorner y H).toNat : ℤ) : ℚ) = ((interpCorner y H : ℤ) : ℚ) := by
      rw [Int.toNat_of_nonneg (by omega)]
    refine ⟨by omega, by omega, h1, h2, by rw [hmul]; omega, by rw [hmul]; omega, ?_⟩
    intro img
    rw [interp_unfold, hmul]
    have e1 : W * (interpCorner y H).toNat + W + (interpCorner x W).toNat
        = W * (interpCorner y H).toNat + (interpCorner x W).toNat + W := by omega
    rw [e1]
    simp only [Int.cast_natCast] at hcx hcy
    rw [hcx, hcy]

/-- C11, witness: a 4 x 5 image sampled at `(-7/2, 9)`, far outside of it. -/
theorem C11_sampler_bounds_witness :
    (4 ≤ 4 ∧ 4 ≤ 5)
    ∧ (2 ≤ clampCoord (-7 / 2) 4 ∧ clampCoord (-7 / 2) 4 ≤ ((4 : ℕ) : ℚ) - 2)
    ∧ (2 ≤ clampCoord 9 5 ∧ clampCoord 9 5 ≤ ((5 : ℕ) : ℚ) - 2)
    ∧ (∃ px py : ℕ, interpCorner (-7 / 2) 4 = px ∧ interpCorner 9 5 = py
        ∧ px + 1 ≤ 4 - 1 ∧ py + 1 ≤ 5 - 1
        ∧ 4 * py + px < 4 * 5 ∧ 4 * py + px + 1 < 4 * 5
        ∧ 4 * (py + 1) + px < 4 * 5 ∧ 4 * (py + 1) + px + 1 < 4 * 5
        ∧ ∀ img : ℕ → ℚ, interp (-7 / 2) 9 img 4 5
            = (img (4 * py + px) * (1 - (clampCoord 9 5 - py))
                + img (4 * (py + 1) + px) * (clampCoord 9 5 - py))
                * (1 - (clampCoord (-7 / 2) 4 - px))
              + (img (4 * py + px + 1) * (1 - (clampCoord 9 5 - py))
                + img (4 * (py + 1) + px + 1) * (clampCoord 9 5 - py))
                * (clampCoord (-7 / 2) 4 - px)) :=
  ⟨⟨by decide, by decide⟩, C11_sampler_bounds (-7 / 2) 9 4 5 (by decide) (by decide)⟩

theorem interpCorner_of_mem (x : ℚ) (n : ℕ) (h2 : 2 ≤ x) (hn : x ≤ (n : ℚ) - 2) :
    interpCorner x n = ⌊x⌋ := by
  unfold interpCorner
  rw [clampCoord_of_mem x n h2 hn, toInt_of_nonneg x (by linarith)]

theorem floor_toNat_cast (x : ℚ) (h : 0 ≤ x) : ((⌊x⌋.toNat : ℕ) : ℚ) = ((⌊x⌋ : ℤ) : ℚ) := by
  have h0 : (0 : ℤ) ≤ ⌊x⌋ := Int.floor_nonneg.mpr h
  have h1 : ((⌊x⌋.toNat : ℕ) : ℤ) = ⌊x⌋ := Int.toNat_of_nonneg h0
  exact_mod_cast h1

/-- Inside the clamping range `interp` is the bilinear interpolation of the
spec. -/
theorem interp_eq_bilinear (x y : ℚ) (img : ℕ → ℚ) (W H : ℕ) (hx2 : 2 ≤ x)
    (hxW : x ≤ (W : ℚ) - 2) (hy2 : 2 ≤ y) (hyH : y ≤ (H : ℚ) - 2) :
    interp x y img W H = bilinear x y (fun r c => img (W * r + c)) := by
  rw [interp_unfold, interpCorner_of_mem x W hx2 hxW, interpCorner_of_mem y H hy2 hyH,
    clampCoord_of_mem x W hx2 hxW, clampCoord_of_mem y H hy2 hyH]
  unfold bilinear
  have e1 : W * (⌊y⌋.toNat + 1) + ⌊x⌋.toNat = W * ⌊y⌋.toNat + ⌊x⌋.toNat + W := by ring
  have e2 : W * (⌊y⌋.toNat + 1) + (⌊x⌋.toNat + 1) = W * ⌊y⌋.toNat + ⌊x⌋.toNat + W + 1 := by
    ring
  have e3 : W * ⌊y⌋.toNat + (⌊x⌋.toNat + 1) = W * ⌊y⌋.toNat + ⌊x⌋.toNat + 1 := by ring
  simp only [e1, e2, e3]
  ring

/-- A weighted mean of two numbers, with weights `1 - a` and `a` for
`0 ≤ a ≤ 1`, lies between them. -/
theorem mix_bounds (p q a lo hi : ℚ) (ha0 : 0 ≤ a) (ha1 : a ≤ 1) (hp : lo ≤ p) (hq : lo ≤ q)
    (hp2 : p ≤ hi) (hq2 : q ≤ hi) : lo ≤ p * (1 - a) + q * a ∧ p * (1 - a) + q * a ≤ hi := by
  have h1 : 0 ≤ 1 - a := by linarith
  constructor
  · nlinarith [mul_nonneg h1 (sub_nonneg.mpr hp), mul_nonneg ha0 (sub_nonneg.mpr hq)]
  · nlinarith [mul_nonneg h1 (sub_nonneg.mpr hp2), mul_nonneg ha0 (sub_nonneg.mpr hq2)]

/-- C12: for every image of width `W` and height `H` and every coordinate with
`2 ≤ x ≤ W - 2` and `2 ≤ y ≤ H - 2`, `interp` returns the bilinear interpolation
`(1-ax)(1-ay) I[py][px] + ax(1-ay) I[py][px+1] + (1-ax)ay I[py+1][px]
+ ax ay I[py+1][px+1]` with `px = ⌊x⌋`, `py = ⌊y⌋`, `ax = x - px`, `ay = y - py`;
at integer coordinates `(m, n)` it returns the cell `I[n][m]`; and its result
lies between the minimum and the maximum of the four neighbours. -/
theorem C12_bilinear_interpolation (x y : ℚ) (img : ℕ → ℚ) (W H : ℕ) (hx2 : 2 ≤ x)
    (hxW : x ≤ (W : ℚ) - 2) (hy2 : 2 ≤ y) (hyH : y ≤ (H : ℚ) - 2) :
    interp x y img W H = bilinear x y (fun r c => img (W * r + c))
    ∧ (∀ m n : ℕ, x = m → y = n → interp x y img W H = img (W * n + m))
    ∧ min (min (img (W * ⌊y⌋.toNat + ⌊x⌋.toNat)) (img (W * ⌊y⌋.toNat + (⌊x⌋.toNat + 1))))
          (min (img (W * (⌊y⌋.toNat + 1) + ⌊x⌋.toNat))
            (img (W * (⌊y⌋.toNat + 1) + (⌊x⌋.toNat + 1))))
        ≤ interp x y img W H
    ∧ interp x y img W H
        ≤ max (max (img (W * ⌊y⌋.toNat + ⌊x⌋.toNat)) (img (W * ⌊y⌋.toNat + (⌊x⌋.toNat + 1))))
          (max (img (W * (⌊y⌋.toNat + 1) + ⌊x⌋.toNat))
            (img (W * (⌊y⌋.toNat + 1) + (⌊x⌋.toNat + 1)))) := by
  have hb := interp_eq_bilinear x y img W H hx2 hxW hy2 hyH
  refine ⟨hb, ?_, ?_⟩
  · intro m n hm hn
    rw [hb]
    subst hm
    subst hn
    unfold bilinear
    simp
  · rw [hb]
    unfold bilinear
    simp only []
    have hax0 : 0 ≤ x - ⌊x⌋ := sub_nonneg.mpr (Int.floor_le x)
    have hax1 : x - ⌊x⌋ ≤ 1 := by linarith [Int.lt_floor_add_one x]
    have hay0 : 0 ≤ y - ⌊y⌋ := sub_nonneg.mpr (Int.floor_le y)
    have hay1 : y - ⌊y⌋ ≤ 1 := by linarith [Int.lt_floor_add_one y]
    generalize img (W * ⌊y⌋.toNat + ⌊x⌋.toNat) = p1
    generalize img (W * ⌊y⌋.toNat + (⌊x⌋.toNat + 1)) = p2
    generalize img (W * (⌊y⌋.toNat + 1) + ⌊x⌋.toNat) = p3
    generalize img (W * (⌊y⌋.toNat + 1) + (⌊x⌋.toNat + 1)) = p4
    generalize x - ⌊x⌋ = ax at hax0 hax1
    generalize y - ⌊y⌋ = ay at hay0 hay1
    obtain ⟨l1, u1⟩ := mix_bounds p1 p3 ay (min (min p1 p2) (min p3 p4))
      (max (max p1 p2) (max p3 p4)) hay0 hay1
      (le_trans (min_le_left _ _) (min_le_left _ _))
      (le_trans (min_le_right _ _) (min_le_left _ _))
      (le_trans (le_max_left _ _) (le_max_left _ _))
      (le_trans (le_max_left _ _) (le_max_right _ _))
    obtain ⟨l2, u2⟩ := mix_bounds p2 p4 ay (min (min p1 p2) (min p3 p4))
      (max (max p1 p2) (max p3 p4)) hay0 hay1
      (le_trans (min_le_left _ _) (min_le_right _ _))
      (le_trans (min_le_right _ _) (min_le_right _ _))
      (le_trans (le_max_right _ _) (le_max_left _ _))
      (le_trans (le_max_right _ _) (le_max_right _ _))
    obtain ⟨l3, u3⟩ := mix_bounds _ _ ax _ _ hax0 hax1 l1 l2 u1 u2
    constructor
    · calc min (min p1 p2) (min p3 p4)
          ≤ (p1 * (1 - ay) + p3 * ay) * (1 - ax) + (p2 * (1 - ay) + p4 * ay) * ax := l3
        _ = _ := by ring
    · calc _ = (p1 * (1 - ay) + p3 * ay) * (1 - ax) + (p2 * (1 - ay) + p4 * ay) * ax := by ring
        _ ≤ _ := u3

/-- C12, witness: the reference image of the worked example (8 x 8) sampled at
`(7/2, 3)`, between the cells `(3, 3)` and `(4, 3)`. -/
theorem C12_bilinear_interpolation_witness :
    ((2 : ℚ) ≤ 7 / 2 ∧ (7 / 2 : ℚ) ≤ ((8 : ℕ) : ℚ) - 2 ∧ (2 : ℚ) ≤ 3
      ∧ (3 : ℚ) ≤ ((8 : ℕ) : ℚ) - 2)
    ∧ interp (7 / 2) 3 demoRef.data 8 8
        = bilinear (7 / 2) 3 (fun r c => demoRef.data (8 * r + c)) :=
  ⟨⟨by norm_num, by norm_num, by norm_num, by norm_num⟩,
    (C12_bilinear_interpolation (7 / 2) 3 demoRef.data 8 8 (by norm_num) (by norm_num)
      (by norm_num) (by norm_num)).1⟩

/-- The loop body in terms of its parts. -/
theorem PoseRefine.pixel_eq (p : PoseRefine) (ii : ℕ) :
    p.pixel ii
      = match p.ref_depth_.atFloat (ii / p.ref_depth_.cols) (ii % p.ref_depth_.cols) with
        | none => none
        | some depth =>
          if depth ≤ p.min_depth_ ∨ depth ≥ p.max_depth_ then none else
          if outOfBounds (p.pr_g ii depth).1 (p.pr_g ii depth).2 p.ref_grey_ then none else
          if outOfBounds (p.pl_g ii depth).1 (p.pl_g ii depth).2 p.live_grey_ then none else
          if p.saturated ii depth then none else
          some (jacobian (p.dIesm_dPl_KlgTlr ii depth) (p.hPr_g ii depth), p.residual ii depth) :=
  rfl

/-- A contributing pixel has a depth, passes both bounds tests, and its Jacobian
and residual are those of the parts of the loop body. -/
theorem PoseRefine.pixel_some (p : PoseRefine) (ii : ℕ) (J : Vec6) (y : ℚ)
    (h : p.pixel ii = some (J, y)) :
    ∃ depth, p.ref_depth_.atFloat (ii / p.ref_depth_.cols) (ii % p.ref_depth_.cols) = some depth
      ∧ outOfBounds (p.pr_g ii depth).1 (p.pr_g ii depth).2 p.ref_grey_ = false
      ∧ outOfBounds (p.pl_g ii depth).1 (p.pl_g ii depth).2 p.live_grey_ = false
      ∧ J = jacobian (p.dIesm_dPl_KlgTlr ii depth) (p.hPr_g ii depth)
      ∧ y = p.residual ii depth := by
  rw [PoseRefine.pixel_eq] at h
  cases hd : p.ref_depth_.atFloat (ii / p.ref_depth_.cols) (ii % p.ref_depth_.cols) with
  | none => rw [hd] at h; exact absurd h (by simp)
  | some depth =>
    rw [hd] at h
    simp only [] at h
    split_ifs at h with h1 h2 h3 h4
    simp only [Option.some.injEq, Prod.mk.injEq] at h
    exact ⟨depth, rfl, by simpa using h2, by simpa using h3, h.1.symm, h.2.symm⟩

/-- A pixel whose projection into the reference grey image or into the live grey
image fails the test of lines 175-176 or 189-190 is skipped. -/
theorem PoseRefine.pixel_out_of_bounds (p : PoseRefine) (ii : ℕ) (depth : ℚ)
    (hd : p.ref_depth_.atFloat (ii / p.ref_depth_.cols) (ii % p.ref_depth_.cols) = some depth)
    (h : outOfBounds (p.pr_g ii depth).1 (p.pr_g ii depth).2 p.ref_grey_ = true
      ∨ outOfBounds (p.pl_g ii depth).1 (p.pl_g ii depth).2 p.live_grey_ = true) :
    p.pixel ii = none := by
  rw [PoseRefine.pixel_eq, hd]
  simp only []
  rcases h with h | h
  · simp [h]
  · simp [h]

/-- C13, the code at a failing input: in the reducer `edgePose` the cell 26 of
the depth map (column 2, row 3, depth 1) projects to the pixel `(2, 3)` of the
reference and of the live image, less than 3 pixels from the left border
(`x < 3`); the tests of lines 175-176 and 189-190 pass it, since on the low side
they reject `x < 2` only, and the pixel contributes: `num_obs` becomes 1 and
`error`, `hessian`, `LHS` and `RHS` change. -/
theorem C13_border_margin_low_side :
    edgePose.ref_depth_.atFloat 3 2 = some 1
    ∧ edgePose.pr_g 26 1 = (2, 3) ∧ edgePose.pl_g 26 1 = (2, 3)
    ∧ (2 : ℚ) < 3
    ∧ outOfBounds 2 3 edgePose.ref_grey_ = false
    ∧ outOfBounds 2 3 edgePose.live_grey_ = false
    ∧ edgePose.pixel 26
        = some (![1 / 600, 1 / 1500, 1 / 600, -1 / 1500, 1 / 300, -1 / 1500], 1 / 50)
    ∧ (edgePose.step Accum.zero 26).num_obs = 1
    ∧ (edgePose.step Accum.zero 26).error = 1 / 2500
    ∧ (edgePose.step Accum.zero 26).hessian 0 0 = 1 / 360000
    ∧ (edgePose.step Accum.zero 26).LHS 0 0 = 1 / 640000
    ∧ (edgePose.step Accum.zero 26).RHS 0 = 3 / 160000 := by
  decide!

/-- The stored intrinsics after `DTrack(4)` and one `SetParams`: per camera, the
four scaled models in the order of the levels. -/
theorem configured_cam_models (lib : Lib) (A B C : Mat3) (Tgd : SE3) (I : Image ℚ)
    (D : Image (Option ℚ)) (live : Image ℚ) :
    (configured lib A B C Tgd I D live).live_grey_cam_model_
        = [DTrack._ScaleCM lib A 0, DTrack._ScaleCM lib A 1, DTrack._ScaleCM lib A 2,
            DTrack._ScaleCM lib A 3]
    ∧ (configured lib A B C Tgd I D live).ref_grey_cam_model_
        = [DTrack._ScaleCM lib B 0, DTrack._ScaleCM lib B 1, DTrack._ScaleCM lib B 2,
            DTrack._ScaleCM lib B 3]
    ∧ (configured lib A B C Tgd I D live).ref_depth_cam_model_
        = [DTrack._ScaleCM lib C 0, DTrack._ScaleCM lib C 1, DTrack._ScaleCM lib C 2,
            DTrack._ScaleCM lib C 3] :=
  ⟨rfl, rfl, rfl⟩

theorem scaled_list_get (lib : Lib) (K : Mat3) (lvl : ℕ) (hl : lvl < 4) :
    [DTrack._ScaleCM lib K 0, DTrack._ScaleCM lib K 1, DTrack._ScaleCM lib K 2,
        DTrack._ScaleCM lib K 3][lvl]? = some (DTrack._ScaleCM lib K lvl) := by
  interval_cases lvl <;> rfl

theorem exactLib_ScaleCM_zero (K : Mat3) : DTrack._ScaleCM exactLib K 0 = K := by
  have h1 : (1 : ℚ) / 2 ^ 0 = 1 := by norm_num
  unfold DTrack._ScaleCM
  simp only [h1, exactLib_scaled_one]

/-- C14, the code on every configuration: after `DTrack(4)`,
`SetParams(A, B, C, Tgd)` and `SetKeyframe`, the tracker stores at every level
`lvl < 4` the scaled intrinsics of the live grey camera `A`, of the reference grey
camera `B` and of the reference depth camera `C`; but the pass of the outer loop
of `Estimate` for the level runs its inner loop with the scaled intrinsics of
`B` as `live_grey_cmod` (lines 441-442), so that the reducer gets
`Klg = K_B(lvl)` and `KlgTlr = K_B(lvl) * Tlr`, whatever `A` is; `Krg` and `Krd`
are those of `B` and `C`. -/
theorem C14_live_intrinsics_read_from_reference (lib : Lib) (A B C : Mat3) (Tgd : SE3)
    (I : Image ℚ) (D : Image (Option ℚ)) (live : Image ℚ) (use_pyramid : Bool) (lvl : ℕ)
    (s : EstState) (hl : lvl < 4) :
    (configured lib A B C Tgd I D live).live_grey_cam_model_[lvl]?
        = some (DTrack._ScaleCM lib A lvl)
    ∧ (configured lib A B C Tgd I D live).ref_grey_cam_model_[lvl]?
        = some (DTrack._ScaleCM lib B lvl)
    ∧ (configured lib A B C Tgd I D live).ref_depth_cam_model_[lvl]?
        = some (DTrack._ScaleCM lib C lvl)
    ∧ (configured lib A B C Tgd I D live).level lib use_pyramid lvl s
        = some ((configured lib A B C Tgd I D live).iterate lib lvl (DTrack._ScaleCM lib B lvl)
            (DTrack._ScaleCM lib B lvl) (DTrack._ScaleCM lib C lvl) (decide (lvl ≠ 3))
            (if use_pyramid = false then (if lvl = 0 then 3 else 0) else lvl + 1) 0
            { s with last_error := FLT_MAX })
    ∧ ∀ Trl : SE3,
        ((configured lib A B C Tgd I D live).poseRefine lvl (DTrack._ScaleCM lib B lvl)
            (DTrack._ScaleCM lib B lvl) (DTrack._ScaleCM lib C lvl) Trl).Klg_
          = DTrack._ScaleCM lib B lvl
        ∧ ((configured lib A B C Tgd I D live).poseRefine lvl (DTrack._ScaleCM lib B lvl)
            (DTrack._ScaleCM lib B lvl) (DTrack._ScaleCM lib C lvl) Trl).KlgTlr_
          = DTrack._ScaleCM lib B lvl * Trl.inverse.matrix3x4
        ∧ ((configured lib A B C Tgd I D live).poseRefine lvl (DTrack._ScaleCM lib B lvl)
            (DTrack._ScaleCM lib B lvl) (DTrack._ScaleCM lib C lvl) Trl).Krg_
          = DTrack._ScaleCM lib B lvl
        ∧ ((configured lib A B C Tgd I D live).poseRefine lvl (DTrack._ScaleCM lib B lvl)
            (DTrack._ScaleCM lib B lvl) (DTrack._ScaleCM lib C lvl) Trl).Krd_
          = DTrack._ScaleCM lib C lvl := by
  obtain ⟨hA, hB, hC⟩ := configured_cam_models lib A B C Tgd I D live
  have gA := scaled_list_get lib A lvl hl
  have gB := scaled_list_get lib B lvl hl
  have gC := scaled_list_get lib C lvl hl
  rw [← hA] at gA
  rw [← hB] at gB
  rw [← hC] at gC
  obtain ⟨Kg, Kd, hKg, hKd, hlevel⟩ := DTrack.level_eq lib (configured lib A B C Tgd I D live)
    use_pyramid lvl s hl (by rw [hB]; exact Nat.le_refl 4) (by rw [hC]; exact Nat.le_refl 4)
  rw [gB] at hKg
  rw [gC] at hKd
  cases hKg
  cases hKd
  exact ⟨gA, gB, gC, hlevel, fun _ => ⟨rfl, rfl, rfl, rfl⟩⟩

/-- C14, witness and failing input: live camera `demoK` (focal lengths 1),
reference grey camera `demoK2` (focal lengths 2).  At level 0 the tracker stores
`demoK` for the live camera, and `Estimate` runs the level with `demoK2` in its
place. -/
theorem C14_live_intrinsics_read_from_reference_witness :
    0 < 4
    ∧ (configured exactLib demoK demoK2 demoK SE3.identity demoRef demoDepth
        demoLive).live_grey_cam_model_[0]? = some demoK
    ∧ (configured exactLib demoK demoK2 demoK SE3.identity demoRef demoDepth demoLive).level
        exactLib true 0 (initState SE3.identity 0)
      = some ((configured exactLib demoK demoK2 demoK SE3.identity demoRef demoDepth
          demoLive).iterate exactLib 0 (DTrack._ScaleCM exactLib demoK2 0)
            (DTrack._ScaleCM exactLib demoK2 0) (DTrack._ScaleCM exactLib demoK 0)
            (decide (0 ≠ 3)) (if true = false then (if 0 = 0 then 3 else 0) else 0 + 1) 0
            { initState SE3.identity 0 with last_error := FLT_MAX })
    ∧ DTrack._ScaleCM exactLib demoK2 0 = demoK2
    ∧ demoK2 ≠ demoK :=
  ⟨by decide,
    by rw [(C14_live_intrinsics_read_from_reference exactLib demoK demoK2 demoK SE3.identity
      demoRef demoDepth demoLive true 0 (initState SE3.identity 0) (by decide)).1,
      exactLib_ScaleCM_zero],
    (C14_live_intrinsics_read_from_reference exactLib demoK demoK2 demoK SE3.identity demoRef
      demoDepth demoLive true 0 (initState SE3.identity 0) (by decide)).2.2.2.1,
    exactLib_ScaleCM_zero demoK2, by decide!⟩

/-- C15: with `use_pyramid = true` on a tracker with four levels, the entry of
`vec_max_iterations` that `Estimate` reads at the level `lvl` is `lvl + 1`; the
pass of the outer loop for the level runs the inner loop with that budget, and
makes at most `lvl + 1` passes of it, all of them at that level; from the
coarsest level (3) to the finest (0) the caps are 4, 3, 2, 1; and of two levels
the coarser one never has the smaller cap. -/
theorem C15_iteration_caps (lib : Lib) (d : DTrack) (lvl : ℕ) (s : EstState) (hl : lvl < 4)
    (hready : d.Ready) :
    (vec_max_iterations true)[lvl]? = some (lvl + 1)
    ∧ (∃ Kg Kd, d.level lib true lvl s
        = some (d.iterate lib lvl Kg Kg Kd (decide (lvl ≠ 3)) (lvl + 1) 0
            { s with last_error := FLT_MAX }))
    ∧ (∃ s1 l, d.level lib true lvl s = some s1 ∧ s1.log = s.log ++ l ∧ l.length ≤ lvl + 1
        ∧ ∀ it ∈ l, it.pyramid_lvl = lvl)
    ∧ (levelsDown 4).map (fun l => (vec_max_iterations true)[l]?)
        = [some 4, some 3, some 2, some 1]
    ∧ ∀ fine coarse n_fine n_coarse : ℕ, fine ≤ coarse →
        (vec_max_iterations true)[fine]? = some n_fine →
        (vec_max_iterations true)[coarse]? = some n_coarse → n_fine ≤ n_coarse := by
  obtain ⟨Kg, Kd, _, _, hlevel⟩ := DTrack.level_eq lib d true lvl s hl hready.2.1 hready.2.2
  have hlevel2 : d.level lib true lvl s
      = some (d.iterate lib lvl Kg Kg Kd (decide (lvl ≠ 3)) (lvl + 1) 0
          { s with last_error := FLT_MAX }) := hlevel
  obtain ⟨l, hlog, hlen, hall⟩ := DTrack.iterate_log lib d lvl Kg Kg Kd (decide (lvl ≠ 3))
    (lvl + 1) 0 { s with last_error := FLT_MAX }
  refine ⟨vec_max_iterations_get true lvl hl, ⟨Kg, Kd, hlevel2⟩, ⟨_, l, hlevel2, hlog, hlen, hall⟩,
    by decide, ?_⟩
  intro fine coarse n_fine n_coarse hle hf hc
  have hcl : coarse < 4 := by
    by_contra hcon
    have : (vec_max_iterations true).length ≤ coarse := by
      show 4 ≤ coarse
      omega
    rw [List.getElem?_eq_none this] at hc
    cases hc
  have hfl : fine < 4 := by omega
  rw [vec_max_iterations_get true fine hfl] at hf
  rw [vec_max_iterations_get true coarse hcl] at hc
  simp only [Bool.true_eq_false, if_false, Option.some.injEq] at hf hc
  omega

/-- C15, witness: the tracker of the worked example at its coarsest level. -/
theorem C15_iteration_caps_witness :
    3 < 4 ∧ (demoApiTracker exactLib).Ready
    ∧ (vec_max_iterations true)[3]? = some (3 + 1)
    ∧ ∃ s1 l, (demoApiTracker exactLib).level exactLib true 3 (initState SE3.identity 0) = some s1
        ∧ s1.log = (initState SE3.identity 0).log ++ l ∧ l.length ≤ 3 + 1
        ∧ ∀ it ∈ l, it.pyramid_lvl = 3 :=
  ⟨by decide, demoApiTracker_ready exactLib,
    (C15_iteration_caps exactLib (demoApiTracker exactLib) 3 (initState SE3.identity 0)
      (by decide) (demoApiTracker_ready exactLib)).1,
    (C15_iteration_caps exactLib (demoApiTracker exactLib) 3 (initState SE3.identity 0)
      (by decide) (demoApiTracker_ready exactLib)).2.2.1⟩

theorem acceptedRms_rejected (r : IterRecord) (h : r.accepted = false) :
    acceptedRms [r] = [] := by
  simp [acceptedRms, h]

theorem acceptedRms_accepted (r : IterRecord) (l : List IterRecord) (e : ℚ)
    (h : r.accepted = true) (he : r.out.new_error = some e) :
    acceptedRms (r :: l) = e :: acceptedRms l := by
  simp [acceptedRms, h, he]

/-- The passes that the inner loop appends to the record: each is the pass of
some state; the RMS values of the accepted ones decrease strictly from the
`last_error` of the entry state, which the first pass reads; each pass but the
last is accepted and hands its RMS to the next one as `last_error`; and the
`last_error` on exit is the last accepted RMS. -/
theorem DTrack.iterate_trace (lib : Lib) (d : DTrack) (lvl : ℕ) (Kl Kg Kd : Mat3)
    (full : Bool) :
    ∀ n k s, ∃ l : List IterRecord,
      (d.iterate lib lvl Kl Kg Kd full n k s).log = s.log ++ l
        ∧ (∀ it ∈ l, ∃ k1 s1, it = d.pass lib lvl Kl Kg Kd full k1 s1)
        ∧ List.Chain (fun a b => b < a) s.last_error (acceptedRms l)
        ∧ (d.iterate lib lvl Kl Kg Kd full n k s).last_error
            = ((acceptedRms l).getLast?).getD s.last_error
        ∧ (∀ it, l.head? = some it → it.last_error_in = s.last_error)
        ∧ List.Chain' (fun a b => a.accepted = true ∧ a.out.new_error = some b.last_error_in)
            l := by
  intro n
  induction n with
  | zero =>
    intro k s
    exact ⟨[], by simp [DTrack.iterate], by simp, by simp [acceptedRms],
      by simp [DTrack.iterate, acceptedRms], by simp, by simp⟩
  | succ n ih =>
    intro k s
    have hone : ∀ it ∈ [d.pass lib lvl Kl Kg Kd full k s],
        ∃ k1 s1, it = d.pass lib lvl Kl Kg Kd full k1 s1 := by
      intro it hit
      rw [List.mem_singleton] at hit
      exact ⟨k, s, hit⟩
    have hhead : ∀ (l : List IterRecord) (it : IterRecord),
        (d.pass lib lvl Kl Kg Kd full k s :: l).head? = some it →
          it.last_error_in = s.last_error := by
      intro l it hit
      simp only [List.head?_cons, Option.some.injEq] at hit
      rw [← hit]
      rfl
    cases h : (d.pass lib lvl Kl Kg Kd full k s).accepted with
    | false =>
      rw [d.iterate_reject lib lvl Kl Kg Kd full n k s h]
      refine ⟨[_], rfl, hone, ?_, ?_, hhead [], by simp⟩
      · rw [acceptedRms_rejected _ h]
        exact List.Chain.nil
      · rw [acceptedRms_rejected _ h]
        rfl
    | true =>
      obtain ⟨e, he, hlt⟩ := accepts_some
        (show accepts (d.pass lib lvl Kl Kg Kd full k s).out.new_error s.last_error = true
          from h)
      have hlast : (afterAccept lib s (d.pass lib lvl Kl Kg Kd full k s)).last_error = e := by
        show ((d.pass lib lvl Kl Kg Kd full k s).out.new_error).getD s.last_error = e
        rw [he]
        rfl
      by_cases hsm : norm lib (d.pass lib lvl Kl Kg Kd full k s).out.X < 1 / 100000
      · rw [d.iterate_accept_small lib lvl Kl Kg Kd full n k s h hsm]
        refine ⟨[_], rfl, hone, ?_, ?_, hhead [], by simp⟩
        · rw [acceptedRms_accepted _ [] e h he]
          exact List.Chain.cons hlt List.Chain.nil
        · rw [acceptedRms_accepted _ [] e h he, hlast]
          rfl
      · rw [d.iterate_accept_continue lib lvl Kl Kg Kd full n k s h hsm]
        obtain ⟨l, hl, hpass, hchain, hfin, hhd, hlink⟩ :=
          ih (k + 1) (afterAccept lib s (d.pass lib lvl Kl Kg Kd full k s))
        rw [hlast] at hchain hfin hhd
        refine ⟨d.pass lib lvl Kl Kg Kd full k s :: l, ?_, ?_, ?_, ?_, hhead l, ?_⟩
        · rw [hl]
          show (s.log ++ [_]) ++ l = _
          simp
        · intro it hit
          rcases List.mem_cons.mp hit with h1 | h1
          · exact ⟨k, s, h1⟩
          · exact hpass it h1
        · rw [acceptedRms_accepted _ l e h he]
          exact List.Chain.cons hlt hchain
        · rw [acceptedRms_accepted _ l e h he, hfin]
          cases hr : acceptedRms l with
          | nil => rfl
          | cons a t =>
            rw [List.getLast?_cons_cons, List.getLast?_eq_getLast _ (List.cons_ne_nil a t)]
            rfl
        · cases l with
          | nil => simp
          | cons b t =>
            rw [List.chain'_cons]
            refine ⟨⟨h, ?_⟩, hlink⟩
            rw [he, hhd b rfl]

/-- A pass with the mask entry `false` solves the rotation block only (lines
500-518). -/
theorem DTrack.pass_rotation_only (lib : Lib) (d : DTrack) (lvl : ℕ) (Kl Kg Kd : Mat3) (k : ℕ)
    (s : EstState) :
    (d.pass lib lvl Kl Kg Kd false k s).out.X 0 = 0
    ∧ (d.pass lib lvl Kl Kg Kd false k s).out.X 1 = 0
    ∧ (d.pass lib lvl Kl Kg Kd false k s).out.X 2 = 0
    ∧ ∀ i : Fin 3, (d.pass lib lvl Kl Kg Kd false k s).out.X (Fin.natAdd 3 i)
        = -(lib.solve3
            (Matrix.of fun a b =>
              (d.pass lib lvl Kl Kg Kd false k s).out.pose_ref.LHS (Fin.natAdd 3 a)
                (Fin.natAdd 3 b))
            (fun a => (d.pass lib lvl Kl Kg Kd false k s).out.pose_ref.RHS (Fin.natAdd 3 a))) i := by
  refine ⟨rfl, rfl, rfl, ?_⟩
  intro i
  fin_cases i <;> rfl

/-- A transform without translation keeps none when it is updated by an
increment without translation (line 530). -/
theorem afterAccept_translation (lib : Lib) (s : EstState) (r : IterRecord)
    (hs : s.Trl.t = 0) (hX : (lib.exp r.out.X).t = 0) : (afterAccept lib s r).Trl.t = 0 := by
  show -(((s.Trl.inverse).mul (lib.exp r.out.X)).Rᵀ.mulVec
      ((s.Trl.inverse).mul (lib.exp r.out.X)).t) = 0
  have h1 : ((s.Trl.inverse).mul (lib.exp r.out.X)).t = 0 := by
    show (s.Trl.inverse).R.mulVec (lib.exp r.out.X).t + -(s.Trl.Rᵀ.mulVec s.Trl.t) = 0
    rw [hX, hs, Matrix.mulVec_zero, Matrix.mulVec_zero, neg_zero, add_zero]
  rw [h1, Matrix.mulVec_zero, neg_zero]

/-- C17: within the pass of the outer loop of `Estimate` for one level, which
returns, the RMS values of the accepted passes of the inner loop decrease
strictly, starting below `FLT_MAX`: a pass is accepted exactly when it has an RMS
strictly smaller than `last_error`, which is `FLT_MAX` for the first pass of the
level and the RMS of the accepted pass before it for every later one; the
level ends with `last_error` at the last accepted RMS. -/
theorem C17_accepted_rms_decreasing (lib : Lib) (d : DTrack) (use_pyramid : Bool) (lvl : ℕ)
    (s : EstState) (hl : lvl < 4) (hready : d.Ready) :
    ∃ s1 l, d.level lib use_pyramid lvl s = some s1 ∧ s1.log = s.log ++ l
      ∧ List.Chain (fun a b => b < a) FLT_MAX (acceptedRms l)
      ∧ (∀ it ∈ l, it.accepted = true ↔ ∃ e, it.out.new_error = some e ∧ e < it.last_error_in)
      ∧ (∀ it, l.head? = some it → it.last_error_in = FLT_MAX)
      ∧ List.Chain' (fun a b => a.accepted = true ∧ a.out.new_error = some b.last_error_in) l
      ∧ s1.last_error = ((acceptedRms l).getLast?).getD FLT_MAX := by
  obtain ⟨Kg, Kd, _, _, hlevel⟩ := DTrack.level_eq lib d use_pyramid lvl s hl hready.2.1 hready.2.2
  obtain ⟨l, hlog, hpass, hchain, hfin, hhd, hlink⟩ := DTrack.iterate_trace lib d lvl Kg Kg Kd
    (decide (lvl ≠ 3)) (if use_pyramid = false then (if lvl = 0 then 3 else 0) else lvl + 1) 0
    { s with last_error := FLT_MAX }
  refine ⟨_, l, hlevel, hlog, hchain, ?_, hhd, hlink, hfin⟩
  intro it hit
  obtain ⟨k1, s1, rfl⟩ := hpass it hit
  constructor
  · intro h
    exact accepts_some h
  · rintro ⟨e, he, hlt⟩
    show accepts (d.pass lib lvl Kg Kg Kd (decide (lvl ≠ 3)) k1 s1).out.new_error s1.last_error
      = true
    rw [he]
    exact decide_eq_true hlt

/-- With a margin of 3 on every side the four samples of the central
differences of lines 215-258 lie inside the clamping range of `interp`, and the
differences are those of the bilinear interpolation at unit offsets. -/
theorem imageDerivative_eq_bilinear (x y : ℚ) (img : Image ℚ) (hx3 : 3 ≤ x)
    (hxW : x ≤ (img.cols : ℚ) - 3) (hy3 : 3 ≤ y) (hyH : y ≤ (img.rows : ℚ) - 3) :
    imageDerivative x y img
      = ![(bilinear (x + 1) y (fun r c => img.data (img.cols * r + c))
            - bilinear (x - 1) y (fun r c => img.data (img.cols * r + c))) / 2,
          (bilinear x (y + 1) (fun r c => img.data (img.cols * r + c))
            - bilinear x (y - 1) (fun r c => img.data (img.cols * r + c))) / 2] := by
  unfold imageDerivative
  simp only []
  rw [interp_eq_bilinear (x + 1) y img.data img.cols img.rows (by linarith) (by linarith)
      (by linarith) (by linarith),
    interp_eq_bilinear (x - 1) y img.data img.cols img.rows (by linarith) (by linarith)
      (by linarith) (by linarith),
    interp_eq_bilinear x (y - 1) img.data img.cols img.rows (by linarith) (by linarith)
      (by linarith) (by linarith),
    interp_eq_bilinear x (y + 1) img.data img.cols img.rows (by linarith) (by linarith)
      (by linarith) (by linarith)]

/-- C18, the code at a failing input: in the reducer `edgePose` the cell 26
contributes, with `p_rg = p_lg = (2, 3)`.  The sample of the central difference
at `x - 1 = 1` is clamped by `interp` to `x = 2`, so it returns the cell `(2, 3)`
where the bilinear interpolation at `(1, 3)` is the cell `(1, 3)`; the
x-component of the averaged gradient that the code uses is `1/600`, and the
average of the central differences of the bilinear interpolations at unit
offsets is `1/375`. -/
theorem C18_gradient_sample_clamped :
    edgePose.pixel 26
        = some (![1 / 600, 1 / 1500, 1 / 600, -1 / 1500, 1 / 300, -1 / 1500], 1 / 50)
    ∧ edgePose.pr_g 26 1 = (2, 3) ∧ edgePose.pl_g 26 1 = (2, 3)
    ∧ clampCoord (2 - 1) 8 = 2
    ∧ interp (2 - 1) 3 edgePose.ref_grey_.data 8 8 = edgePose.ref_grey_.data (8 * 3 + 2)
    ∧ bilinear (2 - 1) 3 (fun r c => edgePose.ref_grey_.data (8 * r + c))
        = edgePose.ref_grey_.data (8 * 3 + 1)
    ∧ edgePose.dIesm 26 1 0 = 1 / 600
    ∧ ((bilinear (2 + 1) 3 (fun r c => edgePose.live_grey_.data (8 * r + c))
          - bilinear (2 - 1) 3 (fun r c => edgePose.live_grey_.data (8 * r + c))) / 2
        + (bilinear (2 + 1) 3 (fun r c => edgePose.ref_grey_.data (8 * r + c))
          - bilinear (2 - 1) 3 (fun r c => edgePose.ref_grey_.data (8 * r + c))) / 2) / 2
        = 1 / 375 := by
  decide!

/-- The product `a * M * P` of a row, a 4 x 4 matrix and a column, written
out. -/
theorem dot_mulVec4 (a P : Vec4) (M : Mat4) :
    a ⬝ᵥ M.mulVec P
      = a 0 * (M 0 0 * P 0 + M 0 1 * P 1 + M 0 2 * P 2 + M 0 3 * P 3)
        + a 1 * (M 1 0 * P 0 + M 1 1 * P 1 + M 1 2 * P 2 + M 1 3 * P 3)
        + a 2 * (M 2 0 * P 0 + M 2 1 * P 1 + M 2 2 * P 2 + M 2 3 * P 3)
        + a 3 * (M 3 0 * P 0 + M 3 1 * P 1 + M 3 2 * P 2 + M 3 3 * P 3) := by
  simp only [Matrix.mulVec, Matrix.dotProduct, Fin.sum_univ_four]

/-- For every row `a = (a0, a1, a2, a3)` and every point `P = (Px, Py, Pz, 1)`,
the expressions of lines 269-276 are the products `a * G_i * P` with the six
standard generators `G_i` of SE(3), translations first and rotations last. -/
theorem jacobian_generators (a P : Vec4) (hP : P 3 = 1) :
    (∀ i : Fin 6, jacobian a P i = a ⬝ᵥ (generator i).mulVec P)
    ∧ (jacobian a P 0 = a 0 ∧ jacobian a P 1 = a 1 ∧ jacobian a P 2 = a 2)
    ∧ ![jacobian a P 3, jacobian a P 4, jacobian a P 5]
        = crossProduct ![P 0, P 1, P 2] ![a 0, a 1, a 2]
    ∧ ∀ ω : Vec3, ![jacobian a P 3, jacobian a P 4, jacobian a P 5] ⬝ᵥ ω
        = ![a 0, a 1, a 2] ⬝ᵥ crossProduct ω ![P 0, P 1, P 2] := by
  have h3 : jacobian a P 3 = -a 1 * P 2 + a 2 * P 1 := rfl
  have h4 : jacobian a P 4 = a 0 * P 2 - a 2 * P 0 := rfl
  have h5 : jacobian a P 5 = -a 0 * P 1 + a 1 * P 0 := rfl
  refine ⟨?_, ⟨rfl, rfl, rfl⟩, ?_, ?_⟩
  · intro i
    rw [dot_mulVec4]
    fin_cases i
    · show a 0
          = a 0 * (0 * P 0 + 0 * P 1 + 0 * P 2 + 1 * P 3)
            + a 1 * (0 * P 0 + 0 * P 1 + 0 * P 2 + 0 * P 3)
            + a 2 * (0 * P 0 + 0 * P 1 + 0 * P 2 + 0 * P 3)
            + a 3 * (0 * P 0 + 0 * P 1 + 0 * P 2 + 0 * P 3)
      rw [hP]
      ring
    · show a 1
          = a 0 * (0 * P 0 + 0 * P 1 + 0 * P 2 + 0 * P 3)
            + a 1 * (0 * P 0 + 0 * P 1 + 0 * P 2 + 1 * P 3)
            + a 2 * (0 * P 0 + 0 * P 1 + 0 * P 2 + 0 * P 3)
            + a 3 * (0 * P 0 + 0 * P 1 + 0 * P 2 + 0 * P 3)
      rw [hP]
      ring
    · show a 2
          = a 0 * (0 * P 0 + 0 * P 1 + 0 * P 2 + 0 * P 3)
            + a 1 * (0 * P 0 + 0 * P 1 + 0 * P 2 + 0 * P 3)
            + a 2 * (0 * P 0 + 0 * P 1 + 0 * P 2 + 1 * P 3)
            + a 3 * (0 * P 0 + 0 * P 1 + 0 * P 2 + 0 * P 3)
      rw [hP]
      ring
    · show -a 1 * P 2 + a 2 * P 1
          = a 0 * (0 * P 0 + 0 * P 1 + 0 * P 2 + 0 * P 3)
            + a 1 * (0 * P 0 + 0 * P 1 + -1 * P 2 + 0 * P 3)
            + a 2 * (0 * P 0 + 1 * P 1 + 0 * P 2 + 0 * P 3)
            + a 3 * (0 * P 0 + 0 * P 1 + 0 * P 2 + 0 * P 3)
      rw [hP]
      ring
    · show a 0 * P 2 - a 2 * P 0
          = a 0 * (0 * P 0 + 0 * P 1 + 1 * P 2 + 0 * P 3)
            + a 1 * (0 * P 0 + 0 * P 1 + 0 * P 2 + 0 * P 3)
            + a 2 * (-1 * P 0 + 0 * P 1 + 0 * P 2 + 0 * P 3)
            + a 3 * (0 * P 0 + 0 * P 1 + 0 * P 2 + 0 * P 3)
      rw [hP]
      ring
    · show -a 0 * P 1 + a 1 * P 0
          = a 0 * (0 * P 0 + -1 * P 1 + 0 * P 2 + 0 * P 3)
            + a 1 * (1 * P 0 + 0 * P 1 + 0 * P 2 + 0 * P 3)
            + a 2 * (0 * P 0 + 0 * P 1 + 0 * P 2 + 0 * P 3)
            + a 3 * (0 * P 0 + 0 * P 1 + 0 * P 2 + 0 * P 3)
      rw [hP]
      ring
  · rw [cross_apply, h3, h4, h5]
    ext i
    fin_cases i <;> simp <;> ring
  · intro ω
    rw [cross_apply, h3, h4, h5]
    simp [Matrix.dotProduct, Fin.sum_univ_three]
    ring

/-- On a buffer of `W * H` cells of one intensity, `W, H ≥ 4`, the sampler
returns that intensity at every coordinate. -/
theorem interp_const (x y : ℚ) (img : ℕ → ℚ) (W H : ℕ) (c : ℚ) (hW : 4 ≤ W) (hH : 4 ≤ H)
    (hc : ∀ i < W * H, img i = c) : interp x y img W H = c := by
  obtain ⟨hx2, hxn⟩ := interpCorner_bounds x W hW
  obtain ⟨hy2, hyn⟩ := interpCorner_bounds y H hH
  have hpx : (interpCorner x W).toNat + 2 ≤ W := by omega
  have hpy : (interpCorner y H).toNat + 2 ≤ H := by omega
  obtain ⟨h1, h2, h3, h4⟩ := interp_indices_lt _ _ W H hpx hpy
  rw [interp_unfold, hc _ h1, hc _ h2, hc _ h3, hc _ h4]
  ring

/-- On an image of one intensity the central differences of lines 215-258 are
zero. -/
theorem imageDerivative_const (x y : ℚ) (img : Image ℚ) (c : ℚ) (hW : 4 ≤ img.cols)
    (hH : 4 ≤ img.rows) (hc : ∀ i < img.cols * img.rows, img.data i = c) :
    imageDerivative x y img = 0 := by
  unfold imageDerivative
  simp only []
  rw [interp_const _ _ _ _ _ c hW hH hc, interp_const _ _ _ _ _ c hW hH hc,
    interp_const _ _ _ _ _ c hW hH hc, interp_const _ _ _ _ _ c hW hH hc]
  ext i
  fin_cases i <;> simp

/-- A point that passes the test of lines 175-176 lies in an image of at least
6 x 6 cells. -/
theorem outOfBounds_false_size (x y : ℚ) (img : Image ℚ) (h : outOfBounds x y img = false) :
    6 ≤ img.cols ∧ 6 ≤ img.rows := by
  unfold outOfBounds at h
  simp only [Bool.or_eq_false_iff, decide_eq_false_iff_not, not_lt, ge_iff_le, not_le] at h
  obtain ⟨⟨⟨hx2, hxc⟩, hy2⟩, hyr⟩ := h
  have h1 : ((2 : ℤ) : ℚ) < (((img.cols : ℤ) - 3 : ℤ) : ℚ) := by
    push_cast
    push_cast at hxc
    linarith
  have h2 : ((2 : ℤ) : ℚ) < (((img.rows : ℤ) - 3 : ℤ) : ℚ) := by
    push_cast
    push_cast at hyr
    linarith
  have h3 : (2 : ℤ) < (img.cols : ℤ) - 3 := by exact_mod_cast h1
  have h4 : (2 : ℤ) < (img.rows : ℤ) - 3 := by exact_mod_cast h2
  omega

theorem jacobian_zero (P : Vec4) : jacobian 0 P = 0 := by
  ext i
  fin_cases i
  · rfl
  · rfl
  · rfl
  · show -(0 : ℚ) * P 2 + 0 * P 1 = 0
    ring
  · show (0 : ℚ) * P 2 - 0 * P 0 = 0
    ring
  · show -(0 : ℚ) * P 1 + 0 * P 0 = 0
    ring

/-- On images of one intensity each, a contributing pixel samples zero
gradients and has a zero Jacobian. -/
theorem PoseRefine.pixel_const (p : PoseRefine) (cl cr : ℚ)
    (hl : ∀ i < p.live_grey_.cols * p.live_grey_.rows, p.live_grey_.data i = cl)
    (hr : ∀ i < p.ref_grey_.cols * p.ref_grey_.rows, p.ref_grey_.data i = cr)
    (ii : ℕ) (J : Vec6) (y : ℚ) (h : p.pixel ii = some (J, y)) :
    (∃ depth,
        p.ref_depth_.atFloat (ii / p.ref_depth_.cols) (ii % p.ref_depth_.cols) = some depth
        ∧ imageDerivative (p.pl_g ii depth).1 (p.pl_g ii depth).2 p.live_grey_ = 0
        ∧ imageDerivative (p.pr_g ii depth).1 (p.pr_g ii depth).2 p.ref_grey_ = 0)
    ∧ J = 0 ∧ y = cl - cr := by
  obtain ⟨depth, hd, hbr, hbl, hJ, hy⟩ := p.pixel_some ii J y h
  obtain ⟨hrc, hrr⟩ := outOfBounds_false_size _ _ _ hbr
  obtain ⟨hlc, hlr⟩ := outOfBounds_false_size _ _ _ hbl
  have hdl := imageDerivative_const (p.pl_g ii depth).1 (p.pl_g ii depth).2 p.live_grey_ cl
    (by omega) (by omega) hl
  have hdr := imageDerivative_const (p.pr_g ii depth).1 (p.pr_g ii depth).2 p.ref_grey_ cr
    (by omega) (by omega) hr
  refine ⟨⟨depth, hd, hdl, hdr⟩, ?_, ?_⟩
  · have hg : p.dIesm ii depth = 0 := by
      unfold PoseRefine.dIesm
      simp only []
      rw [hdl, hdr]
      ext i
      simp
    have ha : p.dIesm_dPl_KlgTlr ii depth = 0 := by
      unfold PoseRefine.dIesm_dPl_KlgTlr
      simp only []
      rw [hg, Matrix.zero_vecMul, Matrix.zero_vecMul]
    rw [hJ, ha, jacobian_zero]
  · rw [hy]
    unfold PoseRefine.residual
    rw [interp_const _ _ _ _ _ cl (by omega) (by omega) hl,
      interp_const _ _ _ _ _ cr (by omega) (by omega) hr]

/-- When every contributing pixel has a zero Jacobian, the loop of `operator()`
leaves `LHS`, `RHS` and `hessian` at zero. -/
theorem PoseRefine.foldl_jacobian_zero (p : PoseRefine)
    (hJ : ∀ ii J y, p.pixel ii = some (J, y) → J = 0) (l : List ℕ) (acc : Accum)
    (h : acc.LHS = 0 ∧ acc.RHS = 0 ∧ acc.hessian = 0) :
    (l.foldl p.step acc).LHS = 0 ∧ (l.foldl p.step acc).RHS = 0
      ∧ (l.foldl p.step acc).hessian = 0 := by
  induction l generalizing acc with
  | nil => exact h
  | cons ii l ih =>
    rw [List.foldl_cons]
    apply ih
    unfold PoseRefine.step
    cases hp : p.pixel ii with
    | none => exact h
    | some q =>
      obtain ⟨J, y⟩ := q
      have hz : J = 0 := hJ ii J y hp
      subst hz
      obtain ⟨h1, h2, h3⟩ := h
      refine ⟨?_, ?_, ?_⟩
      · show acc.LHS + Matrix.of (fun i j => (0 : Vec6) i * (0 : Vec6) j * _NormTukey y p.norm_param_)
          = 0
        rw [h1]
        ext i j
        simp
      · show acc.RHS + (fun i => (0 : Vec6) i * y * _NormTukey y p.norm_param_) = 0
        rw [h2]
        ext i
        simp
      · show acc.hessian + Matrix.of (fun i j => (0 : Vec6) i * (0 : Vec6) j) = 0
        rw [h3]
        ext i j
        simp

/-- C20: for a live image of one intensity and a reference image of one
intensity, and every depth map (and intrinsics, transforms and options), every
contributing pixel samples zero gradients in both images and has `J = 0`, and
the reducer returns `LHS = 0`, `RHS = 0` and `hessian = 0`. -/
theorem C20_constant_images (p : PoseRefine) (cl cr : ℚ) (n : ℕ)
    (hl : ∀ i < p.live_grey_.cols * p.live_grey_.rows, p.live_grey_.data i = cl)
    (hr : ∀ i < p.ref_grey_.cols * p.ref_grey_.rows, p.ref_grey_.data i = cr) :
    (∀ ii J y, p.pixel ii = some (J, y) →
      (∃ depth,
        p.ref_depth_.atFloat (ii / p.ref_depth_.cols) (ii % p.ref_depth_.cols) = some depth
        ∧ imageDerivative (p.pl_g ii depth).1 (p.pl_g ii depth).2 p.live_grey_ = 0
        ∧ imageDerivative (p.pr_g ii depth).1 (p.pr_g ii depth).2 p.ref_grey_ = 0)
      ∧ J = 0)
    ∧ (parallel_reduce n p).LHS = 0 ∧ (parallel_reduce n p).RHS = 0
    ∧ (parallel_reduce n p).hessian = 0 := by
  have hpix := p.pixel_const cl cr hl hr
  refine ⟨fun ii J y h => ⟨(hpix ii J y h).1, (hpix ii J y h).2.1⟩, ?_⟩
  unfold parallel_reduce PoseRefine.run
  exact p.foldl_jacobian_zero (fun ii J y h => (hpix ii J y h).2.1) _ Accum.zero ⟨rfl, rfl, rfl⟩

/-- C20, witness: the reducer `constPose` (live intensity `1/2`, reference
intensity `1/4`, 8 x 8), in which the pixel 27 contributes. -/
theorem C20_constant_images_witness :
    (∀ i < constPose.live_grey_.cols * constPose.live_grey_.rows,
      constPose.live_grey_.data i = 1 / 2)
    ∧ (∀ i < constPose.ref_grey_.cols * constPose.ref_grey_.rows,
      constPose.ref_grey_.data i = 1 / 4)
    ∧ constPose.pixel 27 = some (![0, 0, 0, 0, 0, 0], 1 / 4)
    ∧ (parallel_reduce 64 constPose).LHS = 0 ∧ (parallel_reduce 64 constPose).RHS = 0
    ∧ (parallel_reduce 64 constPose).hessian = 0 :=
  ⟨fun _ _ => rfl, fun _ _ => rfl, constPose_pixel,
    (C20_constant_images constPose (1 / 2) (1 / 4) 64 (fun _ _ => rfl) (fun _ _ => rfl)).2⟩

theorem lastAccepted_rejected (r : IterRecord) (h : r.accepted = false) :
    lastAccepted [r] = none := by
  simp [lastAccepted, h]

theorem lastAccepted_cons (r : IterRecord) (l : List IterRecord) (h : r.accepted = true) :
    lastAccepted (r :: l) = some ((lastAccepted l).getD r) := by
  unfold lastAccepted
  rw [List.filter_cons_of_pos (by simpa using h)]
  cases hf : l.filter (fun it => it.accepted) with
  | nil => rfl
  | cons a t =>
    rw [List.getLast?_cons_cons, List.getLast?_eq_getLast _ (List.cons_ne_nil a t)]
    rfl

/-- Where the inner loop leaves `last_error` and `Trl`: untouched when it accepts
no pass, and otherwise at the RMS of the last accepted pass and at the transform
that pass wrote at line 530 from the transform it was entered with, with
`last_error` strictly below its value on entry. -/
theorem DTrack.iterate_last (lib : Lib) (d : DTrack) (lvl : ℕ) (Kl Kg Kd : Mat3)
    (full : Bool) :
    ∀ n k s, ∃ l : List IterRecord,
      (d.iterate lib lvl Kl Kg Kd full n k s).log = s.log ++ l
        ∧ (∀ it ∈ l, it.pyramid_lvl = lvl ∧ ∃ k1 s1, it = d.pass lib lvl Kl Kg Kd full k1 s1)
        ∧ (lastAccepted l = none →
            (d.iterate lib lvl Kl Kg Kd full n k s).last_error = s.last_error
            ∧ (d.iterate lib lvl Kl Kg Kd full n k s).Trl = s.Trl)
        ∧ (∀ it, lastAccepted l = some it →
            it.accepted = true ∧ (∃ k1 s1, it = d.pass lib lvl Kl Kg Kd full k1 s1)
            ∧ it.out.new_error = some (d.iterate lib lvl Kl Kg Kd full n k s).last_error
            ∧ (d.iterate lib lvl Kl Kg Kd full n k s).Trl
                = ((it.Trl_in.inverse).mul (lib.exp it.out.X)).inverse
            ∧ (d.iterate lib lvl Kl Kg Kd full n k s).last_error < s.last_error) := by
  intro n
  induction n with
  | zero =>
    intro k s
    refine ⟨[], by simp [DTrack.iterate], by simp, fun _ => ⟨rfl, rfl⟩, ?_⟩
    intro it hit
    simp [lastAccepted] at hit
  | succ n ih =>
    intro k s
    have hone : ∀ it ∈ [d.pass lib lvl Kl Kg Kd full k s],
        it.pyramid_lvl = lvl ∧ ∃ k1 s1, it = d.pass lib lvl Kl Kg Kd full k1 s1 := by
      intro it hit
      rw [List.mem_singleton] at hit
      subst hit
      exact ⟨rfl, k, s, rfl⟩
    cases h : (d.pass lib lvl Kl Kg Kd full k s).accepted with
    | false =>
      rw [d.iterate_reject lib lvl Kl Kg Kd full n k s h]
      refine ⟨[_], rfl, hone, fun _ => ⟨rfl, rfl⟩, ?_⟩
      intro it hit
      rw [lastAccepted_rejected _ h] at hit
      cases hit
    | true =>
      obtain ⟨e, he, hlt⟩ := accepts_some
        (show accepts (d.pass lib lvl Kl Kg Kd full k s).out.new_error s.last_error = true
          from h)
      have hlast : (afterAccept lib s (d.pass lib lvl Kl Kg Kd full k s)).last_error = e := by
        show ((d.pass lib lvl Kl Kg Kd full k s).out.new_error).getD s.last_error = e
        rw [he]
        rfl
      by_cases hsm : norm lib (d.pass lib lvl Kl Kg Kd full k s).out.X < 1 / 100000
      · rw [d.iterate_accept_small lib lvl Kl Kg Kd full n k s h hsm]
        refine ⟨[_], rfl, hone, ?_, ?_⟩
        · intro hnone
          rw [lastAccepted_cons _ [] h] at hnone
          cases hnone
        · intro it hit
          rw [lastAccepted_cons _ [] h] at hit
          have hit2 : d.pass lib lvl Kl Kg Kd full k s = it := Option.some.inj hit
          subst hit2
          exact ⟨h, ⟨k, s, rfl⟩, by rw [hlast, he], rfl, by rw [hlast]; exact hlt⟩
      · rw [d.iterate_accept_continue lib lvl Kl Kg Kd full n k s h hsm]
        obtain ⟨l, hl, hpass, hnone, hsome⟩ :=
          ih (k + 1) (afterAccept lib s (d.pass lib lvl Kl Kg Kd full k s))
        refine ⟨d.pass lib lvl Kl Kg Kd full k s :: l, ?_, ?_, ?_, ?_⟩
        · rw [hl]
          show (s.log ++ [_]) ++ l = _
          simp
        · intro it hit
          rcases List.mem_cons.mp hit with h1 | h1
          · subst h1
            exact ⟨rfl, k, s, rfl⟩
          · exact hpass it h1
        · intro hn
          rw [lastAccepted_cons _ l h] at hn
          cases hn
        · intro it hit
          rw [lastAccepted_cons _ l h] at hit
          cases hla : lastAccepted l with
          | none =>
            rw [hla] at hit
            have hit2 : d.pass lib lvl Kl Kg Kd full k s = it := Option.some.inj hit
            subst hit2
            obtain ⟨h1, h2⟩ := hnone hla
            exact ⟨h, ⟨k, s, rfl⟩, by rw [h1, hlast, he], by rw [h2]; rfl,
              by rw [h1, hlast]; exact hlt⟩
          | some it1 =>
            rw [hla] at hit
            have hit2 : it1 = it := Option.some.inj hit
            subst hit2
            obtain ⟨q1, q2, q3, q4, q5⟩ := hsome it1 hla
            rw [hlast] at q5
            exact ⟨q1, q2, q3, q4, lt_trans q5 hlt⟩

/-- The passes that the outer loop appends over the levels `lvls` are passes at
those levels. -/
theorem DTrack.levels_log (lib : Lib) (d : DTrack) (use_pyramid : Bool)
    (hg : 4 ≤ d.ref_grey_cam_model_.length) (hd : 4 ≤ d.ref_depth_cam_model_.length) :
    ∀ (lvls : List ℕ) (s s1 : EstState), (∀ lvl ∈ lvls, lvl < 4) →
      d.levels lib use_pyramid lvls s = some s1 →
      ∃ l, s1.log = s.log ++ l ∧ ∀ it ∈ l, it.pyramid_lvl ∈ lvls := by
  intro lvls
  induction lvls with
  | nil =>
    intro s s1 _ h
    simp only [DTrack.levels, Option.some.injEq] at h
    subst h
    exact ⟨[], by simp, by simp⟩
  | cons lvl rest ih =>
    intro s s1 hl h
    have hlvl : lvl < 4 := hl lvl (List.mem_cons_self _ _)
    obtain ⟨Kg, Kd, _, _, heq⟩ := d.level_eq lib use_pyramid lvl s hlvl hg hd
    simp only [DTrack.levels, heq] at h
    obtain ⟨l1, hl1, _, hall1⟩ := d.iterate_log lib lvl Kg Kg Kd (decide (lvl ≠ 3))
      (if use_pyramid = false then (if lvl = 0 then 3 else 0) else lvl + 1) 0
      { s with last_error := FLT_MAX }
    obtain ⟨l2, hl2, hall2⟩ := ih _ s1 (fun l hl1 => hl l (List.mem_cons_of_mem _ hl1)) h
    refine ⟨l1 ++ l2, ?_, ?_⟩
    · rw [hl2, hl1]
      show (s.log ++ l1) ++ l2 = _
      simp
    · intro it hit
      rcases List.mem_append.mp hit with h1 | h1
      · rw [hall1 it h1]
        exact List.mem_cons_self _ _
      · exact List.mem_cons_of_mem _ (hall2 it h1)

theorem lastAcceptedAt_append (lvl : ℕ) (l1 l2 : List IterRecord)
    (h1 : ∀ it ∈ l1, it.pyramid_lvl ≠ lvl) (h2 : ∀ it ∈ l2, it.pyramid_lvl = lvl) :
    lastAcceptedAt lvl (l1 ++ l2) = lastAccepted l2 := by
  unfold lastAcceptedAt
  have e1 : l1.filter (fun it => decide (it.pyramid_lvl = lvl)) = [] := by
    rw [List.filter_eq_nil_iff]
    intro it hit
    simpa using h1 it hit
  have e2 : l2.filter (fun it => decide (it.pyramid_lvl = lvl)) = l2 := by
    rw [List.filter_eq_self]
    intro it hit
    simpa using h2 it hit
  rw [List.filter_append, e1, e2, List.nil_append]

/-- An RMS that is a number is `sqrt(squared_error/number_observations)` for a
positive number of observations. -/
theorem rmse_some (lib : Lib) (squared_error : ℚ) (number_observations : ℕ) (e : ℚ)
    (h : rmse lib squared_error number_observations = some e) :
    number_observations ≠ 0
      ∧ e = lib.sqrt (squared_error / (number_observations : ℚ)) := by
  unfold rmse at h
  split_ifs at h with h0
  exact ⟨h0, (Option.some.inj h).symm⟩

/-- C21: on a tracker with four levels and camera models stored for each,
`Estimate` returns; when no pass at pyramid level 0 is accepted the value it
returns is `FLT_MAX`; otherwise it is `sqrt(error/num_obs)`, below `FLT_MAX`,
for the sum of squares `error` and the count `num_obs > 0` of the last accepted
pass at level 0, which come from the reduction at the transform `Trl_in` that
the pass was entered with, while the `Trl` that `Estimate` hands back is that
transform updated by the pass: `(Trl_in⁻¹ * exp(X))⁻¹`. -/
theorem C21_returned_value (lib : Lib) (d : DTrack) (live_grey : Image ℚ) (Trl : SE3)
    (use_pyramid : Bool) (hessian_init : Mat6) (hready : d.Ready) :
    ∃ r Kg Kd, d.Estimate lib live_grey Trl use_pyramid hessian_init = some r
      ∧ d.ref_grey_cam_model_[0]? = some Kg ∧ d.ref_depth_cam_model_[0]? = some Kd
      ∧ (lastAcceptedAt 0 r.log = none → r.returned = FLT_MAX)
      ∧ ∀ it, lastAcceptedAt 0 r.log = some it →
          it.pyramid_lvl = 0 ∧ it.accepted = true
          ∧ it.out.pose_ref
              = parallel_reduce
                  (((d.withLive lib live_grey).ref_depth_pyramid_ 0).cols
                    * ((d.withLive lib live_grey).ref_depth_pyramid_ 0).rows)
                  ((d.withLive lib live_grey).poseRefine 0 Kg Kg Kd it.Trl_in)
          ∧ it.out.pose_ref.num_obs ≠ 0
          ∧ r.returned = lib.sqrt (it.out.pose_ref.error / (it.out.pose_ref.num_obs : ℚ))
          ∧ r.returned < FLT_MAX
          ∧ it.out.new_error = some r.returned
          ∧ r.Trl = ((it.Trl_in.inverse).mul (lib.exp it.out.X)).inverse := by
  obtain ⟨s3, Kg, Kd, _, hs3, hKg, hKd, hE⟩ := d.Estimate_level0 lib live_grey Trl use_pyramid
    hessian_init hready (fun _ => True) trivial (fun _ _ => trivial)
    (fun _ _ _ _ _ _ _ _ _ _ => trivial) (fun _ _ _ _ _ _ _ _ _ _ => trivial)
  obtain ⟨lup, hlup, hlvls⟩ := (d.withLive lib live_grey).levels_log lib use_pyramid
    hready.2.1 hready.2.2 [3, 2, 1] _ s3 (by decide) hs3
  obtain ⟨l0, hl0, hpass, hnone, hsome⟩ := (d.withLive lib live_grey).iterate_last lib 0 Kg Kg Kd
    true (if use_pyramid = false then 3 else 1) 0 { s3 with last_error := FLT_MAX }
  have hlog : ((d.withLive lib live_grey).iterate lib 0 Kg Kg Kd true
      (if use_pyramid = false then 3 else 1) 0 { s3 with last_error := FLT_MAX }).log
        = lup ++ l0 := by
    rw [hl0]
    show s3.log ++ l0 = _
    rw [hlup]
    rfl
  have hla : lastAcceptedAt 0 (lup ++ l0) = lastAccepted l0 := by
    apply lastAcceptedAt_append
    · intro it hit
      have h := hlvls it hit
      simp only [List.mem_cons, List.mem_singleton, List.not_mem_nil, or_false] at h
      omega
    · intro it hit
      exact (hpass it hit).1
  refine ⟨_, Kg, Kd, hE, hKg, hKd, ?_, ?_⟩
  · intro hn
    have hn2 : lastAcceptedAt 0 (lup ++ l0) = none := by
      rw [← hlog]
      exact hn
    rw [hla] at hn2
    exact (hnone hn2).1
  · intro it hit
    have hit2 : lastAcceptedAt 0 (lup ++ l0) = some it := by
      rw [← hlog]
      exact hit
    rw [hla] at hit2
    obtain ⟨hacc, ⟨k1, s1, hk⟩, herr, hTrl, hlt⟩ := hsome it hit2
    subst hk
    obtain ⟨h0, hval⟩ := rmse_some lib _ _ _ herr
    exact ⟨rfl, hacc, rfl, h0, hval, hlt, herr, hTrl⟩

/-- The worked example run by `Estimate` without pyramid, with the library
`exactLib`: the value returned is the RMS `1/50` of the first pass, measured at
the identity hint; the transform handed back is `demoTrl1`, at which the
reduction has no observation, hence no RMS. -/
theorem demo_returned :
    ∃ r, (demoApiTracker exactLib).Estimate exactLib demoLive SE3.identity false 0 = some r
      ∧ lastAcceptedAt 0 r.log = some (demoPass0 exactLib 0)
      ∧ (demoPass0 exactLib 0).Trl_in = SE3.identity
      ∧ r.returned = 1 / 50
      ∧ r.Trl = demoTrl1
      ∧ demoTrl1.t ≠ SE3.identity.t
      ∧ rmse exactLib (parallel_reduce 64 (demoPose demoTrl1)).error
          (parallel_reduce 64 (demoPose demoTrl1)).num_obs = none := by
  have hp := fun img (_ : ℕ) => subsample_zero (α := ℚ) img
  have hdp := fun img (_ : ℕ) => subsample_zero (α := Option ℚ) img
  have hacc0 := demoPass0_accepted exactLib 0 exactLib_sqrt exactLib_solve6 hp hdp
  have hrej1 := demoPass1_rejected exactLib 0 exactLib_sqrt exactLib_exp exactLib_solve6 hp hdp
  have hout0 := demoPass0_out exactLib 0 exactLib_sqrt exactLib_solve6 hp hdp
  refine ⟨_, demo_Estimate exactLib 0 exactLib_sqrt exactLib_exp exactLib_solve6
    exactLib_scaled_one hp hdp, ?_, rfl, ?_, ?_, ?_, ?_⟩
  · show lastAcceptedAt 0 [demoPass0 exactLib 0, demoPass1 exactLib 0] = _
    have e1 : [demoPass0 exactLib 0, demoPass1 exactLib 0].filter
        (fun it => decide (it.pyramid_lvl = 0)) = [demoPass0 exactLib 0, demoPass1 exactLib 0] :=
      rfl
    unfold lastAcceptedAt lastAccepted
    rw [e1, List.filter_cons_of_pos (by simpa using hacc0),
      List.filter_cons_of_neg (by simpa using hrej1)]
    rfl
  · show ((demoPass0 exactLib 0).out.new_error).getD FLT_MAX = 1 / 50
    rw [hout0]
    rfl
  · exact demoState1_Trl exactLib 0 exactLib_sqrt exactLib_exp exactLib_solve6 hp hdp
  · decide!
  · rw [demo_reduce1_num_obs]
    rfl

/-- The loop of `SetParams` appends the scaled models of the levels
`ii, ..., ii + n - 1` to each of the three vectors and touches nothing else. -/
theorem DTrack.pushScaled_spec (lib : Lib) (A B C : Mat3) :
    ∀ (n ii : ℕ) (d : DTrack),
      (DTrack.pushScaled lib A B C n ii d).live_grey_cam_model_
          = d.live_grey_cam_model_ ++ (List.range' ii n).map (DTrack._ScaleCM lib A)
      ∧ (DTrack.pushScaled lib A B C n ii d).ref_grey_cam_model_
          = d.ref_grey_cam_model_ ++ (List.range' ii n).map (DTrack._ScaleCM lib B)
      ∧ (DTrack.pushScaled lib A B C n ii d).ref_depth_cam_model_
          = d.ref_depth_cam_model_ ++ (List.range' ii n).map (DTrack._ScaleCM lib C)
      ∧ (DTrack.pushScaled lib A B C n ii d).kPyramidLevels = d.kPyramidLevels
      ∧ (DTrack.pushScaled lib A B C n ii d).Tgd_ = d.Tgd_
      ∧ (DTrack.pushScaled lib A B C n ii d).live_grey_pyramid_ = d.live_grey_pyramid_
      ∧ (DTrack.pushScaled lib A B C n ii d).ref_grey_pyramid_ = d.ref_grey_pyramid_
      ∧ (DTrack.pushScaled lib A B C n ii d).ref_depth_pyramid_ = d.ref_depth_pyramid_ := by
  intro n
  induction n with
  | zero =>
    intro ii d
    simp [DTrack.pushScaled]
  | succ n ih =>
    intro ii d
    obtain ⟨h1, h2, h3, h4, h5, h6, h7, h8⟩ := ih (ii + 1)
      { d with
        live_grey_cam_model_ := d.live_grey_cam_model_ ++ [DTrack._ScaleCM lib A ii]
        ref_grey_cam_model_ := d.ref_grey_cam_model_ ++ [DTrack._ScaleCM lib B ii]
        ref_depth_cam_model_ := d.ref_depth_cam_model_ ++ [DTrack._ScaleCM lib C ii] }
    have hr : List.range' ii (n + 1) = ii :: List.range' (ii + 1) n := rfl
    refine ⟨?_, ?_, ?_, h4, h5, h6, h7, h8⟩
    · show (DTrack.pushScaled lib A B C n (ii + 1) _).live_grey_cam_model_ = _
      rw [h1, hr, List.map_cons, List.append_assoc]
      rfl
    · show (DTrack.pushScaled lib A B C n (ii + 1) _).ref_grey_cam_model_ = _
      rw [h2, hr, List.map_cons, List.append_assoc]
      rfl
    · show (DTrack.pushScaled lib A B C n (ii + 1) _).ref_depth_cam_model_ = _
      rw [h3, hr, List.map_cons, List.append_assoc]
      rfl

/-- The method `SetParams` appends the scaled models of the levels
`0, ..., kPyramidLevels - 1` to each of the three vectors, stores `Tgd`, and
touches nothing else. -/
theorem DTrack.SetParams_spec (lib : Lib) (d : DTrack) (A B C : Mat3) (Tgd : SE3) :
    (d.SetParams lib A B C Tgd).live_grey_cam_model_
        = d.live_grey_cam_model_ ++ (List.range d.kPyramidLevels).map (DTrack._ScaleCM lib A)
    ∧ (d.SetParams lib A B C Tgd).ref_grey_cam_model_
        = d.ref_grey_cam_model_ ++ (List.range d.kPyramidLevels).map (DTrack._ScaleCM lib B)
    ∧ (d.SetParams lib A B C Tgd).ref_depth_cam_model_
        = d.ref_depth_cam_model_ ++ (List.range d.kPyramidLevels).map (DTrack._ScaleCM lib C)
    ∧ (d.SetParams lib A B C Tgd).kPyramidLevels = d.kPyramidLevels
    ∧ (d.SetParams lib A B C Tgd).Tgd_ = Tgd
    ∧ (d.SetParams lib A B C Tgd).live_grey_pyramid_ = d.live_grey_pyramid_
    ∧ (d.SetParams lib A B C Tgd).ref_grey_pyramid_ = d.ref_grey_pyramid_
    ∧ (d.SetParams lib A B C Tgd).ref_depth_pyramid_ = d.ref_depth_pyramid_ := by
  obtain ⟨h1, h2, h3, h4, _, h6, h7, h8⟩ := DTrack.pushScaled_spec lib A B C d.kPyramidLevels 0 d
  rw [List.range_eq_range']
  exact ⟨h1, h2, h3, h4, rfl, h6, h7, h8⟩

theorem scaled_range_get (lib : Lib) (K : Mat3) (L l : ℕ) (hl : l < L) :
    ((List.range L).map (DTrack._ScaleCM lib K))[l]? = some (DTrack._ScaleCM lib K l) := by
  rw [List.getElem?_map, List.getElem?_range hl]
  rfl

/-- The reducer that `Estimate` builds reads the tracker through `Tgd_` and the
three pyramids only. -/
theorem DTrack.poseRefine_congr (d e : DTrack) (hT : d.Tgd_ = e.Tgd_)
    (hl : d.live_grey_pyramid_ = e.live_grey_pyramid_)
    (hr : d.ref_grey_pyramid_ = e.ref_grey_pyramid_)
    (hd : d.ref_depth_pyramid_ = e.ref_depth_pyramid_) (lvl : ℕ) (Kl Kg Kd : Mat3) (Trl : SE3) :
    d.poseRefine lvl Kl Kg Kd Trl = e.poseRefine lvl Kl Kg Kd Trl := by
  unfold DTrack.poseRefine
  rw [hT, hl, hr, hd]

theorem DTrack.pass_congr (lib : Lib) (d e : DTrack) (hT : d.Tgd_ = e.Tgd_)
    (hl : d.live_grey_pyramid_ = e.live_grey_pyramid_)
    (hr : d.ref_grey_pyramid_ = e.ref_grey_pyramid_)
    (hd : d.ref_depth_pyramid_ = e.ref_depth_pyramid_) (lvl : ℕ) (Kl Kg Kd : Mat3)
    (full : Bool) (k : ℕ) (s : EstState) :
    d.pass lib lvl Kl Kg Kd full k s = e.pass lib lvl Kl Kg Kd full k s := by
  unfold DTrack.pass DTrack.solveStep
  rw [DTrack.poseRefine_congr d e hT hl hr hd, hd]

theorem DTrack.iterate_congr (lib : Lib) (d e : DTrack) (hT : d.Tgd_ = e.Tgd_)
    (hl : d.live_grey_pyramid_ = e.live_grey_pyramid_)
    (hr : d.ref_grey_pyramid_ = e.ref_grey_pyramid_)
    (hd : d.ref_depth_pyramid_ = e.ref_depth_pyramid_) (lvl : ℕ) (Kl Kg Kd : Mat3)
    (full : Bool) :
    ∀ n k s, d.iterate lib lvl Kl Kg Kd full n k s = e.iterate lib lvl Kl Kg Kd full n k s := by
  intro n
  induction n with
  | zero => intro k s; rfl
  | succ n ih =>
    intro k s
    have hp := DTrack.pass_congr lib d e hT hl hr hd lvl Kl Kg Kd full k s
    cases h : (d.pass lib lvl Kl Kg Kd full k s).accepted with
    | false =>
      rw [d.iterate_reject lib lvl Kl Kg Kd full n k s h,
        e.iterate_reject lib lvl Kl Kg Kd full n k s (hp ▸ h), hp]
    | true =>
      by_cases hsm : norm lib (d.pass lib lvl Kl Kg Kd full k s).out.X < 1 / 100000
      · rw [d.iterate_accept_small lib lvl Kl Kg Kd full n k s h hsm,
          e.iterate_accept_small lib lvl Kl Kg Kd full n k s (hp ▸ h) (hp ▸ hsm), hp]
      · rw [d.iterate_accept_continue lib lvl Kl Kg Kd full n k s h hsm,
          e.iterate_accept_continue lib lvl Kl Kg Kd full n k s (hp ▸ h) (hp ▸ hsm), hp]
        exact ih _ _

theorem DTrack.levels_congr (lib : Lib) (d e : DTrack) (use_pyramid : Bool)
    (hT : d.Tgd_ = e.Tgd_) (hl : d.live_grey_pyramid_ = e.live_grey_pyramid_)
    (hr : d.ref_grey_pyramid_ = e.ref_grey_pyramid_)
    (hd : d.ref_depth_pyramid_ = e.ref_depth_pyramid_) :
    ∀ (lvls : List ℕ) (s : EstState),
      (∀ lvl ∈ lvls, d.ref_grey_cam_model_[lvl]? = e.ref_grey_cam_model_[lvl]?
        ∧ d.ref_depth_cam_model_[lvl]? = e.ref_depth_cam_model_[lvl]?) →
      d.levels lib use_pyramid lvls s = e.levels lib use_pyramid lvls s := by
  intro lvls
  induction lvls with
  | nil => intro s _; rfl
  | cons lvl rest ih =>
    intro s h
    obtain ⟨hg, hdp⟩ := h lvl (List.mem_cons_self _ _)
    have hlevel : d.level lib use_pyramid lvl s = e.level lib use_pyramid lvl s := by
      unfold DTrack.level
      rw [hg, hdp]
      simp only [DTrack.iterate_congr lib d e hT hl hr hd]
    simp only [DTrack.levels, hlevel]
    cases e.level lib use_pyramid lvl s with
    | none => rfl
    | some s1 => exact ih s1 (fun l hl1 => h l (List.mem_cons_of_mem _ hl1))

/-- Two trackers with the same level count, the same `Tgd_`, the same keyframe
pyramids and the same stored reference models at the levels below the level
count give the same `Estimate`. -/
theorem DTrack.Estimate_congr (lib : Lib) (d e : DTrack) (live_grey : Image ℚ) (Trl : SE3)
    (use_pyramid : Bool) (hessian_init : Mat6) (hL : d.kPyramidLevels = e.kPyramidLevels)
    (hT : d.Tgd_ = e.Tgd_) (hr : d.ref_grey_pyramid_ = e.ref_grey_pyramid_)
    (hd : d.ref_depth_pyramid_ = e.ref_depth_pyramid_)
    (hcam : ∀ lvl < d.kPyramidLevels,
      d.ref_grey_cam_model_[lvl]? = e.ref_grey_cam_model_[lvl]?
        ∧ d.ref_depth_cam_model_[lvl]? = e.ref_depth_cam_model_[lvl]?) :
    (d.Estimate lib live_grey Trl use_pyramid hessian_init).map EstimateResult.outputs
      = (e.Estimate lib live_grey Trl use_pyramid hessian_init).map EstimateResult.outputs := by
  have hlv : (d.withLive lib live_grey).levels lib use_pyramid
      (levelsDown (d.withLive lib live_grey).kPyramidLevels) (initState Trl hessian_init)
      = (e.withLive lib live_grey).levels lib use_pyramid
        (levelsDown (e.withLive lib live_grey).kPyramidLevels) (initState Trl hessian_init) := by
    have hk : (e.withLive lib live_grey).kPyramidLevels = (d.withLive lib live_grey).kPyramidLevels :=
      hL.symm
    rw [hk]
    apply DTrack.levels_congr lib (d.withLive lib live_grey) (e.withLive lib live_grey)
      use_pyramid hT _ hr hd
    · intro lvl hlvl
      have h1 : lvl < d.kPyramidLevels := by
        have h2 : lvl ∈ (List.range d.kPyramidLevels).reverse := hlvl
        rw [List.mem_reverse, List.mem_range] at h2
        exact h2
      exact hcam lvl h1
    · show lib.buildPyramid live_grey d.kPyramidLevels = lib.buildPyramid live_grey e.kPyramidLevels
      rw [hL]
  unfold DTrack.Estimate
  rw [← hL]
  split_ifs
  · rfl
  · rfl
  · simp only [hlv]
    cases (e.withLive lib live_grey).levels lib use_pyramid
        (levelsDown (e.withLive lib live_grey).kPyramidLevels) (initState Trl hessian_init) with
    | none => rfl
    | some s => rfl

/-- The stored state after `DTrack(L)` and two calls of `SetParams`: per
camera, the scaled models of the first call followed by those of the second;
the transform of the second call; the rest as the constructor left it. -/
theorem configuredTwice_spec (lib : Lib) (L : ℕ) (A1 A2 A3 : Mat3) (TA : SE3) (B1 B2 B3 : Mat3)
    (TB : SE3) :
    (configuredTwice lib L A1 A2 A3 TA B1 B2 B3 TB).live_grey_cam_model_
        = (List.range L).map (DTrack._ScaleCM lib A1)
          ++ (List.range L).map (DTrack._ScaleCM lib B1)
    ∧ (configuredTwice lib L A1 A2 A3 TA B1 B2 B3 TB).ref_grey_cam_model_
        = (List.range L).map (DTrack._ScaleCM lib A2)
          ++ (List.range L).map (DTrack._ScaleCM lib B2)
    ∧ (configuredTwice lib L A1 A2 A3 TA B1 B2 B3 TB).ref_depth_cam_model_
        = (List.range L).map (DTrack._ScaleCM lib A3)
          ++ (List.range L).map (DTrack._ScaleCM lib B3)
    ∧ (configuredTwice lib L A1 A2 A3 TA B1 B2 B3 TB).kPyramidLevels = L
    ∧ (configuredTwice lib L A1 A2 A3 TA B1 B2 B3 TB).Tgd_ = TB
    ∧ (configuredTwice lib L A1 A2 A3 TA B1 B2 B3 TB).live_grey_pyramid_
        = (DTrack.init L).live_grey_pyramid_
    ∧ (configuredTwice lib L A1 A2 A3 TA B1 B2 B3 TB).ref_grey_pyramid_
        = (DTrack.init L).ref_grey_pyramid_
    ∧ (configuredTwice lib L A1 A2 A3 TA B1 B2 B3 TB).ref_depth_pyramid_
        = (DTrack.init L).ref_depth_pyramid_ := by
  obtain ⟨a1, a2, a3, a4, _, a6, a7, a8⟩ := DTrack.SetParams_spec lib (DTrack.init L) A1 A2 A3 TA
  obtain ⟨b1, b2, b3, b4, b5, b6, b7, b8⟩ :=
    DTrack.SetParams_spec lib ((DTrack.init L).SetParams lib A1 A2 A3 TA) B1 B2 B3 TB
  have hL : ((DTrack.init L).SetParams lib A1 A2 A3 TA).kPyramidLevels = L := a4
  rw [hL] at b1 b2 b3
  unfold configuredTwice
  refine ⟨?_, ?_, ?_, b4.trans hL, b5, b6.trans a6, b7.trans a7, b8.trans a8⟩
  · rw [b1, a1]
    rfl
  · rw [b2, a2]
    rfl
  · rw [b3, a3]
    rfl

theorem scaled_append_get (lib : Lib) (K K2 : Mat3) (L l : ℕ) (hl : l < L) :
    ((List.range L).map (DTrack._ScaleCM lib K) ++ (List.range L).map (DTrack._ScaleCM lib K2))[l]?
        = some (DTrack._ScaleCM lib K l)
    ∧ ((List.range L).map (DTrack._ScaleCM lib K)
        ++ (List.range L).map (DTrack._ScaleCM lib K2))[L + l]?
        = some (DTrack._ScaleCM lib K2 l)
    ∧ ((List.range L).map (DTrack._ScaleCM lib K)
        ++ (List.range L).map (DTrack._ScaleCM lib K2)).length = 2 * L := by
  have hlen : ((List.range L).map (DTrack._ScaleCM lib K)).length = L := by
    rw [List.length_map, List.length_range]
  refine ⟨?_, ?_, ?_⟩
  · rw [List.getElem?_append_left (by rw [hlen]; exact hl)]
    exact scaled_range_get lib K L l hl
  · rw [List.getElem?_append_right (by rw [hlen]; omega), hlen, Nat.add_sub_cancel_left]
    exact scaled_range_get lib K2 L l hl
  · rw [List.length_append, hlen, List.length_map, List.length_range]
    omega

theorem scaled_append_length (lib : Lib) (K K2 : Mat3) (L : ℕ) :
    ((List.range L).map (DTrack._ScaleCM lib K)
      ++ (List.range L).map (DTrack._ScaleCM lib K2)).length = 2 * L := by
  rw [List.length_append, List.length_map, List.length_map, List.length_range]
  omega

/-- C22: after `DTrack(L)`, `SetParams(A1, A2, A3, TA)` and
`SetParams(B1, B2, B3, TB)`, each of the three stored vectors has `2 L` entries:
the entry `l < L` is the level-`l` scaled model of the first call and the entry
`L + l` that of the second call.  `Tgd_` is the transform `TB` of the second
call; the level count and the pyramids are as before.  The pass of the outer
loop of `Estimate` for a level `l < L` reads the models of the first call, and
after any `SetKeyframe` every call of `Estimate` has the outputs it has on the
tracker set once by `SetParams(A1, A2, A3, TB)`. -/
theorem C22_set_params_appends (lib : Lib) (L : ℕ) (A1 A2 A3 : Mat3) (TA : SE3)
    (B1 B2 B3 : Mat3) (TB : SE3) :
    ((configuredTwice lib L A1 A2 A3 TA B1 B2 B3 TB).live_grey_cam_model_.length = 2 * L
      ∧ (configuredTwice lib L A1 A2 A3 TA B1 B2 B3 TB).ref_grey_cam_model_.length = 2 * L
      ∧ (configuredTwice lib L A1 A2 A3 TA B1 B2 B3 TB).ref_depth_cam_model_.length = 2 * L)
    ∧ (∀ l, l < L →
        (configuredTwice lib L A1 A2 A3 TA B1 B2 B3 TB).live_grey_cam_model_[l]?
            = some (DTrack._ScaleCM lib A1 l)
        ∧ (configuredTwice lib L A1 A2 A3 TA B1 B2 B3 TB).ref_grey_cam_model_[l]?
            = some (DTrack._ScaleCM lib A2 l)
        ∧ (configuredTwice lib L A1 A2 A3 TA B1 B2 B3 TB).ref_depth_cam_model_[l]?
            = some (DTrack._ScaleCM lib A3 l)
        ∧ (configuredTwice lib L A1 A2 A3 TA B1 B2 B3 TB).live_grey_cam_model_[L + l]?
            = some (DTrack._ScaleCM lib B1 l)
        ∧ (configuredTwice lib L A1 A2 A3 TA B1 B2 B3 TB).ref_grey_cam_model_[L + l]?
            = some (DTrack._ScaleCM lib B2 l)
        ∧ (configuredTwice lib L A1 A2 A3 TA B1 B2 B3 TB).ref_depth_cam_model_[L + l]?
            = some (DTrack._ScaleCM lib B3 l))
    ∧ ((configuredTwice lib L A1 A2 A3 TA B1 B2 B3 TB).Tgd_ = TB
      ∧ (configuredTwice lib L A1 A2 A3 TA B1 B2 B3 TB).kPyramidLevels = L
      ∧ (configuredTwice lib L A1 A2 A3 TA B1 B2 B3 TB).live_grey_pyramid_
          = ((DTrack.init L).SetParams lib A1 A2 A3 TA).live_grey_pyramid_
      ∧ (configuredTwice lib L A1 A2 A3 TA B1 B2 B3 TB).ref_grey_pyramid_
          = ((DTrack.init L).SetParams lib A1 A2 A3 TA).ref_grey_pyramid_
      ∧ (configuredTwice lib L A1 A2 A3 TA B1 B2 B3 TB).ref_depth_pyramid_
          = ((DTrack.init L).SetParams lib A1 A2 A3 TA).ref_depth_pyramid_)
    ∧ (∀ l, l < L → l < 4 → ∀ (use_pyramid : Bool) (s : EstState),
        (configuredTwice lib L A1 A2 A3 TA B1 B2 B3 TB).level lib use_pyramid l s
          = some ((configuredTwice lib L A1 A2 A3 TA B1 B2 B3 TB).iterate lib l
              (DTrack._ScaleCM lib A2 l) (DTrack._ScaleCM lib A2 l) (DTrack._ScaleCM lib A3 l)
              (decide (l ≠ 3))
              (if use_pyramid = false then (if l = 0 then 3 else 0) else l + 1) 0
              { s with last_error := FLT_MAX }))
    ∧ ∀ (ref_grey : Image ℚ) (ref_depth : Image (Option ℚ)) (live_grey : Image ℚ) (Trl : SE3)
        (use_pyramid : Bool) (hessian_init : Mat6),
        (((configuredTwice lib L A1 A2 A3 TA B1 B2 B3 TB).SetKeyframe lib ref_grey
            ref_depth).Estimate lib live_grey Trl use_pyramid hessian_init).map
            EstimateResult.outputs
          = ((((DTrack.init L).SetParams lib A1 A2 A3 TB).SetKeyframe lib ref_grey
            ref_depth).Estimate lib live_grey Trl use_pyramid hessian_init).map
            EstimateResult.outputs := by
  obtain ⟨c1, c2, c3, c4, c5, c6, c7, c8⟩ := configuredTwice_spec lib L A1 A2 A3 TA B1 B2 B3 TB
  obtain ⟨a1, a2, a3, a4, a5, a6, a7, a8⟩ := DTrack.SetParams_spec lib (DTrack.init L) A1 A2 A3 TA
  obtain ⟨o1, o2, o3, o4, o5, o6, o7, o8⟩ := DTrack.SetParams_spec lib (DTrack.init L) A1 A2 A3 TB
  have hget : ∀ l, l < L →
      (configuredTwice lib L A1 A2 A3 TA B1 B2 B3 TB).live_grey_cam_model_[l]?
          = some (DTrack._ScaleCM lib A1 l)
      ∧ (configuredTwice lib L A1 A2 A3 TA B1 B2 B3 TB).ref_grey_cam_model_[l]?
          = some (DTrack._ScaleCM lib A2 l)
      ∧ (configuredTwice lib L A1 A2 A3 TA B1 B2 B3 TB).ref_depth_cam_model_[l]?
          = some (DTrack._ScaleCM lib A3 l)
      ∧ (configuredTwice lib L A1 A2 A3 TA B1 B2 B3 TB).live_grey_cam_model_[L + l]?
          = some (DTrack._ScaleCM lib B1 l)
      ∧ (configuredTwice lib L A1 A2 A3 TA B1 B2 B3 TB).ref_grey_cam_model_[L + l]?
          = some (DTrack._ScaleCM lib B2 l)
      ∧ (configuredTwice lib L A1 A2 A3 TA B1 B2 B3 TB).ref_depth_cam_model_[L + l]?
          = some (DTrack._ScaleCM lib B3 l) := by
    intro l hl
    rw [c1, c2, c3]
    exact ⟨(scaled_append_get lib A1 B1 L l hl).1, (scaled_append_get lib A2 B2 L l hl).1,
      (scaled_append_get lib A3 B3 L l hl).1, (scaled_append_get lib A1 B1 L l hl).2.1,
      (scaled_append_get lib A2 B2 L l hl).2.1, (scaled_append_get lib A3 B3 L l hl).2.1⟩
  refine ⟨⟨?_, ?_, ?_⟩, hget, ⟨c5, c4, c6.trans a6.symm, c7.trans a7.symm, c8.trans a8.symm⟩,
    ?_, ?_⟩
  · rw [c1]
    exact scaled_append_length lib A1 B1 L
  · rw [c2]
    exact scaled_append_length lib A2 B2 L
  · rw [c3]
    exact scaled_append_length lib A3 B3 L
  · intro l hl hl4 use_pyramid s
    obtain ⟨_, g2, g3, _, _, _⟩ := hget l hl
    unfold DTrack.level
    rw [g2, g3, vec_full_estimate_get l hl4, vec_max_iterations_get use_pyramid l hl4]
  · intro ref_grey ref_depth live_grey Trl use_pyramid hessian_init
    apply DTrack.Estimate_congr
    · exact c4.trans o4.symm
    · exact c5.trans o5.symm
    · show lib.buildPyramid ref_grey (configuredTwice lib L A1 A2 A3 TA B1 B2 B3 TB).kPyramidLevels
        = lib.buildPyramid ref_grey ((DTrack.init L).SetParams lib A1 A2 A3 TB).kPyramidLevels
      rw [c4, o4]
      rfl
    · show lib.buildDepthPyramid ref_depth
          (configuredTwice lib L A1 A2 A3 TA B1 B2 B3 TB).kPyramidLevels
        = lib.buildDepthPyramid ref_depth
          ((DTrack.init L).SetParams lib A1 A2 A3 TB).kPyramidLevels
      rw [c4, o4]
      rfl
    · intro lvl hlvl
      have hl : lvl < L := by
        have h : lvl < (configuredTwice lib L A1 A2 A3 TA B1 B2 B3 TB).kPyramidLevels := hlvl
        rwa [c4] at h
      obtain ⟨_, g2, g3, _, _, _⟩ := hget lvl hl
      constructor
      · show (configuredTwice lib L A1 A2 A3 TA B1 B2 B3 TB).ref_grey_cam_model_[lvl]?
          = ((DTrack.init L).SetParams lib A1 A2 A3 TB).ref_grey_cam_model_[lvl]?
        rw [g2, o2]
        show _ = ((List.range L).map (DTrack._ScaleCM lib A2))[lvl]?
        rw [scaled_range_get lib A2 L lvl hl]
      · show (configuredTwice lib L A1 A2 A3 TA B1 B2 B3 TB).ref_depth_cam_model_[lvl]?
          = ((DTrack.init L).SetParams lib A1 A2 A3 TB).ref_depth_cam_model_[lvl]?
        rw [g3, o3]
        show _ = ((List.range L).map (DTrack._ScaleCM lib A3))[lvl]?
        rw [scaled_range_get lib A3 L lvl hl]

/-- C22, witness: four levels, the library `exactLib`, first call with `demoK`
and the identity, second call with `demoK2` and a translation: eight entries
per vector, `demoK` at the entry 0 and `demoK2` at the entry 4. -/
theorem C22_set_params_appends_witness :
    (configuredTwice exactLib 4 demoK demoK demoK SE3.identity demoK2 demoK2 demoK2
        demoTrl1).ref_grey_cam_model_.length = 2 * 4
    ∧ (configuredTwice exactLib 4 demoK demoK demoK SE3.identity demoK2 demoK2 demoK2
        demoTrl1).ref_grey_cam_model_[0]? = some demoK
    ∧ (configuredTwice exactLib 4 demoK demoK demoK SE3.identity demoK2 demoK2 demoK2
        demoTrl1).ref_grey_cam_model_[4 + 0]? = some demoK2
    ∧ demoK2 ≠ demoK
    ∧ (configuredTwice exactLib 4 demoK demoK demoK SE3.identity demoK2 demoK2 demoK2
        demoTrl1).Tgd_ = demoTrl1 := by
  have h := C22_set_params_appends exactLib 4 demoK demoK demoK SE3.identity demoK2 demoK2 demoK2
    demoTrl1
  refine ⟨h.1.2.1, ?_, ?_, by decide!, h.2.2.1.1⟩
  · rw [(h.2.1 0 (by decide)).2.1, exactLib_ScaleCM_zero]
  · rw [(h.2.1 0 (by decide)).2.2.2.2.1, exactLib_ScaleCM_zero]

/-- The point `hPr_g` is homogeneous when the last row of `Tgd_` is
`(0, 0, 0, 1)`, as it is for the matrix of a rigid transform. -/
theorem PoseRefine.hPr_g_three (p : PoseRefine) (ii : ℕ) (depth : ℚ)
    (hT : p.Tgd_ 3 = ![0, 0, 0, 1]) : p.hPr_g ii depth 3 = 1 := by
  unfold PoseRefine.hPr_g
  simp only [Matrix.mulVec, Matrix.dotProduct, Fin.sum_univ_four, hT]
  simp

/-- C19: for every pixel that `PoseRefine::operator()` does not skip, with
`Tgd_` the matrix of a rigid transform (last row `(0, 0, 0, 1)`), the vector `J`
that it builds from the row `a = dIesm_dPl_KlgTlr` and the point
`P = hPr_g = (Px, Py, Pz, 1)` of that pixel has `J[i] = a * G_i * P` for the six
standard generators `G_i` of SE(3), translations first and rotations last:
`J[0..2] = (a0, a1, a2)`, `J[3..5] = (Px, Py, Pz) x (a0, a1, a2)`, and for every
`ω`, `J[3..5] . ω = (a0, a1, a2) . (ω x (Px, Py, Pz))`. -/
theorem C19_jacobian_generators (p : PoseRefine) (ii : ℕ) (J : Vec6) (y : ℚ)
    (hT : p.Tgd_ 3 = ![0, 0, 0, 1]) (h : p.pixel ii = some (J, y)) :
    ∃ depth,
      p.ref_depth_.atFloat (ii / p.ref_depth_.cols) (ii % p.ref_depth_.cols) = some depth
      ∧ p.hPr_g ii depth 3 = 1
      ∧ (∀ i : Fin 6,
          J i = p.dIesm_dPl_KlgTlr ii depth ⬝ᵥ (generator i).mulVec (p.hPr_g ii depth))
      ∧ (J 0 = p.dIesm_dPl_KlgTlr ii depth 0 ∧ J 1 = p.dIesm_dPl_KlgTlr ii depth 1
          ∧ J 2 = p.dIesm_dPl_KlgTlr ii depth 2)
      ∧ ![J 3, J 4, J 5]
          = crossProduct ![p.hPr_g ii depth 0, p.hPr_g ii depth 1, p.hPr_g ii depth 2]
              ![p.dIesm_dPl_KlgTlr ii depth 0, p.dIesm_dPl_KlgTlr ii depth 1,
                p.dIesm_dPl_KlgTlr ii depth 2]
      ∧ ∀ ω : Vec3, ![J 3, J 4, J 5] ⬝ᵥ ω
          = ![p.dIesm_dPl_KlgTlr ii depth 0, p.dIesm_dPl_KlgTlr ii depth 1,
                p.dIesm_dPl_KlgTlr ii depth 2]
              ⬝ᵥ crossProduct ω
                ![p.hPr_g ii depth 0, p.hPr_g ii depth 1, p.hPr_g ii depth 2] := by
  obtain ⟨depth, hd, _, _, hJ, _⟩ := p.pixel_some ii J y h
  have hP := p.hPr_g_three ii depth hT
  obtain ⟨g1, g2, g3, g4⟩ :=
    jacobian_generators (p.dIesm_dPl_KlgTlr ii depth) (p.hPr_g ii depth) hP
  subst hJ
  exact ⟨depth, hd, hP, g1, g2, g3, g4⟩

/-- C19, witness: the pixel 19 (column 3, row 2, depth `9/20`) of the worked
example at the identity transform contributes; its row is
`a = (1/150, 1/600, 1/600, 0)`, its point `P = (0, -9/20, 9/20, 1)`, and the
`J` that `operator()` builds is `(a * G_0 * P, ..., a * G_5 * P)`. -/
theorem C19_jacobian_generators_witness :
    (demoPose SE3.identity).Tgd_ 3 = ![0, 0, 0, 1]
    ∧ (demoPose SE3.identity).pixel 19
        = some (![1 / 150, 1 / 600, 1 / 600, -3 / 2000, 3 / 1000, 3 / 1000], 1 / 50)
    ∧ (demoPose SE3.identity).dIesm_dPl_KlgTlr 19 (9 / 20) = ![1 / 150, 1 / 600, 1 / 600, 0]
    ∧ (demoPose SE3.identity).hPr_g 19 (9 / 20) = ![0, -9 / 20, 9 / 20, 1]
    ∧ (∀ i : Fin 6,
        (![1 / 150, 1 / 600, 1 / 600, -3 / 2000, 3 / 1000, 3 / 1000] : Vec6) i
          = (![1 / 150, 1 / 600, 1 / 600, 0] : Vec4)
              ⬝ᵥ (generator i).mulVec ![0, -9 / 20, 9 / 20, 1])
    ∧ ∃ depth,
      (demoPose SE3.identity).ref_depth_.atFloat
          (19 / (demoPose SE3.identity).ref_depth_.cols)
          (19 % (demoPose SE3.identity).ref_depth_.cols) = some depth
      ∧ ∀ i : Fin 6,
          (![1 / 150, 1 / 600, 1 / 600, -3 / 2000, 3 / 1000, 3 / 1000] : Vec6) i
            = (demoPose SE3.identity).dIesm_dPl_KlgTlr 19 depth
                ⬝ᵥ (generator i).mulVec ((demoPose SE3.identity).hPr_g 19 depth) := by
  have hT : (demoPose SE3.identity).Tgd_ 3 = ![0, 0, 0, 1] := by decide!
  have hp : (demoPose SE3.identity).pixel 19
      = some (![1 / 150, 1 / 600, 1 / 600, -3 / 2000, 3 / 1000, 3 / 1000], 1 / 50) := by
    decide!
  obtain ⟨depth, hd, _, hg, _⟩ := C19_jacobian_generators (demoPose SE3.identity) 19 _ _ hT hp
  exact ⟨hT, hp, by decide!, by decide!, by decide!, depth, hd, hg⟩

theorem lastAcceptedAt_rejected (lvl : ℕ) (log : List IterRecord)
    (h : ∀ it ∈ log, it.accepted = false) : lastAcceptedAt lvl log = none := by
  unfold lastAcceptedAt lastAccepted
  have e : (log.filter fun it => decide (it.pyramid_lvl = lvl)).filter (fun it => it.accepted)
      = [] := by
    rw [List.filter_eq_nil_iff]
    intro it hit
    rw [h it (List.mem_of_mem_filter hit)]
    simp
  rw [e]
  rfl

/-- The run of `Estimate` on the keyframe without a valid depth cell makes at
least one pass and rejects every pass. -/
theorem noDepth_run_rejected :
    ∃ r, noDepthTracker.Estimate exactLib demoLive SE3.identity true 0 = some r
      ∧ r.log ≠ [] ∧ ∀ it ∈ r.log, it.accepted = false := by
  have hpass : ∀ lvl Kg Kd full k s,
      ((noDepthTracker.withLive exactLib demoLive).pass exactLib lvl Kg Kg Kd full k s).accepted
        = false :=
    fun lvl Kg Kd full k s =>
      (empty_pass exactLib (noDepthTracker.withLive exactLib demoLive) lvl Kg Kg Kd full k s
        (fun ii _ => noDepthTracker_invalid lvl ii)).2.2
  have hstep : ∀ (s : EstState) (r : IterRecord), (∀ it ∈ s.log, it.accepted = false) →
      r.accepted = false → ∀ it ∈ (afterReject s r).log, it.accepted = false := by
    intro s r hs hr it hit
    rcases List.mem_append.mp hit with h | h
    · exact hs it h
    · rw [List.mem_singleton] at h
      rw [h]
      exact hr
  obtain ⟨s3, Kg, Kd, hP3, _, _, _, hE⟩ := noDepthTracker.Estimate_level0 exactLib demoLive
    SE3.identity true 0 noDepthTracker_ready (fun s => ∀ it ∈ s.log, it.accepted = false)
    (fun it hit => absurd hit (List.not_mem_nil it))
    (fun s hs => hs)
    (by
      intro lvl Kg Kd _ _ _ s k _ hacc
      rw [hpass lvl Kg Kd _ k s] at hacc
      cases hacc)
    (by
      intro lvl Kg Kd _ _ _ s k hs hrej
      exact hstep s _ hs hrej)
  have hE2 : noDepthTracker.Estimate exactLib demoLive SE3.identity true 0
      = some (finish exactLib (noDepthTracker.withLive exactLib demoLive)
          ((noDepthTracker.withLive exactLib demoLive).iterate exactLib 0 Kg Kg Kd true (0 + 1) 0
            { s3 with last_error := FLT_MAX })) := hE
  rw [(noDepthTracker.withLive exactLib demoLive).iterate_reject exactLib 0 Kg Kg Kd true 0 0 _
    (hpass 0 Kg Kd true 0 _)] at hE2
  refine ⟨_, hE2, ?_, hstep { s3 with last_error := FLT_MAX } _ hP3 (hpass 0 Kg Kd true 0 _)⟩
  show s3.log ++ [_] ≠ []
  simp

/-- C21, witness: two runs with the library `exactLib`.  The worked example
without pyramid: its last accepted pass at level 0 is the first one, entered at
the identity hint, with 6 observations and the sum of squares `3/1250`; the value
returned is `sqrt((3/1250)/6) = 1/50`, and the transform handed back is the
hint updated by that pass, `demoTrl1`, at which the reduction has no
observation.  The keyframe without a valid depth cell: no pass is accepted, and
the value returned is `FLT_MAX`. -/
theorem C21_returned_value_witness :
    ((demoApiTracker exactLib).Ready
      ∧ ∃ r, (demoApiTracker exactLib).Estimate exactLib demoLive SE3.identity false 0 = some r
        ∧ lastAcceptedAt 0 r.log = some (demoPass0 exactLib 0)
        ∧ (demoPass0 exactLib 0).accepted = true
        ∧ (demoPass0 exactLib 0).Trl_in = SE3.identity
        ∧ (demoPass0 exactLib 0).out.pose_ref = parallel_reduce 64 (demoPose SE3.identity)
        ∧ (demoPass0 exactLib 0).out.pose_ref.num_obs = 6
        ∧ (demoPass0 exactLib 0).out.pose_ref.error = 3 / 1250
        ∧ r.returned = exactLib.sqrt ((3 / 1250) / ((6 : ℕ) : ℚ))
        ∧ r.returned = 1 / 50
        ∧ r.returned < FLT_MAX
        ∧ r.Trl = ((SE3.identity.inverse).mul (exactLib.exp ![-3, 0, 0, 0, 0, 0])).inverse
        ∧ r.Trl = demoTrl1
        ∧ demoTrl1.t ≠ SE3.identity.t
        ∧ rmse exactLib (parallel_reduce 64 (demoPose demoTrl1)).error
            (parallel_reduce 64 (demoPose demoTrl1)).num_obs = none)
    ∧ (noDepthTracker.Ready
      ∧ ∃ r, noDepthTracker.Estimate exactLib demoLive SE3.identity true 0 = some r
        ∧ r.log ≠ [] ∧ lastAcceptedAt 0 r.log = none ∧ r.returned = FLT_MAX) := by
  have hp := fun img (_ : ℕ) => subsample_zero (α := ℚ) img
  have hdp := fun img (_ : ℕ) => subsample_zero (α := Option ℚ) img
  have hout0 := demoPass0_out exactLib 0 exactLib_sqrt exactLib_solve6 hp hdp
  constructor
  · obtain ⟨r, _, _, hE, _, _, _, hsome⟩ := C21_returned_value exactLib (demoApiTracker exactLib)
      demoLive SE3.identity false 0 (demoApiTracker_ready exactLib)
    obtain ⟨r1, hE1, hla, hin, hret, hTrl, hne, hnone⟩ := demo_returned
    have hr : r = r1 := Option.some.inj (hE.symm.trans hE1)
    subst hr
    obtain ⟨_, hacc, _, _, hval, hlt, _, hT⟩ := hsome _ hla
    have hpr : (demoPass0 exactLib 0).out.pose_ref = parallel_reduce 64 (demoPose SE3.identity) := by
      rw [hout0]
    have hX : (demoPass0 exactLib 0).out.X = ![-3, 0, 0, 0, 0, 0] := by
      rw [hout0]
    rw [hpr, demo_reduce0_num_obs, demo_reduce0_error] at hval
    rw [hin, hX] at hT
    refine ⟨demoApiTracker_ready exactLib, r, hE, hla, hacc, hin, hpr, ?_, ?_, hval, hret, hlt,
      hT, hTrl, hne, hnone⟩
    · rw [hpr]
      exact demo_reduce0_num_obs
    · rw [hpr]
      exact demo_reduce0_error
  · obtain ⟨r, _, _, hE, _, _, hn, _⟩ := C21_returned_value exactLib noDepthTracker demoLive
      SE3.identity true 0 noDepthTracker_ready
    obtain ⟨r1, hE1, hne, hrej⟩ := noDepth_run_rejected
    have hr : r = r1 := Option.some.inj (hE.symm.trans hE1)
    subst hr
    have hla := lastAcceptedAt_rejected 0 r.log hrej
    exact ⟨noDepthTracker_ready, r, hE, hne, hla, hn hla⟩

theorem ramp_obs0 : (List.range' 0 64).filterMap (rampPose SE3.identity).pixel = rampObs := by
  decide!

theorem ramp_obs1 :
    ((List.range' 0 64).filterMap (rampPose rampTrl1).pixel).map Prod.snd
      = [0, 0, 0, 0, 0, 0] := by
  decide!

theorem ramp_reduce0 :
    parallel_reduce 64 (rampPose SE3.identity)
      = rampObs.foldl (Accum.observe (1 / 25)) Accum.zero := by
  have hs : (rampPose SE3.identity).norm_param_ = 1 / 25 := by
    show norm_c * (((0 : ℕ) : ℚ) + 1) = 1 / 25
    norm_num [norm_c]
  rw [parallel_reduce_eq_observe, ramp_obs0, hs]

/-- The reduction of the second worked example at the identity transform: six
observations, sum of squares `6/1000^2`, an invertible `LHS`, and `RHS` equal to
`LHS` times `(3/20, 0, 0, 0, 0, 0)`. -/
theorem ramp_reduce0_facts :
    (parallel_reduce 64 (rampPose SE3.identity)).num_obs = 6
    ∧ (parallel_reduce 64 (rampPose SE3.identity)).error = 3 / 500000
    ∧ (parallel_reduce 64 (rampPose SE3.identity)).LHS * rampLHSInv = 1
    ∧ (parallel_reduce 64 (rampPose SE3.identity)).RHS
        = (parallel_reduce 64 (rampPose SE3.identity)).LHS.mulVec ![3 / 20, 0, 0, 0, 0, 0] := by
  rw [ramp_reduce0]
  decide!

/-- Observations whose residuals are all zero leave `error` and `RHS` at zero. -/
theorem foldl_observe_zero (c : ℚ) (l : List (Vec6 × ℚ)) (h : ∀ Jy ∈ l, Jy.2 = 0) (acc : Accum)
    (h0 : acc.error = 0 ∧ acc.RHS = 0) :
    (l.foldl (Accum.observe c) acc).error = 0 ∧ (l.foldl (Accum.observe c) acc).RHS = 0
      ∧ (l.foldl (Accum.observe c) acc).num_obs = acc.num_obs + l.length := by
  induction l generalizing acc with
  | nil => exact ⟨h0.1, h0.2, rfl⟩
  | cons Jy l ih =>
    have hy : Jy.2 = 0 := h Jy (List.mem_cons_self _ _)
    have h1 : (Accum.observe c acc Jy).error = 0 ∧ (Accum.observe c acc Jy).RHS = 0 := by
      constructor
      · show acc.error + Jy.2 * Jy.2 = 0
        rw [h0.1, hy]
        norm_num
      · show acc.RHS + (fun i => Jy.1 i * Jy.2 * _NormTukey Jy.2 c) = 0
        rw [h0.2, hy]
        ext i
        simp
    obtain ⟨e1, e2, e3⟩ := ih (fun q hq => h q (List.mem_cons_of_mem _ hq)) _ h1
    refine ⟨e1, e2, ?_⟩
    rw [List.foldl_cons, e3]
    show acc.num_obs + 1 + l.length = acc.num_obs + (l.length + 1)
    omega

/-- The reduction of the second worked example after its first pass: six
observations, all with the residual zero. -/
theorem ramp_reduce1_facts :
    (parallel_reduce 64 (rampPose rampTrl1)).num_obs = 6
    ∧ (parallel_reduce 64 (rampPose rampTrl1)).error = 0
    ∧ (parallel_reduce 64 (rampPose rampTrl1)).RHS = 0 := by
  have hall : ∀ Jy ∈ (List.range' 0 64).filterMap (rampPose rampTrl1).pixel, Jy.2 = 0 := by
    intro Jy hJy
    have h1 : Jy.2 ∈ ((List.range' 0 64).filterMap (rampPose rampTrl1).pixel).map Prod.snd :=
      List.mem_map_of_mem _ hJy
    rw [ramp_obs1] at h1
    simp only [List.mem_cons, List.mem_singleton, List.not_mem_nil, or_false, or_self] at h1
    exact h1
  have hlen : ((List.range' 0 64).filterMap (rampPose rampTrl1).pixel).length = 6 := by
    have h1 := congrArg List.length ramp_obs1
    rw [List.length_map] at h1
    exact h1
  obtain ⟨e1, e2, e3⟩ := foldl_observe_zero (rampPose rampTrl1).norm_param_ _ hall Accum.zero
    ⟨rfl, rfl⟩
  rw [parallel_reduce_eq_observe]
  refine ⟨?_, e1, e2⟩
  rw [e3, hlen]
  rfl

theorem rampTracker_solveStep (Trl : SE3) :
    rampTracker.solveStep exactLib 0 demoK demoK demoK true Trl
      = { pose_ref := parallel_reduce 64 (rampPose Trl)
          X := -(exactLib.solve6 (parallel_reduce 64 (rampPose Trl)).LHS
            (parallel_reduce 64 (rampPose Trl)).RHS)
          new_error := rmse exactLib (parallel_reduce 64 (rampPose Trl)).error
            (parallel_reduce 64 (rampPose Trl)).num_obs } := by
  have hcells : (rampTracker.ref_depth_pyramid_ 0).cols * (rampTracker.ref_depth_pyramid_ 0).rows
      = 64 := by decide
  unfold DTrack.solveStep
  simp only [hcells]
  unfold solveX rampPose
  simp only [if_true]

/-- The first pass of the second worked example: six observations, RMS
`1/1000`, the update `(-3/20, 0, 0, 0, 0, 0)`. -/
theorem rampPass0_out :
    rampPass0.out
      = { pose_ref := parallel_reduce 64 (rampPose SE3.identity)
          X := ![-3 / 20, 0, 0, 0, 0, 0], new_error := some (1 / 1000) } := by
  obtain ⟨hn, he, hinv, hrhs⟩ := ramp_reduce0_facts
  have hout0 := rampTracker_solveStep SE3.identity
  have hX0 : -(exactLib.solve6 (parallel_reduce 64 (rampPose SE3.identity)).LHS
      (parallel_reduce 64 (rampPose SE3.identity)).RHS) = ![-3 / 20, 0, 0, 0, 0, 0] := by
    rw [hrhs, exactLib_solve6 _ _ (Matrix.det_ne_zero_of_right_inverse hinv)]
    decide!
  have hne0 : rmse exactLib (parallel_reduce 64 (rampPose SE3.identity)).error
      (parallel_reduce 64 (rampPose SE3.identity)).num_obs = some (1 / 1000) := by
    rw [he, hn]
    unfold rmse
    rw [if_neg (by decide)]
    have : (3 : ℚ) / 500000 / ((6 : ℕ) : ℚ) = 1 / 1000 * (1 / 1000) := by norm_num
    rw [this, exactLib_sqrt _ (by norm_num)]
  rw [hX0, hne0] at hout0
  exact hout0

theorem rampPass0_accepted : rampPass0.accepted = true := by
  show accepts rampPass0.out.new_error FLT_MAX = true
  rw [rampPass0_out]
  show decide ((1 : ℚ) / 1000 < FLT_MAX) = true
  decide!

theorem rampPass0_not_converged : ¬ norm exactLib rampPass0.out.X < 1 / 100000 := by
  rw [rampPass0_out]
  unfold norm
  have h : (![-3 / 20, 0, 0, 0, 0, 0] : Vec6) ⬝ᵥ ![-3 / 20, 0, 0, 0, 0, 0]
      = 3 / 20 * (3 / 20) := by decide!
  rw [h, exactLib_sqrt _ (by norm_num)]
  norm_num

theorem rampState1_facts : rampState1.Trl = rampTrl1 ∧ rampState1.last_error = 1 / 1000 := by
  constructor
  · show ((SE3.identity.inverse).mul (exactLib.exp rampPass0.out.X)).inverse = rampTrl1
    rw [rampPass0_out, exactLib_exp]
    rfl
  · show (rampPass0.out.new_error).getD FLT_MAX = 1 / 1000
    rw [rampPass0_out]
    rfl

/-- The second pass of the second worked example: six observations, all with
the residual zero, so the RMS is 0 and the update is zero. -/
theorem rampPass1_out :
    rampPass1.out
      = { pose_ref := parallel_reduce 64 (rampPose rampTrl1), X := 0, new_error := some 0 } := by
  obtain ⟨hn, he, hrhs⟩ := ramp_reduce1_facts
  have hout1 := rampTracker_solveStep rampTrl1
  have hX1 : -(exactLib.solve6 (parallel_reduce 64 (rampPose rampTrl1)).LHS
      (parallel_reduce 64 (rampPose rampTrl1)).RHS) = 0 := by
    rw [hrhs, exactLib_solve6_zero, neg_zero]
  have hne1 : rmse exactLib (parallel_reduce 64 (rampPose rampTrl1)).error
      (parallel_reduce 64 (rampPose rampTrl1)).num_obs = some 0 := by
    rw [he, hn]
    unfold rmse
    rw [if_neg (by decide), zero_div, exactLib_sqrt_zero]
  rw [hX1, hne1] at hout1
  show (rampTracker.solveStep exactLib 0 demoK demoK demoK true rampState1.Trl) = _
  rw [rampState1_facts.1]
  exact hout1

theorem rampPass1_accepted : rampPass1.accepted = true := by
  show accepts rampPass1.out.new_error rampState1.last_error = true
  rw [rampPass1_out, rampState1_facts.2]
  show decide ((0 : ℚ) < 1 / 1000) = true
  decide!

theorem rampPass1_converged : norm exactLib rampPass1.out.X < 1 / 100000 := by
  rw [rampPass1_out]
  unfold norm
  have h : (0 : Vec6) ⬝ᵥ 0 = 0 := by simp
  rw [h, exactLib_sqrt_zero]
  norm_num

/-- Level 0 of the second worked example without pyramid: two passes, both
accepted, the second ending the loop at line 542. -/
theorem ramp_level0 :
    rampTracker.level exactLib false 0 (initState SE3.identity 0)
      = some (afterAccept exactLib rampState1 rampPass1) := by
  obtain ⟨Kg, Kd, hKg, hKd, hlevel⟩ := rampTracker.level_eq exactLib false 0
    (initState SE3.identity 0) (by decide) (Nat.le_refl 4) (Nat.le_refl 4)
  have hc := demoApiTracker_cam0 exactLib exactLib_scaled_one
  have hKg1 : Kg = demoK := by
    have h : rampTracker.ref_grey_cam_model_[0]? = some demoK := hc.1
    rw [h] at hKg
    exact (Option.some.inj hKg).symm
  have hKd1 : Kd = demoK := by
    have h : rampTracker.ref_depth_cam_model_[0]? = some demoK := hc.2
    rw [h] at hKd
    exact (Option.some.inj hKd).symm
  subst hKg1 hKd1
  rw [hlevel]
  have h1 : rampTracker.iterate exactLib 0 demoK demoK demoK true 3 0
      { initState SE3.identity 0 with last_error := FLT_MAX }
      = rampTracker.iterate exactLib 0 demoK demoK demoK true 2 1 rampState1 :=
    rampTracker.iterate_accept_continue exactLib 0 demoK demoK demoK true 2 0 _
      rampPass0_accepted rampPass0_not_converged
  have h2 : rampTracker.iterate exactLib 0 demoK demoK demoK true 2 1 rampState1
      = afterAccept exactLib rampState1 rampPass1 :=
    rampTracker.iterate_accept_small exactLib 0 demoK demoK demoK true 1 1 _
      rampPass1_accepted rampPass1_converged
  show some (rampTracker.iterate exactLib 0 demoK demoK demoK true 3 0
      { initState SE3.identity 0 with last_error := FLT_MAX }) = _
  rw [h1, h2]

/-- C17, witness: level 0 of the second worked example, without pyramid (budget
3), with the library `exactLib`.  The level makes two passes and accepts both:
the first with the RMS `1/1000`, below `FLT_MAX`; the second, entered with
`last_error = 1/1000`, with the RMS `0 < 1/1000`. -/
theorem C17_accepted_rms_decreasing_witness :
    (0 < 4 ∧ rampTracker.Ready)
    ∧ ∃ s1 l, rampTracker.level exactLib false 0 (initState SE3.identity 0) = some s1
        ∧ s1.log = (initState SE3.identity 0).log ++ l
        ∧ l = [rampPass0, rampPass1]
        ∧ (rampPass0.accepted = true ∧ rampPass0.last_error_in = FLT_MAX
            ∧ rampPass0.out.new_error = some (1 / 1000))
        ∧ (rampPass1.accepted = true ∧ rampPass1.last_error_in = 1 / 1000
            ∧ rampPass1.out.new_error = some 0)
        ∧ acceptedRms l = [1 / 1000, 0]
        ∧ List.Chain (fun a b => b < a) FLT_MAX [1 / 1000, 0]
        ∧ (∀ it ∈ l, it.accepted = true
            ↔ ∃ e, it.out.new_error = some e ∧ e < it.last_error_in)
        ∧ (∀ it, l.head? = some it → it.last_error_in = FLT_MAX)
        ∧ List.Chain' (fun a b => a.accepted = true ∧ a.out.new_error = some b.last_error_in) l
        ∧ s1.last_error = 0 := by
  have hready : rampTracker.Ready := ⟨rfl, Nat.le_refl 4, Nat.le_refl 4⟩
  obtain ⟨s1, l, hlev, hlog, hchain, hiff, hhead, hlink, hlast⟩ :=
    C17_accepted_rms_decreasing exactLib rampTracker false 0 (initState SE3.identity 0)
      (by decide) hready
  have hs1 : s1 = afterAccept exactLib rampState1 rampPass1 :=
    Option.some.inj (hlev.symm.trans ramp_level0)
  have hl : l = [rampPass0, rampPass1] := by
    have h1 : s1.log = [] ++ [rampPass0, rampPass1] := by
      rw [hs1]
      rfl
    rw [hlog] at h1
    exact List.append_cancel_left h1
  have hrms : acceptedRms l = [1 / 1000, 0] := by
    rw [hl, acceptedRms_accepted rampPass0 _ (1 / 1000) rampPass0_accepted
        (by rw [rampPass0_out]),
      acceptedRms_accepted rampPass1 _ 0 rampPass1_accepted (by rw [rampPass1_out])]
    rfl
  rw [hrms] at hchain hlast
  refine ⟨⟨by decide, hready⟩, s1, l, hlev, hlog, hl,
    ⟨rampPass0_accepted, rfl, by rw [rampPass0_out]⟩,
    ⟨rampPass1_accepted, rampState1_facts.2, by rw [rampPass1_out]⟩,
    hrms, hchain, hiff, hhead, hlink, hlast⟩

theorem big_obs0 :
    (List.range' 0 64).filterMap (bigPose SE3.identity).pixel
      = demoObs.map (fun Jy => (Jy.1, 1 / 5000)) := by
  decide!

theorem big_reduce0 :
    parallel_reduce 64 (bigPose SE3.identity)
      = (demoObs.map (fun Jy => (Jy.1, 1 / 5000))).foldl (Accum.observe (4 / 25))
          Accum.zero := by
  have hs : (bigPose SE3.identity).norm_param_ = 4 / 25 := by
    show norm_c * (((3 : ℕ) : ℚ) + 1) = 4 / 25
    norm_num [norm_c]
  rw [parallel_reduce_eq_observe, big_obs0, hs]

/-- The reduction of the third worked example at level 3 and the identity
transform: six observations, sum of squares `6/5000^2`, an invertible rotation
block of `LHS`, and the tail of `RHS` equal to that block times `-bigOmega`. -/
theorem big_reduce0_facts :
    (parallel_reduce 64 (bigPose SE3.identity)).num_obs = 6
    ∧ (parallel_reduce 64 (bigPose SE3.identity)).error = 3 / 12500000
    ∧ (Matrix.of fun i j => (parallel_reduce 64 (bigPose SE3.identity)).LHS (Fin.natAdd 3 i)
          (Fin.natAdd 3 j) : Mat3).det ≠ 0
    ∧ (fun i => (parallel_reduce 64 (bigPose SE3.identity)).RHS (Fin.natAdd 3 i))
        = (Matrix.of fun i j => (parallel_reduce 64 (bigPose SE3.identity)).LHS (Fin.natAdd 3 i)
            (Fin.natAdd 3 j) : Mat3).mulVec (-bigOmega) := by
  rw [big_reduce0, Matrix.det_fin_three]
  decide!


/-- The passes of the inner loop, with an invariant `P` of the loop: when the
budget is not zero the first pass is the pass of the entry state, and every pass
is the pass of a state that satisfies `P`. -/
theorem DTrack.iterate_passes (lib : Lib) (d : DTrack) (lvl : ℕ) (Kl Kg Kd : Mat3)
    (full : Bool) (P : EstState → Prop)
    (hacc : ∀ s k, P s → (d.pass lib lvl Kl Kg Kd full k s).accepted = true →
      P (afterAccept lib s (d.pass lib lvl Kl Kg Kd full k s))) :
    ∀ n k s, P s → ∃ l : List IterRecord,
      (d.iterate lib lvl Kl Kg Kd full n k s).log = s.log ++ l
        ∧ (0 < n → l.head? = some (d.pass lib lvl Kl Kg Kd full k s))
        ∧ ∀ it ∈ l, ∃ k1 s1, P s1 ∧ it = d.pass lib lvl Kl Kg Kd full k1 s1 := by
  intro n
  induction n with
  | zero =>
    intro k s _
    exact ⟨[], by simp [DTrack.iterate], fun h => absurd h (Nat.lt_irrefl 0), by simp⟩
  | succ n ih =>
    intro k s hs
    have hone : ∀ it ∈ [d.pass lib lvl Kl Kg Kd full k s],
        ∃ k1 s1, P s1 ∧ it = d.pass lib lvl Kl Kg Kd full k1 s1 := by
      intro it hit
      rw [List.mem_singleton] at hit
      exact ⟨k, s, hs, hit⟩
    cases h : (d.pass lib lvl Kl Kg Kd full k s).accepted with
    | false =>
      rw [d.iterate_reject lib lvl Kl Kg Kd full n k s h]
      exact ⟨[_], rfl, fun _ => rfl, hone⟩
    | true =>
      by_cases hsm : norm lib (d.pass lib lvl Kl Kg Kd full k s).out.X < 1 / 100000
      · rw [d.iterate_accept_small lib lvl Kl Kg Kd full n k s h hsm]
        exact ⟨[_], rfl, fun _ => rfl, hone⟩
      · rw [d.iterate_accept_continue lib lvl Kl Kg Kd full n k s h hsm]
        obtain ⟨l, hl, _, hpass⟩ :=
          ih (k + 1) (afterAccept lib s (d.pass lib lvl Kl Kg Kd full k s)) (hacc s k hs h)
        refine ⟨d.pass lib lvl Kl Kg Kd full k s :: l, ?_, fun _ => rfl, ?_⟩
        · rw [hl]
          show (s.log ++ [_]) ++ l = _
          simp
        · intro it hit
          rcases List.mem_cons.mp hit with h1 | h1
          · exact ⟨k, s, hs, h1⟩
          · exact hpass it h1

/-- C16: of the four levels only the coarsest (3) has the mask entry
`vec_full_estimate = false`.  The pass of the outer loop of `Estimate` for
level 3 returns; with pyramid it starts with the pass of the state it is entered
in.  Every pass of the level is entered with a `Trl` without translation when
the level is, and the update `X` it computes has `X[0..2] = 0` and `X[3..5]`
equal to minus the solution of the block `LHS(3..5, 3..5)` against `RHS(3..5)`;
with an exponential map that gives no translation to an increment without
translational part, `exp(X)` and the transform `(Trl⁻¹ * exp(X))⁻¹` of line 530
are without translation.  When the level ends `Trl` is the transform that the
last accepted pass wrote (the entry one if none was accepted), without
translation, and `Estimate` goes on with the levels 2, 1, 0 from there. -/
theorem C16_rotation_only_coarsest (lib : Lib) (d : DTrack) (use_pyramid : Bool) (s : EstState)
    (hready : d.Ready)
    (hexp : ∀ X : Vec6, X 0 = 0 → X 1 = 0 → X 2 = 0 → (lib.exp X).t = 0)
    (ht : s.Trl.t = 0) :
    (∀ lvl, lvl < 4 → (vec_full_estimate[lvl]? = some false ↔ lvl = 3))
    ∧ ∃ s1 l Kg Kd, d.ref_grey_cam_model_[3]? = some Kg ∧ d.ref_depth_cam_model_[3]? = some Kd
        ∧ d.level lib use_pyramid 3 s = some s1 ∧ s1.log = s.log ++ l
        ∧ (use_pyramid = true →
            l.head? = some (d.pass lib 3 Kg Kg Kd false 0 { s with last_error := FLT_MAX }))
        ∧ (∀ it ∈ l, it.pyramid_lvl = 3 ∧ it.Trl_in.t = 0
            ∧ it.out.X 0 = 0 ∧ it.out.X 1 = 0 ∧ it.out.X 2 = 0
            ∧ (∀ i : Fin 3, it.out.X (Fin.natAdd 3 i)
                = -(lib.solve3
                    (Matrix.of fun a b =>
                      it.out.pose_ref.LHS (Fin.natAdd 3 a) (Fin.natAdd 3 b))
                    (fun a => it.out.pose_ref.RHS (Fin.natAdd 3 a))) i)
            ∧ (lib.exp it.out.X).t = 0
            ∧ (((it.Trl_in.inverse).mul (lib.exp it.out.X)).inverse).t = 0)
        ∧ (lastAccepted l = none → s1.Trl = s.Trl)
        ∧ (∀ it, lastAccepted l = some it →
            s1.Trl = ((it.Trl_in.inverse).mul (lib.exp it.out.X)).inverse)
        ∧ s1.Trl.t = 0
        ∧ d.levels lib use_pyramid (levelsDown 4) s = d.levels lib use_pyramid [2, 1, 0] s1 := by
  constructor
  · intro lvl hl
    rw [vec_full_estimate_get lvl hl]
    interval_cases lvl <;> decide
  · obtain ⟨Kg, Kd, hKg, hKd, hlevel⟩ :=
      DTrack.level_eq lib d use_pyramid 3 s (by decide) hready.2.1 hready.2.2
    have hlevel2 : d.level lib use_pyramid 3 s
        = some (d.iterate lib 3 Kg Kg Kd false
            (if use_pyramid = false then (if 3 = 0 then 3 else 0) else 3 + 1) 0
            { s with last_error := FLT_MAX }) := hlevel
    have hinv : ∀ (st : EstState) (k : ℕ), st.Trl.t = 0 →
        (d.pass lib 3 Kg Kg Kd false k st).accepted = true →
        (afterAccept lib st (d.pass lib 3 Kg Kg Kd false k st)).Trl.t = 0 := by
      intro st k hst _
      exact afterAccept_translation lib st _ hst (hexp _ rfl rfl rfl)
    obtain ⟨l, hlog, hhead, hpass⟩ := DTrack.iterate_passes lib d 3 Kg Kg Kd false
      (fun st => st.Trl.t = 0) hinv
      (if use_pyramid = false then (if 3 = 0 then 3 else 0) else 3 + 1) 0
      { s with last_error := FLT_MAX } ht
    obtain ⟨l2, hlog2, _, hnone, hsome⟩ := DTrack.iterate_last lib d 3 Kg Kg Kd false
      (if use_pyramid = false then (if 3 = 0 then 3 else 0) else 3 + 1) 0
      { s with last_error := FLT_MAX }
    have hl2 : l2 = l := List.append_cancel_left (hlog2.symm.trans hlog)
    subst hl2
    refine ⟨_, l2, Kg, Kd, hKg, hKd, hlevel2, hlog, ?_, ?_, ?_, ?_, ?_, ?_⟩
    · intro hu
      apply hhead
      rw [hu]
      decide
    · intro it hit
      obtain ⟨k1, s1, hP, rfl⟩ := hpass it hit
      obtain ⟨x0, x1, x2, x3⟩ := DTrack.pass_rotation_only lib d 3 Kg Kg Kd k1 s1
      have he := hexp (d.pass lib 3 Kg Kg Kd false k1 s1).out.X x0 x1 x2
      exact ⟨rfl, hP, x0, x1, x2, x3, he, afterAccept_translation lib s1 _ hP he⟩
    · intro hn
      exact (hnone hn).2
    · intro it hit
      exact (hsome it hit).2.2.2.1
    · refine DTrack.iterate_induction lib d 3 Kg Kg Kd false (fun st => st.Trl.t = 0) ?_ ?_ _ 0
        { s with last_error := FLT_MAX } ht
      · intro st k hst hacc
        exact hinv st k hst hacc
      · intro st k hst _
        exact hst
    · rw [levelsDown_four]
      show (match d.level lib use_pyramid 3 s with
        | none => none
        | some s1 => d.levels lib use_pyramid [2, 1, 0] s1) = _
      rw [hlevel2]


theorem exactLib_solve3 (A : Mat3) (x : Vec3) (h : A.det ≠ 0) :
    exactLib.solve3 A (A.mulVec x) = x := by
  show (A.det)⁻¹ • A.adjugate.mulVec (A.mulVec x) = x
  rw [Matrix.mulVec_mulVec, Matrix.adjugate_mul, Matrix.smul_mulVec_assoc, Matrix.one_mulVec,
    smul_smul, inv_mul_cancel₀ h, one_smul]

theorem rotLib_exp_rotation (X : Vec6) (h0 : X 0 = 0) (h1 : X 1 = 0) (h2 : X 2 = 0) :
    (rotLib.exp X).t = 0 := by
  show ![X 0, X 1, X 2] = 0
  rw [h0, h1, h2]
  ext i
  fin_cases i <;> rfl

theorem bigTracker_ready : bigTracker.Ready :=
  ⟨rfl, Nat.le_refl 4, Nat.le_refl 4⟩

/-- The intrinsics that the third worked example stores for level 3 are
`demoK`. -/
theorem bigTracker_cam3 :
    bigTracker.ref_grey_cam_model_[3]? = some demoK
    ∧ bigTracker.ref_depth_cam_model_[3]? = some demoK := by
  have h1 : (1 : ℚ) / 2 ^ 3 = 1 / 8 := by norm_num
  have h2 : DTrack._ScaleCM rotLib bigK 3 = demoK := by
    unfold DTrack._ScaleCM
    simp only [h1]
    decide!
  constructor
  · show some (DTrack._ScaleCM rotLib bigK 3) = some demoK
    rw [h2]
  · show some (DTrack._ScaleCM rotLib bigK 3) = some demoK
    rw [h2]

/-- The first pass of level 3 of the third worked example: six observations,
RMS `1/5000`, and an update without translational part whose rotational part
is `bigOmega`. -/
theorem bigPass0_out :
    bigPass0.out.pose_ref = parallel_reduce 64 (bigPose SE3.identity)
    ∧ bigPass0.out.new_error = some (1 / 5000)
    ∧ bigPass0.out.X = ![0, 0, 0, bigOmega 0, bigOmega 1, bigOmega 2] := by
  obtain ⟨hn, he, hdet, hrhs⟩ := big_reduce0_facts
  have hcells : (bigTracker.ref_depth_pyramid_ 3).cols * (bigTracker.ref_depth_pyramid_ 3).rows
      = 64 := by decide
  have hpr : bigPass0.out.pose_ref = parallel_reduce 64 (bigPose SE3.identity) := by
    show parallel_reduce
      ((bigTracker.ref_depth_pyramid_ 3).cols * (bigTracker.ref_depth_pyramid_ 3).rows) _ = _
    rw [hcells]
    rfl
  have hsol : exactLib.solve3
      (Matrix.of fun i j => (parallel_reduce 64 (bigPose SE3.identity)).LHS (Fin.natAdd 3 i)
        (Fin.natAdd 3 j))
      (fun i => (parallel_reduce 64 (bigPose SE3.identity)).RHS (Fin.natAdd 3 i))
      = -bigOmega := by
    rw [hrhs, exactLib_solve3 _ _ hdet]
  have hX := DTrack.pass_rotation_only rotLib bigTracker 3 demoK demoK demoK 0
    { initState SE3.identity 0 with last_error := FLT_MAX }
  refine ⟨hpr, ?_, ?_⟩
  · show rmse rotLib bigPass0.out.pose_ref.error bigPass0.out.pose_ref.num_obs = _
    rw [hpr, he, hn]
    unfold rmse
    rw [if_neg (by decide)]
    have : (3 : ℚ) / 12500000 / ((6 : ℕ) : ℚ) = 1 / 5000 * (1 / 5000) := by norm_num
    rw [this]
    exact congrArg some (exactLib_sqrt _ (by norm_num))
  · have h3 : ∀ i : Fin 3, bigPass0.out.X (Fin.natAdd 3 i) = bigOmega i := by
      intro i
      have h := hX.2.2.2 i
      have hpr2 : (bigTracker.pass rotLib 3 demoK demoK demoK false 0
          { initState SE3.identity 0 with last_error := FLT_MAX }).out.pose_ref
          = parallel_reduce 64 (bigPose SE3.identity) := hpr
      rw [hpr2] at h
      have hsol2 : rotLib.solve3
          (Matrix.of fun i j => (parallel_reduce 64 (bigPose SE3.identity)).LHS (Fin.natAdd 3 i)
            (Fin.natAdd 3 j))
          (fun i => (parallel_reduce 64 (bigPose SE3.identity)).RHS (Fin.natAdd 3 i))
          = -bigOmega := hsol
      rw [hsol2, Pi.neg_apply, neg_neg] at h
      exact h
    ext i
    fin_cases i
    · exact hX.1
    · exact hX.2.1
    · exact hX.2.2.1
    · exact h3 0
    · exact h3 1
    · exact h3 2

theorem bigPass0_accepted : bigPass0.accepted = true := by
  show accepts bigPass0.out.new_error FLT_MAX = true
  rw [bigPass0_out.2.1]
  show decide ((1 : ℚ) / 5000 < FLT_MAX) = true
  decide!

/-- The update of the first pass of the third worked example is a rotation
other than the identity, without translation. -/
theorem big_update :
    (rotLib.exp ![0, 0, 0, bigOmega 0, bigOmega 1, bigOmega 2]).t = 0
    ∧ (rotLib.exp ![0, 0, 0, bigOmega 0, bigOmega 1, bigOmega 2]).R ≠ 1
    ∧ (rotLib.exp ![0, 0, 0, bigOmega 0, bigOmega 1, bigOmega 2]).R
        * (rotLib.exp ![0, 0, 0, bigOmega 0, bigOmega 1, bigOmega 2]).Rᵀ = 1
    ∧ (((SE3.identity.inverse).mul
        (rotLib.exp ![0, 0, 0, bigOmega 0, bigOmega 1, bigOmega 2])).inverse).t = 0
    ∧ (((SE3.identity.inverse).mul
        (rotLib.exp ![0, 0, 0, bigOmega 0, bigOmega 1, bigOmega 2])).inverse).R ≠ 1 := by
  decide!

/-- C16, witness: the third worked example with the library `rotLib`, from the
identity hint, with pyramid.  Level 3 (8 x 8 cells, intrinsics `demoK`) starts
with a pass that has six observations and the RMS `1/5000` and is accepted; its
update has no translational part and the rotational part `bigOmega`, not zero;
line 530 turns `Trl` into a rotation other than the identity, without
translation, and `Trl` is without translation when the level ends. -/
theorem C16_rotation_only_coarsest_witness :
    (bigTracker.Ready
      ∧ (∀ X : Vec6, X 0 = 0 → X 1 = 0 → X 2 = 0 → (rotLib.exp X).t = 0)
      ∧ (initState SE3.identity 0).Trl.t = 0)
    ∧ ∃ s1 l, bigTracker.level rotLib true 3 (initState SE3.identity 0) = some s1
        ∧ s1.log = (initState SE3.identity 0).log ++ l
        ∧ l.head? = some bigPass0
        ∧ bigPass0.accepted = true
        ∧ bigPass0.out.pose_ref.num_obs = 6
        ∧ bigPass0.out.new_error = some (1 / 5000)
        ∧ bigPass0.out.X
            = ![0, 0, 0, -5455798 / 248304405, -370537 / 12112410, 766023 / 165536270]
        ∧ (rotLib.exp bigPass0.out.X).t = 0
        ∧ (rotLib.exp bigPass0.out.X).R ≠ 1
        ∧ (afterAccept rotLib { initState SE3.identity 0 with last_error := FLT_MAX }
            bigPass0).Trl.t = 0
        ∧ (afterAccept rotLib { initState SE3.identity 0 with last_error := FLT_MAX }
            bigPass0).Trl.R ≠ 1
        ∧ (∀ it ∈ l, it.pyramid_lvl = 3 ∧ it.Trl_in.t = 0
            ∧ it.out.X 0 = 0 ∧ it.out.X 1 = 0 ∧ it.out.X 2 = 0
            ∧ (∀ i : Fin 3, it.out.X (Fin.natAdd 3 i)
                = -(rotLib.solve3
                    (Matrix.of fun a b =>
                      it.out.pose_ref.LHS (Fin.natAdd 3 a) (Fin.natAdd 3 b))
                    (fun a => it.out.pose_ref.RHS (Fin.natAdd 3 a))) i)
            ∧ (rotLib.exp it.out.X).t = 0
            ∧ (((it.Trl_in.inverse).mul (rotLib.exp it.out.X)).inverse).t = 0)
        ∧ s1.Trl.t = 0
        ∧ bigTracker.levels rotLib true (levelsDown 4) (initState SE3.identity 0)
            = bigTracker.levels rotLib true [2, 1, 0] s1 := by
  obtain ⟨_, s1, l, Kg, Kd, hKg, hKd, hlev, hlog, hhead, hall, _, _, hT, hlevels⟩ :=
    C16_rotation_only_coarsest rotLib bigTracker true (initState SE3.identity 0)
      bigTracker_ready rotLib_exp_rotation rfl
  have hKg1 : Kg = demoK := by
    rw [bigTracker_cam3.1] at hKg
    exact (Option.some.inj hKg).symm
  have hKd1 : Kd = demoK := by
    rw [bigTracker_cam3.2] at hKd
    exact (Option.some.inj hKd).symm
  subst hKg1 hKd1
  have hh : l.head? = some bigPass0 := hhead rfl
  obtain ⟨hpr, hne, hX⟩ := bigPass0_out
  obtain ⟨u1, u2, _, u4, u5⟩ := big_update
  have hX2 : bigPass0.out.X
      = ![0, 0, 0, -5455798 / 248304405, -370537 / 12112410, 766023 / 165536270] := by
    rw [hX]
    rfl
  have hTrl : (afterAccept rotLib { initState SE3.identity 0 with last_error := FLT_MAX }
      bigPass0).Trl
      = ((SE3.identity.inverse).mul
          (rotLib.exp ![0, 0, 0, bigOmega 0, bigOmega 1, bigOmega 2])).inverse := by
    show ((SE3.identity.inverse).mul (rotLib.exp bigPass0.out.X)).inverse = _
    rw [hX]
  refine ⟨⟨bigTracker_ready, rotLib_exp_rotation, rfl⟩, s1, l, hlev, hlog, hh, bigPass0_accepted,
    ?_, hne, hX2, ?_, ?_, ?_, ?_, hall, hT, hlevels⟩
  · rw [hpr]
    exact big_reduce0_facts.1
  · rw [hX]
    exact u1
  · rw [hX]
    exact u2
  · rw [hTrl]
    exact u4
  · rw [hTrl]
    exact u5

end VIDTrack
